import Mathlib

/-!
# VINS-Fisheye: online stereo calibration and correspondence filters

A shallow embedding of `vins_estimator/src/depth_generation/stereo_online_calib.hpp`
and of `detectPoints` and `trackImage` of
`vins_estimator/src/featureTracker/feature_tracker_fisheye_cuda.cpp`.

Modelling conventions.

* `float` / `double` values are rationals (`ℚ`). The arithmetic of the
  correspondence filters is rounded as IEEE 754 rounds it (`round_float`,
  `round_double`), since there the rounding decides which elements are read; the
  matrix arithmetic of the calibrator (`R0 - R1`, `T0/scale`, `t*scale`) is exact,
  and `cv::norm` is a parameter, which may round. Overflow is not modelled.
  A division by zero, which yields a non-finite `double` in the source, is
  modelled by `none`, and every comparison with a non-finite value is false.
* `cv::Mat` values held by the calibrator are 3x3 matrices (`Mat3`) or 3x1
  column vectors (`Vec3`), the shapes that `cv::cv2eigen` into
  `Eigen::Matrix3d` / `Eigen::Vector3d` requires.
* The OpenCV primitives `cv::norm`, `cv::findEssentialMat` and
  `cv::decomposeEssentialMat` are parameters of the model (`CvNorm`,
  `CvEssential`): the calibrator is verified for every implementation of them.
* Values of type `int` and `size_t` are unbounded integers: vectors are taken to
  hold fewer than `2^31` elements, so no conversion wraps.
* A filter call ends in an `Outcome`: a returned value, `exit(-1)`, or a read
  outside a vector (undefined behaviour of `operator[]`).
* Logging (`ROS_INFO`, `ROS_WARN`, `std::cout`) and the debug window are omitted.
-/

namespace VinsFisheye

/-! ## Constants (`#define`s of the header) -/

/-- Constant `#define ORB_HAMMING_DISTANCE 40`. -/
def ORB_HAMMING_DISTANCE : ℚ := 40

/-- Constant `#define ORB_UV_DISTANCE 1.5`. -/
def ORB_UV_DISTANCE : ℚ := 3 / 2

/-- Constant `#define MAX_ESSENTIAL_OUTLIER_COST 0.01`. -/
def MAX_ESSENTIAL_OUTLIER_COST : ℚ := 1 / 100

/-- Constant `#define MINIUM_ESSENTIALMAT_SIZE 10`. -/
def MINIUM_ESSENTIALMAT_SIZE : Nat := 10

/-- Constant `#define GOOD_R_THRES 0.1`. -/
def GOOD_R_THRES : ℚ := 1 / 10

/-- Constant `#define GOOD_T_THRES 0.1`. -/
def GOOD_T_THRES : ℚ := 1 / 10

/-- Constant `#define MAX_FIND_ESSENTIALMAT_PTS 100000`. -/
def MAX_FIND_ESSENTIALMAT_PTS : Nat := 100000

/-! ## Geometry -/

/-- Pixel position `cv::Point2f`. -/
structure Point2f where
  x : ℚ
  y : ℚ
deriving DecidableEq

/-- A 3x1 `cv::Mat` / `Eigen::Vector3d`. -/
structure Vec3 where
  x : ℚ
  y : ℚ
  z : ℚ
deriving DecidableEq

/-- A 3x3 `cv::Mat` / `Eigen::Matrix3d`, stored by rows. -/
structure Mat3 where
  r0 : Vec3
  r1 : Vec3
  r2 : Vec3
deriving DecidableEq

/-- Unary minus on a column vector (`-t`). -/
def Vec3.neg (v : Vec3) : Vec3 := ⟨-v.x, -v.y, -v.z⟩

/-- Difference of column vectors (`a - b`). -/
def Vec3.sub (a b : Vec3) : Vec3 := ⟨a.x - b.x, a.y - b.y, a.z - b.z⟩

/-- Vector times scalar (`t*scale`). -/
def Vec3.mulScalar (v : Vec3) (s : ℚ) : Vec3 := ⟨v.x * s, v.y * s, v.z * s⟩

/-- Vector divided by scalar (`T0/scale`); `none` when the divisor is zero,
where the source produces non-finite entries. -/
def Vec3.divScalar (v : Vec3) (s : ℚ) : Option Vec3 :=
  if s = 0 then none else some ⟨v.x / s, v.y / s, v.z / s⟩

/-- Dot product of two vectors. -/
def Vec3.dot (a b : Vec3) : ℚ := a.x * b.x + a.y * b.y + a.z * b.z

/-- Difference of matrices (`R0 - R1`). -/
def Mat3.sub (a b : Mat3) : Mat3 := ⟨a.r0.sub b.r0, a.r1.sub b.r1, a.r2.sub b.r2⟩

/-- First column of a matrix. -/
def Mat3.col0 (m : Mat3) : Vec3 := ⟨m.r0.x, m.r1.x, m.r2.x⟩

/-- Second column of a matrix. -/
def Mat3.col1 (m : Mat3) : Vec3 := ⟨m.r0.y, m.r1.y, m.r2.y⟩

/-- Third column of a matrix. -/
def Mat3.col2 (m : Mat3) : Vec3 := ⟨m.r0.z, m.r1.z, m.r2.z⟩

/-- Matrix product (`Tcross*R_eig`). -/
def Mat3.mul (a b : Mat3) : Mat3 :=
  ⟨⟨a.r0.dot b.col0, a.r0.dot b.col1, a.r0.dot b.col2⟩,
   ⟨a.r1.dot b.col0, a.r1.dot b.col1, a.r1.dot b.col2⟩,
   ⟨a.r2.dot b.col0, a.r2.dot b.col1, a.r2.dot b.col2⟩⟩

/-- The zero vector (an unset `cv::Mat`). -/
def Vec3.zero : Vec3 := ⟨0, 0, 0⟩

/-- The zero matrix (an unset `cv::Mat`). -/
def Mat3.zero : Mat3 := ⟨Vec3.zero, Vec3.zero, Vec3.zero⟩

/-- The identity matrix. -/
def Mat3.one : Mat3 := ⟨⟨1, 0, 0⟩, ⟨0, 1, 0⟩, ⟨0, 0, 1⟩⟩

/-! ## OpenCV primitives used by the calibrator -/

/-- The function `cv::norm` on the two shapes the calibrator applies it to. -/
structure CvNorm where
  mat : Mat3 → ℚ
  vec : Vec3 → ℚ

/-- The essential-matrix primitives. `findEssentialMat left right cameraMatrix`
is `cv::findEssentialMat(left, right, cameraMatrix, cv::RANSAC, 0.99, 1.0, status)`
(the inlier mask is only logged); `decomposeEssentialMat E` returns `(R1, R2, t)`.
A sequence of calls may use a different `CvEssential` at each call, which covers
the randomness of RANSAC. -/
structure CvEssential where
  findEssentialMat : List Point2f → List Point2f → Mat3 → Mat3
  decomposeEssentialMat : Mat3 → Mat3 × Mat3 × Vec3

/-- Comparison `d < thres` of a possibly non-finite `double` with a threshold:
false when `d` is not finite. -/
def ltThres : Option ℚ → ℚ → Bool
  | some d, thres => decide (d < thres)
  | none, _ => false

/-! ## `class StereoOnlineCalib` -/

/-- Data members of `StereoOnlineCalib`. `show_` is the member `show`. -/
structure StereoOnlineCalib where
  cameraMatrix : Mat3
  R : Mat3
  T : Vec3
  R0 : Mat3
  T0 : Vec3
  E : Mat3
  E_eig : Mat3
  T_eig : Vec3
  R_eig : Mat3
  show_ : Bool
  left_pts : List Point2f
  right_pts : List Point2f
  scale : ℚ
deriving DecidableEq

namespace StereoOnlineCalib

/-- Member function `get_rotation()`. -/
def get_rotation (s : StereoOnlineCalib) : Mat3 := s.R

/-- Member function `get_translation()`. -/
def get_translation (s : StereoOnlineCalib) : Vec3 := s.T

/-- Member function `void update(cv::Mat R, cv::Mat T)`: stores `R`, `T`, their Eigen copies and
the essential matrix `E = [T]x * R`. -/
def update (s : StereoOnlineCalib) (R : Mat3) (T : Vec3) : StereoOnlineCalib :=
  let T_eig := T
  let R_eig := R
  let Tcross : Mat3 :=
    ⟨⟨0, -T_eig.z, T_eig.y⟩, ⟨T_eig.z, 0, -T_eig.x⟩, ⟨-T_eig.y, T_eig.x, 0⟩⟩
  let E_eig := Tcross.mul R_eig
  { s with R := R, T := T, T_eig := T_eig, R_eig := R_eig, E_eig := E_eig, E := E_eig }

/-- Constructor `StereoOnlineCalib(_R, _T, _cameraMatrix, _show)`: remembers the
arguments as `R0`, `T0`, sets `scale = cv::norm(_T)` and calls `update(_R, _T)`.
The correspondence buffers start empty. -/
def new (nrm : CvNorm) (_R : Mat3) (_T : Vec3) (_cameraMatrix : Mat3) (_show : Bool) :
    StereoOnlineCalib :=
  let s : StereoOnlineCalib :=
    { cameraMatrix := _cameraMatrix, R := Mat3.zero, T := Vec3.zero, R0 := _R, T0 := _T,
      E := Mat3.zero, E_eig := Mat3.zero, T_eig := Vec3.zero, R_eig := Mat3.zero,
      show_ := _show, left_pts := [], right_pts := [], scale := nrm.vec _T }
  s.update _R _T

/-- The sign convention of `calibrate_extrinsic_opencv`:
`if (t.at<double>(0, 0) > 0) t = -t;`. -/
def normalise_sign (t : Vec3) : Vec3 := if t.x > 0 then t.neg else t

/-- Member function `bool calibrate_extrinsic_opencv(left_pts, right_pts)`; returns the boolean
result and the object state after the call. -/
def calibrate_extrinsic_opencv (nrm : CvNorm) (ess : CvEssential) (s : StereoOnlineCalib)
    (left_pts right_pts : List Point2f) : Bool × StereoOnlineCalib :=
  if left_pts.length < 50 then (false, s)
  else
    let essentialMat := ess.findEssentialMat left_pts right_pts s.cameraMatrix
    let R1 := (ess.decomposeEssentialMat essentialMat).1
    let R2 := (ess.decomposeEssentialMat essentialMat).2.1
    let t := normalise_sign (ess.decomposeEssentialMat essentialMat).2.2
    let dis1 := nrm.mat (s.R0.sub R1)
    let dis2 := nrm.mat (s.R0.sub R2)
    let dis3 := (s.T0.divScalar s.scale).map (fun d => nrm.vec (t.sub d))
    if dis1 < dis2 then
      if dis1 < GOOD_R_THRES ∧ ltThres dis3 GOOD_T_THRES = true then
        (true, s.update R1 (t.mulScalar s.scale))
      else (false, s)
    else
      if dis2 < GOOD_R_THRES ∧ ltThres dis3 GOOD_T_THRES = true then
        (true, s.update R2 (t.mulScalar s.scale))
      else (false, s)

/-- The eviction loop of `calibrate_extrincic`:
`while (left_pts.size() > MAX_FIND_ESSENTIALMAT_PTS) { left_pts.erase(left_pts.begin());
right_pts.erase(right_pts.begin()); }`. The loop is driven by the size of `left_pts`
alone; erasing from an empty `right_pts` (undefined in the source, and impossible
when both buffers have one length) leaves it empty. -/
def evict_oldest : List Point2f → List Point2f → List Point2f × List Point2f
  | [], right => ([], right)
  | p :: left, right =>
    if (p :: left).length > MAX_FIND_ESSENTIALMAT_PTS then evict_oldest left right.tail
    else (p :: left, right)

/-- Member function `bool calibrate_extrincic(left, right)`. The images enter only through
`find_corresponding_pts(left, right, Pts1, Pts2)`, whose two output vectors are
the arguments `Pts1`, `Pts2` here. -/
def calibrate_extrincic (nrm : CvNorm) (ess : CvEssential) (s : StereoOnlineCalib)
    (Pts1 Pts2 : List Point2f) : Bool × StereoOnlineCalib :=
  if Pts1.length < MINIUM_ESSENTIALMAT_SIZE then (false, s)
  else
    let buf := evict_oldest (s.left_pts ++ Pts1) (s.right_pts ++ Pts2)
    let s1 : StereoOnlineCalib := { s with left_pts := buf.1, right_pts := buf.2 }
    s1.calibrate_extrinsic_opencv nrm ess s1.left_pts s1.right_pts

end StereoOnlineCalib

/-! ## Floating-point rounding

The filters compute pixel offsets in `float` and the trimmed indices in `double`;
there the rounding decides which element is read, so it is modelled: every
arithmetic result is rounded to the nearest value of the format, a tie going to
the value with an even significand (IEEE 754 binary32 and binary64). -/

/-- Nearest integer to a rational, a tie going to the even neighbour. -/
def round_half_even (q : ℚ) : ℤ :=
  if q - ⌊q⌋ < 1 / 2 then ⌊q⌋
  else if 1 / 2 < q - ⌊q⌋ then ⌊q⌋ + 1
  else if ⌊q⌋ % 2 = 0 then ⌊q⌋ else ⌊q⌋ + 1

/-- Rounding of an exact result to a binary floating-point format with `prec`
significant bits and least normal exponent `emin`: with `2^e <= |x| < 2^(e+1)`
(`e` not below `emin`, which gives the subnormal spacing), `x` is rounded to the
nearest multiple of `2^(e - (prec - 1))`. Overflow to infinity is not modelled. -/
def round_binary (prec : ℕ) (emin : ℤ) (x : ℚ) : ℚ :=
  if x = 0 then 0
  else
    let e := max (Int.log 2 |x|) emin
    let ulp : ℚ := 2 ^ (e - ((prec : ℤ) - 1))
    round_half_even (x / ulp) * ulp

/-- Rounding to `float` (24 significant bits). -/
def round_float (x : ℚ) : ℚ := round_binary 24 (-126) x

/-- Rounding to `double` (53 significant bits). -/
def round_double (x : ℚ) : ℚ := round_binary 53 (-1022) x

/-! ## Correspondence filters -/

/-- The type `cv::KeyPoint`; the filters read only its position `pt`. -/
structure KeyPoint where
  pt : Point2f
deriving DecidableEq

/-- The type `cv::DMatch`. -/
structure DMatch where
  queryIdx : Int
  trainIdx : Int
  imgIdx : Int
  distance : ℚ
deriving DecidableEq

/-- How a call of a filter ends: it returns a value, the process is ended by
`exit(-1)`, or an element is read outside a vector (undefined behaviour of
`std::vector::operator[]`). -/
inductive Outcome (α : Type) where
  | ret : α → Outcome α
  | abort : Outcome α
  | undefined : Outcome α
deriving DecidableEq

/-- Sequencing of two steps. -/
def Outcome.bind {α β : Type} : Outcome α → (α → Outcome β) → Outcome β
  | .ret a, f => f a
  | .abort, _ => .abort
  | .undefined, _ => .undefined

/-- A loop `for (auto x : xs) out.push_back(f(x))`. -/
def Outcome.mapM {α β : Type} (f : α → Outcome β) : List α → Outcome (List β)
  | [] => .ret []
  | a :: as => (f a).bind fun b => (Outcome.mapM f as).bind fun bs => .ret (b :: bs)

/-- A loop `for (auto x : xs) if (keep(x)) out.push_back(x)`. -/
def Outcome.filterM {α : Type} (keep : α → Outcome Bool) : List α → Outcome (List α)
  | [] => .ret []
  | a :: as =>
    (keep a).bind fun b => (Outcome.filterM keep as).bind fun bs =>
      .ret (if b then a :: bs else bs)

/-- The read `v[i]` of a `std::vector` at an `int` index: defined only for
`0 <= i < v.size()`. -/
def vec_at {α : Type} (v : List α) (i : Int) : Outcome α :=
  if i < 0 then .undefined
  else
    match v.get? i.toNat with
    | some a => .ret a
    | none => .undefined

/-- The function `std::sort` on a vector of numbers (ascending). -/
def std_sort (v : List ℚ) : List ℚ := v.insertionSort (· ≤ ·)

/-- Conversion of a `double` to `int`: truncation toward zero. -/
def double_to_int (x : ℚ) : Int := if 0 ≤ x then ⌊x⌋ else ⌈x⌉

/-- Function `std::vector<cv::DMatch> filter_by_hamming(matches)`. The read `dys[0]` is
outside the vector when `matches` is empty. -/
def filter_by_hamming (ms : List DMatch) : Outcome (List DMatch) :=
  let dys := std_sort (ms.map fun gm => gm.distance)
  (vec_at dys 0).bind fun d0 =>
    let max_hamming := if 2 * d0 < ORB_HAMMING_DISTANCE then ORB_HAMMING_DISTANCE else 2 * d0
    .ret (ms.filter fun gm => decide (gm.distance < max_hamming))

/-- The signed offset `query_pts[gm.queryIdx].pt.c - train_pts[gm.trainIdx].pt.c`
along the coordinate `c`: a difference of two `float` values, itself a `float`. -/
def axis_offset (c : Point2f → ℚ) (query_pts train_pts : List KeyPoint) (gm : DMatch) :
    Outcome ℚ :=
  (vec_at query_pts gm.queryIdx).bind fun q =>
    (vec_at train_pts gm.trainIdx).bind fun t => .ret (round_float (c q.pt - c t.pt))

/-- Lower index of the trimmed interval:
`int l = num*OUTLIER_XY_PRECENT; if (l == 0) l = 1;`. The product is a `double`
(`num` converts exactly), truncated by the conversion to `int`. -/
def trim_l (num : Int) (OUTLIER_XY_PRECENT : ℚ) : Int :=
  let l := double_to_int (round_double (num * OUTLIER_XY_PRECENT))
  if l = 0 then 1 else l

/-- Upper index of the trimmed interval:
`int r = num*(1-OUTLIER_XY_PRECENT); if (r >= num - 1) r = num - 2;`. The
difference and the product are each rounded to `double`. -/
def trim_r (num : Int) (OUTLIER_XY_PRECENT : ℚ) : Int :=
  let r := double_to_int (round_double (num * round_double (1 - OUTLIER_XY_PRECENT)))
  if r ≥ num - 1 then num - 2 else r

/-- The common body of `filter_by_x` and `filter_by_y`, which differ only in the
coordinate `c` (`pt.x` or `pt.y`) they read. -/
def filter_by_axis (c : Point2f → ℚ) (ms : List DMatch) (query_pts train_pts : List KeyPoint)
    (OUTLIER_XY_PRECENT : ℚ) : Outcome (List DMatch) :=
  (Outcome.mapM (axis_offset c query_pts train_pts) ms).bind fun unsorted =>
    let dxs := std_sort unsorted
    let num : Int := dxs.length
    let l := trim_l num OUTLIER_XY_PRECENT
    let r := trim_r num OUTLIER_XY_PRECENT
    if r ≤ l then .ret []
    else
      (vec_at dxs l).bind fun lv =>
        (vec_at dxs r).bind fun rv =>
          Outcome.filterM
            (fun gm => (axis_offset c query_pts train_pts gm).bind fun d =>
              .ret (decide (d > lv ∧ d < rv)))
            ms

/-- Function `filter_by_x(matches, query_pts, train_pts, OUTLIER_XY_PRECENT)`. -/
def filter_by_x (ms : List DMatch) (query_pts train_pts : List KeyPoint)
    (OUTLIER_XY_PRECENT : ℚ) : Outcome (List DMatch) :=
  filter_by_axis Point2f.x ms query_pts train_pts OUTLIER_XY_PRECENT

/-- Function `filter_by_y(matches, query_pts, train_pts, OUTLIER_XY_PRECENT)`. -/
def filter_by_y (ms : List DMatch) (query_pts train_pts : List KeyPoint)
    (OUTLIER_XY_PRECENT : ℚ) : Outcome (List DMatch) :=
  filter_by_axis Point2f.y ms query_pts train_pts OUTLIER_XY_PRECENT

/-- The comparison `i >= v.size()` of an `int` with a `size_t`: the index is
converted to `size_t`, so a negative index becomes a value above every vector
size and the comparison is true. -/
def index_ge_size (i : Int) (size : Nat) : Prop := i < 0 ∨ (size : Int) ≤ i

instance (i : Int) (size : Nat) : Decidable (index_ge_size i size) := by
  unfold index_ge_size
  infer_instance

/-- One pass of the first loop of `filter_by_duv`: the bounds test that ends the
process with `exit(-1)`, then the pixel distance of the two keypoints. `norm_pt`
is `cv::norm` on a `cv::Point2f`; the difference of the points is taken in `float`
and the norm, a `double`, is stored in a `std::vector<float>`. -/
def duv_distance (norm_pt : Point2f → ℚ) (query_pts train_pts : List KeyPoint) (gm : DMatch) :
    Outcome ℚ :=
  if index_ge_size gm.queryIdx query_pts.length ∨ index_ge_size gm.trainIdx train_pts.length then
    .abort
  else
    (vec_at query_pts gm.queryIdx).bind fun q =>
      (vec_at train_pts gm.trainIdx).bind fun t =>
        .ret (round_float
          (norm_pt ⟨round_float (q.pt.x - t.pt.x), round_float (q.pt.y - t.pt.y)⟩))

/-- Function `filter_by_duv(matches, query_pts, train_pts)`. The read
`uv_dis[uv_dis.size()/2]` is outside the vector when `matches` is empty. -/
def filter_by_duv (norm_pt : Point2f → ℚ) (ms : List DMatch)
    (query_pts train_pts : List KeyPoint) : Outcome (List DMatch) :=
  (Outcome.mapM (duv_distance norm_pt query_pts train_pts) ms).bind fun unsorted =>
    let uv_dis := std_sort unsorted
    (vec_at uv_dis ((uv_dis.length / 2 : Nat) : Int)).bind fun mid_dis =>
      .ret (ms.filter fun gm =>
        decide (gm.distance < round_double (mid_dis * ORB_UV_DISTANCE)))

/-- Matrix times column vector. -/
def Mat3.mulVec (m : Mat3) (v : Vec3) : Vec3 := ⟨m.r0.dot v, m.r1.dot v, m.r2.dot v⟩

/-- Function `undist(pt, cameraMatrix)`: the ray `((x - cx)/fx, (y - cy)/fy, 1)`
in `double` arithmetic; `none` when a focal length is zero, where the source
produces non-finite entries. -/
def undist (pt : Point2f) (cameraMatrix : Mat3) : Option Vec3 :=
  if cameraMatrix.r0.x = 0 ∨ cameraMatrix.r1.y = 0 then none
  else
    some ⟨round_double (round_double (pt.x - cameraMatrix.r0.z) / cameraMatrix.r0.x),
          round_double (round_double (pt.y - cameraMatrix.r1.z) / cameraMatrix.r1.y), 1⟩

/-- The test `cost.norm() < MAX_ESSENTIAL_OUTLIER_COST` of `filter_by_E` on
`cost = f1.transpose()*E*f2`; false when a ray is not finite. The Eigen product
and norm are taken exactly: the order in which Eigen rounds them is not fixed by
the sources, and the value of the test has no part in which keypoints are read. -/
def essential_cost_ok (f1 f2 : Option Vec3) (E : Mat3) : Bool :=
  match f1, f2 with
  | some a, some b => decide (|a.dot (E.mulVec b)| < MAX_ESSENTIAL_OUTLIER_COST)
  | _, _ => false

/-- Function `filter_by_E(matches, query_pts, train_pts, cameraMatrix, E)`. -/
def filter_by_E (ms : List DMatch) (query_pts train_pts : List KeyPoint)
    (cameraMatrix : Mat3) (E : Mat3) : Outcome (List DMatch) :=
  Outcome.filterM
    (fun gm =>
      (vec_at train_pts gm.trainIdx).bind fun kt =>
        (vec_at query_pts gm.queryIdx).bind fun kq =>
          .ret (essential_cost_ok (undist kt.pt cameraMatrix) (undist kq.pt cameraMatrix) E))
    ms

/-! ## Sequences of calls -/

/-- One call on a calibrator object: `calibrate_extrincic` (whose matching step
`find_corresponding_pts` delivered `Pts1`, `Pts2`) or a direct call of the public
`calibrate_extrinsic_opencv` with the given point lists. -/
inductive Call where
  | extrincic (ess : CvEssential) (Pts1 Pts2 : List Point2f) : Call
  | opencv (ess : CvEssential) (left_pts right_pts : List Point2f) : Call

/-- Result and next state of one call. -/
def Call.apply (nrm : CvNorm) (s : StereoOnlineCalib) : Call → Bool × StereoOnlineCalib
  | .extrincic ess Pts1 Pts2 => s.calibrate_extrincic nrm ess Pts1 Pts2
  | .opencv ess left_pts right_pts => s.calibrate_extrinsic_opencv nrm ess left_pts right_pts

/-- State after a sequence of calls, first call first. -/
def run (nrm : CvNorm) (s : StereoOnlineCalib) : List Call → StereoOnlineCalib
  | [] => s
  | c :: cs => run nrm (c.apply nrm s).2 cs

/-- The essential-matrix primitives used by a call. -/
def Call.ess : Call → CvEssential
  | .extrincic ess _ _ => ess
  | .opencv ess _ _ => ess

/-! ## `FisheyeFeatureTrackerCuda` (`feature_tracker_fisheye_cuda.cpp`)

The class declaration, the configuration globals (`MIN_DIST`, `TOP_PTS_CNT`,
`SIDE_PTS_CNT`, the `enable_*` switches) and the bodies of `opticalflow_track`,
`addPointsFisheye`, `undistortedPtsTop`, `undistortedPtsSide`, `ptsVelocity3D`,
`pts_map` and `setup_feature_frame` are not part of the sources embedded here, nor
are the OpenCV corner detector and the FLANN index: the configuration is a
parameter (`TrackerConfig`) and the functions are parameters (`TrackPrimitives`),
with one result field for every argument the call can write through. -/

/-- An image `cv::cuda::GpuMat`, read only by the primitives. -/
structure GpuMat where
  rows : Nat
  cols : Nat
  data : List Nat

/-- The type `cv::Point3f`. -/
structure Point3f where
  x : ℚ
  y : ℚ
  z : ℚ
deriving DecidableEq

/-- Result of `kdtree.radiusSearch(query, indices, dists, radius, maxResults)`:
the returned count and the vector `indices` after the call. -/
structure RadiusSearchResult where
  ret : Int
  indices : List Int

/-- Result of `opticalflow_track`: the returned points and the four arguments it
takes by reference. -/
structure FlowResult where
  cur_pts : List Point2f
  prev_pyr : List GpuMat
  prev_pts : List Point2f
  ids : List Int
  track_cnt : List Int

/-- Result of `ptsVelocity3D(ids, pts, cur_id_pts, prev_id_pts)`: the returned
velocities and the four arguments after the call. -/
structure VelocityResult where
  vel : List Point3f
  ids : List Int
  pts : List Point3f
  cur_id_pts : List (Int × Point3f)
  prev_id_pts : List (Int × Point3f)

/-- The feature frame returned by `trackImage` (`map<int, vector<pair<int,
Matrix<double, 8, 1>>>>`). -/
abbrev FeatureFrame := List (Int × List (Int × List ℚ))

/-- Configuration globals read by the tracker. -/
structure TrackerConfig where
  enable_up_top : Bool
  enable_up_side : Bool
  enable_down_top : Bool
  enable_down_side : Bool
  TOP_PTS_CNT : Int
  SIDE_PTS_CNT : Int
  MIN_DIST : ℚ

/-- Data members of `FisheyeFeatureTrackerCuda` that `trackImage` reads or writes
(the image sizes and the timing statistics are left out). -/
structure FisheyeFeatureTrackerCuda where
  cur_time : ℚ
  prev_time : ℚ
  is_blank_init : Bool
  n_id : Int
  removed_pts : List Int
  cur_up_top_pts : List Point2f
  cur_up_side_pts : List Point2f
  cur_down_top_pts : List Point2f
  cur_down_side_pts : List Point2f
  prev_up_top_pts : List Point2f
  prev_up_side_pts : List Point2f
  prev_down_top_pts : List Point2f
  prev_down_side_pts : List Point2f
  cur_up_top_un_pts : List Point3f
  cur_up_side_un_pts : List Point3f
  cur_down_top_un_pts : List Point3f
  cur_down_side_un_pts : List Point3f
  prev_up_top_un_pts : List Point3f
  prev_up_side_un_pts : List Point3f
  prev_down_top_un_pts : List Point3f
  prev_down_side_un_pts : List Point3f
  cur_up_top_un_pts_map : List (Int × Point3f)
  cur_up_side_un_pts_map : List (Int × Point3f)
  cur_down_top_un_pts_map : List (Int × Point3f)
  cur_down_side_un_pts_map : List (Int × Point3f)
  prev_up_top_un_pts_map : List (Int × Point3f)
  prev_up_side_un_pts_map : List (Int × Point3f)
  prev_down_top_un_pts_map : List (Int × Point3f)
  prev_down_side_un_pts_map : List (Int × Point3f)
  ids_up_top : List Int
  ids_up_side : List Int
  ids_down_top : List Int
  ids_down_side : List Int
  track_up_top_cnt : List Int
  track_up_side_cnt : List Int
  track_down_top_cnt : List Int
  track_down_side_cnt : List Int
  prev_up_top_pyr : List GpuMat
  prev_up_side_pyr : List GpuMat
  prev_down_top_pyr : List GpuMat
  n_pts_up_top : List Point2f
  n_pts_down_top : List Point2f
  n_pts_up_side : List Point2f
  up_top_vel : List Point3f
  down_top_vel : List Point3f
  up_side_vel : List Point3f
  down_side_vel : List Point3f
  up_top_prevLeftPtsMap : List (Int × Point2f)
  down_top_prevLeftPtsMap : List (Int × Point2f)
  up_side_prevLeftPtsMap : List (Int × Point2f)
  down_side_prevLeftPtsMap : List (Int × Point2f)

/-- Functions called by the tracker whose bodies are outside the embedded sources.
`detect img maxCorners minDistance` is
`createGoodFeaturesToTrackDetector(img.type(), maxCorners, 0.01, minDistance)->detect(img, ...)`
downloaded as a point list; `radiusSearch pts query radius maxResults` is the query
of a `cv::flann::Index` built over `pts`; `undistortedPtsTop pts i` and
`undistortedPtsSide pts i is_downward` use `fisheys_undists[i]`. The member
functions receive the object as their first argument. -/
structure TrackPrimitives where
  opticalflow_track : GpuMat → List GpuMat → List Point2f → List Int → List Int → List Int →
    Bool → FlowResult
  detect : GpuMat → Int → ℚ → List Point2f
  radiusSearch : List Point2f → Point2f → ℚ → Int → RadiusSearchResult
  addPointsFisheye : FisheyeFeatureTrackerCuda → FisheyeFeatureTrackerCuda
  undistortedPtsTop : List Point2f → Nat → List Point3f
  undistortedPtsSide : List Point2f → Nat → Bool → List Point3f
  ptsVelocity3D : FisheyeFeatureTrackerCuda → List Int → List Point3f → List (Int × Point3f) →
    List (Int × Point3f) → VelocityResult
  pts_map : List Int → List Point2f → List (Int × Point2f)
  setup_feature_frame : FisheyeFeatureTrackerCuda → FeatureFrame

/-- What a call of `detectPoints` leaves behind: the output vector `n_pts`, and
the maximum count handed to the corner detector when it was invoked (`none` when
it was not). -/
structure DetectOutcome where
  n_pts : List Point2f
  detector_request : Option Int

namespace FisheyeFeatureTrackerCuda

/-- The test `ret && indices.size() > 0` on the result of the radius search. -/
def neighbour_found (r : RadiusSearchResult) : Bool :=
  decide (r.ret ≠ 0) && decide (r.indices.length > 0)

/-- Member function `detectPoints(img, n_pts, cur_pts, require_pts)`.
`require_pts/4` is the `int` division, which truncates toward zero. -/
def detectPoints (prim : TrackPrimitives) (MIN_DIST : ℚ) (img : GpuMat)
    (cur_pts : List Point2f) (require_pts : Int) : DetectOutcome :=
  let lack_up_top_pts : Int := require_pts - (cur_pts.length : Int)
  if lack_up_top_pts > require_pts.tdiv 4 then
    let n_pts_tmp := prim.detect img lack_up_top_pts MIN_DIST
    if cur_pts.length > 0 then
      { n_pts := n_pts_tmp.filter fun pt =>
          !(neighbour_found (prim.radiusSearch cur_pts pt MIN_DIST 1)),
        detector_request := some lack_up_top_pts }
    else
      { n_pts := n_pts_tmp, detector_request := some lack_up_top_pts }
  else
    { n_pts := [], detector_request := none }

/-- Lines 138 to 238 of `trackImage`: the current points are cleared, the enabled
views are tracked by optical flow, new points are detected and added, and the
down-side view is tracked from the up-side points. The four view images are the
result of unpacking the input vectors, `concat_side` and the grey conversion. -/
def track_views (cfg : TrackerConfig) (prim : TrackPrimitives) (s : FisheyeFeatureTrackerCuda)
    (_cur_time : ℚ) (up_top_img down_top_img up_side_img down_side_img : GpuMat) :
    FisheyeFeatureTrackerCuda :=
  let s := { s with cur_time := _cur_time }
  let s := { s with
    cur_up_top_pts := [], cur_up_side_pts := [], cur_down_top_pts := [],
    cur_down_side_pts := [], cur_up_top_un_pts := [], cur_up_side_un_pts := [],
    cur_down_top_un_pts := [], cur_down_side_un_pts := [] }
  let s :=
    if cfg.enable_up_top then
      let r := prim.opticalflow_track up_top_img s.prev_up_top_pyr s.prev_up_top_pts
        s.ids_up_top s.track_up_top_cnt s.removed_pts false
      { s with cur_up_top_pts := r.cur_pts, prev_up_top_pyr := r.prev_pyr,
               prev_up_top_pts := r.prev_pts, ids_up_top := r.ids,
               track_up_top_cnt := r.track_cnt }
    else s
  let s :=
    if cfg.enable_up_side then
      let r := prim.opticalflow_track up_side_img s.prev_up_side_pyr s.prev_up_side_pts
        s.ids_up_side s.track_up_side_cnt s.removed_pts false
      { s with cur_up_side_pts := r.cur_pts, prev_up_side_pyr := r.prev_pyr,
               prev_up_side_pts := r.prev_pts, ids_up_side := r.ids,
               track_up_side_cnt := r.track_cnt }
    else s
  let s :=
    if cfg.enable_down_top then
      let r := prim.opticalflow_track down_top_img s.prev_down_top_pyr s.prev_down_top_pts
        s.ids_down_top s.track_down_top_cnt s.removed_pts false
      { s with cur_down_top_pts := r.cur_pts, prev_down_top_pyr := r.prev_pyr,
               prev_down_top_pts := r.prev_pts, ids_down_top := r.ids,
               track_down_top_cnt := r.track_cnt }
    else s
  let s :=
    if cfg.enable_up_top then
      { s with n_pts_up_top :=
          (detectPoints prim cfg.MIN_DIST up_top_img s.cur_up_top_pts cfg.TOP_PTS_CNT).n_pts }
    else s
  let s :=
    if cfg.enable_down_top then
      { s with n_pts_down_top :=
          (detectPoints prim cfg.MIN_DIST down_top_img s.cur_down_top_pts cfg.TOP_PTS_CNT).n_pts }
    else s
  let s :=
    if cfg.enable_up_side then
      { s with n_pts_up_side :=
          (detectPoints prim cfg.MIN_DIST up_side_img s.cur_up_side_pts cfg.SIDE_PTS_CNT).n_pts }
    else s
  let s := prim.addPointsFisheye s
  if cfg.enable_down_side then
    let r := prim.opticalflow_track down_side_img s.prev_up_side_pyr s.cur_up_side_pts
      s.ids_up_side s.track_down_side_cnt s.removed_pts true
    { s with ids_down_side := r.ids, cur_down_side_pts := r.cur_pts,
             prev_up_side_pyr := r.prev_pyr, track_down_side_cnt := r.track_cnt }
  else s

/-- Lines 248 to 287 of `trackImage`: undistortion, velocities, the copy of the
current state of every view into its previous state, and the id-to-pixel maps. -/
def store_frame (prim : TrackPrimitives) (s : FisheyeFeatureTrackerCuda) :
    FisheyeFeatureTrackerCuda :=
  let s := { s with cur_up_top_un_pts := prim.undistortedPtsTop s.cur_up_top_pts 0 }
  let s := { s with cur_down_top_un_pts := prim.undistortedPtsTop s.cur_down_top_pts 1 }
  let s := { s with cur_up_side_un_pts := prim.undistortedPtsSide s.cur_up_side_pts 0 false }
  let s := { s with cur_down_side_un_pts := prim.undistortedPtsSide s.cur_down_side_pts 1 true }
  let v := prim.ptsVelocity3D s s.ids_up_top s.cur_up_top_un_pts s.cur_up_top_un_pts_map
    s.prev_up_top_un_pts_map
  let s := { s with up_top_vel := v.vel, ids_up_top := v.ids, cur_up_top_un_pts := v.pts,
                    cur_up_top_un_pts_map := v.cur_id_pts,
                    prev_up_top_un_pts_map := v.prev_id_pts }
  let v := prim.ptsVelocity3D s s.ids_down_top s.cur_down_top_un_pts s.cur_down_top_un_pts_map
    s.prev_down_top_un_pts_map
  let s := { s with down_top_vel := v.vel, ids_down_top := v.ids, cur_down_top_un_pts := v.pts,
                    cur_down_top_un_pts_map := v.cur_id_pts,
                    prev_down_top_un_pts_map := v.prev_id_pts }
  let v := prim.ptsVelocity3D s s.ids_up_side s.cur_up_side_un_pts s.cur_up_side_un_pts_map
    s.prev_up_side_un_pts_map
  let s := { s with up_side_vel := v.vel, ids_up_side := v.ids, cur_up_side_un_pts := v.pts,
                    cur_up_side_un_pts_map := v.cur_id_pts,
                    prev_up_side_un_pts_map := v.prev_id_pts }
  let v := prim.ptsVelocity3D s s.ids_down_side s.cur_down_side_un_pts
    s.cur_down_side_un_pts_map s.prev_down_side_un_pts_map
  let s := { s with down_side_vel := v.vel, ids_down_side := v.ids,
                    cur_down_side_un_pts := v.pts, cur_down_side_un_pts_map := v.cur_id_pts,
                    prev_down_side_un_pts_map := v.prev_id_pts }
  let s := { s with
    prev_up_top_pts := s.cur_up_top_pts,
    prev_down_top_pts := s.cur_down_top_pts,
    prev_up_side_pts := s.cur_up_side_pts,
    prev_down_side_pts := s.cur_down_side_pts,
    prev_up_top_un_pts := s.cur_up_top_un_pts,
    prev_down_top_un_pts := s.cur_down_top_un_pts,
    prev_up_side_un_pts := s.cur_up_side_un_pts,
    prev_down_side_un_pts := s.cur_down_side_un_pts,
    prev_up_top_un_pts_map := s.cur_up_top_un_pts_map,
    prev_down_top_un_pts_map := s.cur_down_top_un_pts_map,
    prev_up_side_un_pts_map := s.cur_up_side_un_pts_map,
    prev_down_side_un_pts_map := s.cur_up_side_un_pts_map,
    prev_time := s.cur_time }
  { s with
    up_top_prevLeftPtsMap := prim.pts_map s.ids_up_top s.cur_up_top_pts,
    down_top_prevLeftPtsMap := prim.pts_map s.ids_down_top s.cur_down_top_pts,
    up_side_prevLeftPtsMap := prim.pts_map s.ids_up_side s.cur_up_side_pts,
    down_side_prevLeftPtsMap := prim.pts_map s.ids_down_side s.cur_down_side_pts }

/-- Member function `trackImage(_cur_time, img1, img2)`: returns the feature frame
and the object state after the call. A blank initialisation (`is_blank_init`)
returns before the undistortion. -/
def trackImage (cfg : TrackerConfig) (prim : TrackPrimitives) (s : FisheyeFeatureTrackerCuda)
    (_cur_time : ℚ) (up_top_img down_top_img up_side_img down_side_img : GpuMat) :
    FeatureFrame × FisheyeFeatureTrackerCuda :=
  let s := track_views cfg prim s _cur_time up_top_img down_top_img up_side_img down_side_img
  if s.is_blank_init then (prim.setup_feature_frame s, s)
  else
    let s := store_frame prim s
    (prim.setup_feature_frame s, s)

end FisheyeFeatureTrackerCuda

/-- Euclidean distance of two pixels at most `r`, stated on the squares. -/
def within_radius (a b : Point2f) (r : ℚ) : Prop :=
  0 ≤ r ∧ (a.x - b.x) ^ 2 + (a.y - b.y) ^ 2 ≤ r ^ 2

instance (a b : Point2f) (r : ℚ) : Decidable (within_radius a b r) := by
  unfold within_radius
  infer_instance

/-! ## Reference definitions for the claims -/

/-- The acceptance step of `calibrate_extrinsic_opencv` with the reference made
explicit: the rotation candidates are scored by their distance to `Rref`, the
direction by its distance to `Tref/scale`. The specification takes the held
(previously accepted) estimate `R`, `T` as the reference. -/
def calibrate_scored_against (Rref : Mat3) (Tref : Vec3) (nrm : CvNorm) (ess : CvEssential)
    (s : StereoOnlineCalib) (left_pts right_pts : List Point2f) : Bool × StereoOnlineCalib :=
  if left_pts.length < 50 then (false, s)
  else
    let dec := ess.decomposeEssentialMat (ess.findEssentialMat left_pts right_pts s.cameraMatrix)
    let t := StereoOnlineCalib.normalise_sign dec.2.2
    let dis1 := nrm.mat (Rref.sub dec.1)
    let dis2 := nrm.mat (Rref.sub dec.2.1)
    let dis3 := (Tref.divScalar s.scale).map (fun d => nrm.vec (t.sub d))
    let winner := if dis1 < dis2 then dec.1 else dec.2.1
    if min dis1 dis2 < 1 / 10 ∧ ltThres dis3 (1 / 10) = true then
      (true, s.update winner (t.mulScalar s.scale))
    else (false, s)

/-- The correspondences of a call in the reading of the specification, where
every correspondence a `calibrate_extrincic` call receives is ingested. -/
def Call.received : Call → List Point2f × List Point2f
  | .extrincic _ Pts1 Pts2 => (Pts1, Pts2)
  | .opencv _ _ _ => ([], [])

/-- The correspondences of a call that pass the guard
`Pts1.size() < MINIUM_ESSENTIALMAT_SIZE` of `calibrate_extrincic`. -/
def Call.admitted : Call → List Point2f × List Point2f
  | .extrincic _ Pts1 Pts2 => if Pts1.length < 10 then ([], []) else (Pts1, Pts2)
  | .opencv _ _ _ => ([], [])

/-- Left points of all calls of a sequence in the reading of the specification,
in call order. -/
def received_left : List Call → List Point2f
  | [] => []
  | c :: cs => c.received.1 ++ received_left cs

/-- Left points that pass the guard of `calibrate_extrincic`, in call order. -/
def admitted_left : List Call → List Point2f
  | [] => []
  | c :: cs => c.admitted.1 ++ admitted_left cs

/-- Right points that pass the guard of `calibrate_extrincic`, in call order. -/
def admitted_right : List Call → List Point2f
  | [] => []
  | c :: cs => c.admitted.2 ++ admitted_right cs

/-- The last `min cap (length)` entries of a sequence. -/
def newest (cap : Nat) (l : List Point2f) : List Point2f := l.drop (l.length - cap)

/-- Both indices of a match refer to existing keypoints. -/
def ValidMatch (query_pts train_pts : List KeyPoint) (gm : DMatch) : Prop :=
  0 ≤ gm.queryIdx ∧ gm.queryIdx < query_pts.length ∧
  0 ≤ gm.trainIdx ∧ gm.trainIdx < train_pts.length

/-- The signed offset (query coordinate minus train coordinate, as a `float`) of
a match as a total function; it is the value `axis_offset` reads when the indices
are valid. -/
def signed_offset (c : Point2f → ℚ) (query_pts train_pts : List KeyPoint) (gm : DMatch) : ℚ :=
  round_float
    (c (query_pts.getD gm.queryIdx.toNat ⟨⟨0, 0⟩⟩).pt
      - c (train_pts.getD gm.trainIdx.toNat ⟨⟨0, 0⟩⟩).pt)

/-! ## Concrete data for the examples -/

/-- Sum of the squares of the entries of a vector. -/
def Vec3.normSq (v : Vec3) : ℚ := v.dot v

/-- Sum of the squares of the entries of a matrix. -/
def Mat3.normSq (m : Mat3) : ℚ := m.r0.normSq + m.r1.normSq + m.r2.normSq

/-- The default `cv::norm` (`NORM_L2`: Euclidean norm of a vector, Frobenius norm
of a matrix) as a rational-valued function: the exact value whenever the sum of
squares is the square of a rational, and the rational approximation `Rat.sqrt`
of it otherwise. -/
def l2Norm : CvNorm := ⟨fun m => Rat.sqrt m.normSq, fun v => Rat.sqrt v.normSq⟩

/-- An essential-matrix step whose decomposition yields the candidates `R1`, `R2`
and the direction `t`. -/
def fixedEssential (R1 R2 : Mat3) (t : Vec3) : CvEssential :=
  ⟨fun _ _ _ => Mat3.zero, fun _ => (R1, R2, t)⟩

/-- Half-turn about the x axis, the twisted-pair partner of the identity for a
baseline along x. -/
def halfTurnX : Mat3 := ⟨⟨1, 0, 0⟩, ⟨0, -1, 0⟩, ⟨0, 0, -1⟩⟩

/-- Fifty distinct pixel positions. -/
def fiftyPts : List Point2f := (List.range 50).map fun (i : Nat) => ⟨(i : ℚ), 2 * (i : ℚ)⟩

/-- Ten distinct pixel positions. -/
def tenPts : List Point2f := (List.range 10).map fun (i : Nat) => ⟨(i : ℚ), 2 * (i : ℚ)⟩

/-- Nine distinct pixel positions. -/
def ninePts : List Point2f := (List.range 9).map fun (i : Nat) => ⟨(i : ℚ), 2 * (i : ℚ)⟩

/-- The unit direction `(-cos a, -sin a, 0)` given by the cosine and sine of its
angle to the negative x axis. -/
def dirAt (c s : ℚ) : Vec3 := ⟨-c, -s, 0⟩

/-- Cosine of the angle `2a` with `sin a = 41/841`. -/
def cosStep : ℚ := 703919 / 707281

/-- Sine of the angle `2a` with `sin a = 41/841`. -/
def sinStep : ℚ := 68880 / 707281

/-- Candidates whose direction is turned by the angle `2a` from the negative x axis. -/
def stepEssential : CvEssential := fixedEssential Mat3.one halfTurnX (dirAt cosStep sinStep)

/-- Candidates whose direction is turned by the angle `4a` from the negative x axis. -/
def doubleStepEssential : CvEssential :=
  fixedEssential Mat3.one halfTurnX
    (dirAt (cosStep * cosStep - sinStep * sinStep) (2 * sinStep * cosStep))

/-- Four query keypoints on one image row. -/
def fourQuery : List KeyPoint := [⟨⟨5, 7⟩⟩, ⟨⟨11, 7⟩⟩, ⟨⟨17, 7⟩⟩, ⟨⟨23, 7⟩⟩]

/-- Four train keypoints on one image row. -/
def fourTrain : List KeyPoint := [⟨⟨5, 7⟩⟩, ⟨⟨10, 7⟩⟩, ⟨⟨15, 7⟩⟩, ⟨⟨20, 7⟩⟩]

/-- Matches pairing query keypoint `i` with train keypoint `i` for `i < 3`; their
horizontal offsets are 0, 1, 2. -/
def threeMatches : List DMatch := [⟨0, 0, 0, 12⟩, ⟨1, 1, 0, 15⟩, ⟨2, 2, 0, 9⟩]

/-- The `double` nearest to 0.05: the value of `double thres = 0.05`, the
percentile that `find_corresponding_pts` passes to `filter_by_x` and `filter_by_y`. -/
def five_percent : ℚ := 3602879701896397 / 72057594037927936

/-- Six query keypoints on one image row. -/
def sixQuery : List KeyPoint :=
  [⟨⟨5, 7⟩⟩, ⟨⟨11, 7⟩⟩, ⟨⟨17, 7⟩⟩, ⟨⟨23, 7⟩⟩, ⟨⟨29, 7⟩⟩, ⟨⟨35, 7⟩⟩]

/-- Six train keypoints on one image row. -/
def sixTrain : List KeyPoint :=
  [⟨⟨5, 7⟩⟩, ⟨⟨10, 7⟩⟩, ⟨⟨15, 7⟩⟩, ⟨⟨20, 7⟩⟩, ⟨⟨25, 7⟩⟩, ⟨⟨30, 7⟩⟩]

/-- Matches pairing query keypoint `i` with train keypoint `i`; their horizontal
offsets are 0, 1, 2, 3, 4, 5. -/
def sixMatches : List DMatch :=
  [⟨0, 0, 0, 12⟩, ⟨1, 1, 0, 15⟩, ⟨2, 2, 0, 9⟩, ⟨3, 3, 0, 20⟩, ⟨4, 4, 0, 11⟩, ⟨5, 5, 0, 14⟩]

/-- A calibrator constructed with the identity rotation and a unit baseline
along the negative x axis. -/
def unitRig : StereoOnlineCalib := StereoOnlineCalib.new l2Norm Mat3.one ⟨-1, 0, 0⟩ Mat3.one false

/-- The unit rig after `update` to the identity rotation and the direction of
`stepEssential`: its state after one accepted call with those candidates. -/
def acceptedRig : StereoOnlineCalib := unitRig.update Mat3.one (dirAt cosStep sinStep)

/-- Sum of the absolute values of the coordinates of a pixel offset
(`cv::norm` with `NORM_L1`), used in the examples. -/
def l1Point (p : Point2f) : ℚ := |p.x| + |p.y|

/-- Squared Euclidean distance of two pixels: the `L2` distance of `cv::flann`,
which leaves out the square root. -/
def flann_l2 (a b : Point2f) : ℚ := (a.x - b.x) ^ 2 + (a.y - b.y) ^ 2

/-- The radius search of a `cv::flann::Index` with its default `L2` distance,
searched exhaustively and in exact arithmetic: a point of `pts` is a neighbour of
the query when its squared distance to it is at most `radius`; the call returns
the count of the neighbours and leaves `maxResults` entries in `indices`, the
positions of the first neighbours, `-1` where there is none. The library is not
part of the sources; its KD-tree search is approximate and may miss neighbours
that this search finds. -/
def flann_radius_search (pts : List Point2f) (q : Point2f) (radius : ℚ) (maxResults : Int) :
    RadiusSearchResult :=
  let hits := (List.range pts.length).filter fun i =>
    decide (flann_l2 (pts.getD i ⟨0, 0⟩) q ≤ radius)
  { ret := (hits.length : Int),
    indices := ((hits.take maxResults.toNat).map fun (i : Nat) => (i : Int))
      ++ List.replicate (maxResults.toNat - hits.length) (-1) }

/-- Corner candidates of the example detector, strongest first. -/
def cornerCandidates : List Point2f :=
  [⟨12, 21⟩, ⟨20, 20⟩, ⟨100, 100⟩, ⟨200, 50⟩, ⟨300, 80⟩, ⟨50, 300⟩]

/-- Tracker primitives of the examples: optical flow keeps every point (shifted
by five rows for the left-right track), the detector returns the strongest
`maxCorners` candidates, the radius search is the exhaustive `cv::flann` search,
rays are `(x, y, 1)`, and `ptsVelocity3D` rebuilds the id-to-ray map from its
arguments. -/
def examplePrim : TrackPrimitives where
  opticalflow_track := fun _ pyr pts ids cnt _ is_lr_track =>
    { cur_pts := if is_lr_track then pts.map fun pt => ⟨pt.x, pt.y + 5⟩ else pts,
      prev_pyr := pyr, prev_pts := pts, ids := ids, track_cnt := cnt }
  detect := fun _ maxCorners _ => cornerCandidates.take maxCorners.toNat
  radiusSearch := flann_radius_search
  addPointsFisheye := fun s => s
  undistortedPtsTop := fun pts _ => pts.map fun pt => ⟨pt.x, pt.y, 1⟩
  undistortedPtsSide := fun pts _ _ => pts.map fun pt => ⟨pt.x, pt.y, 1⟩
  ptsVelocity3D := fun _ ids pts _ prev_id_pts =>
    { vel := pts.map fun _ => ⟨0, 0, 0⟩, ids := ids, pts := pts, cur_id_pts := ids.zip pts,
      prev_id_pts := prev_id_pts }
  pts_map := fun ids pts => ids.zip pts
  setup_feature_frame := fun _ => []

/-- Configuration of the examples: all four views enabled, four points wanted
per view, minimum distance 30 pixels. -/
def exampleConfig : TrackerConfig :=
  { enable_up_top := true, enable_up_side := true, enable_down_top := true,
    enable_down_side := true, TOP_PTS_CNT := 4, SIDE_PTS_CNT := 4, MIN_DIST := 30 }

/-- An empty image. -/
def blankImage : GpuMat := { rows := 0, cols := 0, data := [] }

/-- A tracker that follows one up-side feature, id 1 at pixel `(10, 20)`, and is
past its blank initialisation. -/
def sideTracker : FisheyeFeatureTrackerCuda :=
  { cur_time := 0, prev_time := 0, is_blank_init := false, n_id := 2, removed_pts := [],
    cur_up_top_pts := [], cur_up_side_pts := [], cur_down_top_pts := [],
    cur_down_side_pts := [], prev_up_top_pts := [], prev_up_side_pts := [⟨10, 20⟩],
    prev_down_top_pts := [], prev_down_side_pts := [], cur_up_top_un_pts := [],
    cur_up_side_un_pts := [], cur_down_top_un_pts := [], cur_down_side_un_pts := [],
    prev_up_top_un_pts := [], prev_up_side_un_pts := [], prev_down_top_un_pts := [],
    prev_down_side_un_pts := [], cur_up_top_un_pts_map := [], cur_up_side_un_pts_map := [],
    cur_down_top_un_pts_map := [], cur_down_side_un_pts_map := [],
    prev_up_top_un_pts_map := [], prev_up_side_un_pts_map := [],
    prev_down_top_un_pts_map := [], prev_down_side_un_pts_map := [], ids_up_top := [],
    ids_up_side := [1], ids_down_top := [], ids_down_side := [], track_up_top_cnt := [],
    track_up_side_cnt := [3], track_down_top_cnt := [], track_down_side_cnt := [],
    prev_up_top_pyr := [], prev_up_side_pyr := [], prev_down_top_pyr := [],
    n_pts_up_top := [], n_pts_down_top := [], n_pts_up_side := [], up_top_vel := [],
    down_top_vel := [], up_side_vel := [], down_side_vel := [], up_top_prevLeftPtsMap := [],
    down_top_prevLeftPtsMap := [], up_side_prevLeftPtsMap := [],
    down_side_prevLeftPtsMap := [] }

end VinsFisheye

/-! # Theorems -/

namespace VinsFisheye

open StereoOnlineCalib

theorem normalise_sign_x_nonpos (t : Vec3) : (normalise_sign t).x ≤ 0 := by
  unfold normalise_sign
  split
  · rename_i h
    simp only [Vec3.neg]
    linarith
  · rename_i h
    exact not_lt.mp h

theorem ltThres_eq_true_iff (d : Option ℚ) (thres : ℚ) :
    ltThres d thres = true ↔ ∃ v, d = some v ∧ v < thres := by
  cases d with
  | none => simp [ltThres]
  | some v => simp [ltThres]

/-- C1. A call of `calibrate_extrinsic_opencv` with at least 50 correspondences,
where `R1`, `R2` are the rotation candidates and `t` the sign-normalised direction
(first coordinate non-positive), returns true exactly when the smaller of the two
rotation distances is below 0.1 and the translation distance is below 0.1; when it
returns true the held rotation is the nearer candidate (`R2` on a tie) and the
held translation is `scale * t`. -/
theorem calibrate_extrinsic_opencv_accepts_iff (nrm : CvNorm) (ess : CvEssential)
    (s : StereoOnlineCalib) (left_pts right_pts : List Point2f)
    (hsize : 50 ≤ left_pts.length) :
    let dec := ess.decomposeEssentialMat (ess.findEssentialMat left_pts right_pts s.cameraMatrix)
    let R1 := dec.1
    let R2 := dec.2.1
    let t := normalise_sign dec.2.2
    let dis1 := nrm.mat (s.R0.sub R1)
    let dis2 := nrm.mat (s.R0.sub R2)
    let dis3 := (s.T0.divScalar s.scale).map fun d => nrm.vec (t.sub d)
    let res := s.calibrate_extrinsic_opencv nrm ess left_pts right_pts
    t.x ≤ 0 ∧
    (res.1 = true ↔ (min dis1 dis2 < 1 / 10 ∧ ∃ d3, dis3 = some d3 ∧ d3 < 1 / 10)) ∧
    (res.1 = true →
      (dis1 < dis2 → res.2.get_rotation = R1) ∧
      (dis2 ≤ dis1 → res.2.get_rotation = R2) ∧
      res.2.get_translation = t.mulScalar s.scale) := by
  intro dec R1 R2 t dis1 dis2 dis3 res
  refine ⟨normalise_sign_x_nonpos _, ?_⟩
  have hn : ¬ left_pts.length < 50 := by omega
  have hres : res =
      if dis1 < dis2 then
        if dis1 < GOOD_R_THRES ∧ ltThres dis3 GOOD_T_THRES = true then
          (true, s.update R1 (t.mulScalar s.scale))
        else (false, s)
      else
        if dis2 < GOOD_R_THRES ∧ ltThres dis3 GOOD_T_THRES = true then
          (true, s.update R2 (t.mulScalar s.scale))
        else (false, s) := by
    show s.calibrate_extrinsic_opencv nrm ess left_pts right_pts = _
    unfold calibrate_extrinsic_opencv
    rw [if_neg hn]
  have hthr : GOOD_R_THRES = 1 / 10 ∧ GOOD_T_THRES = 1 / 10 := ⟨rfl, rfl⟩
  rw [hres, hthr.1, hthr.2]
  by_cases h12 : dis1 < dis2
  · have hmin : min dis1 dis2 = dis1 := min_eq_left h12.le
    rw [if_pos h12, hmin]
    by_cases hacc : dis1 < 1 / 10 ∧ ltThres dis3 (1 / 10) = true
    · rw [if_pos hacc]
      refine ⟨?_, ?_⟩
      · simp only [true_iff]
        exact ⟨hacc.1, (ltThres_eq_true_iff _ _).mp hacc.2⟩
      · intro _
        refine ⟨fun _ => rfl, fun h21 => absurd h12 (not_lt.mpr h21), rfl⟩
    · rw [if_neg hacc]
      refine ⟨?_, ?_⟩
      · constructor
        · intro h; cases h
        · intro h
          exact absurd ⟨h.1, (ltThres_eq_true_iff _ _).mpr h.2⟩ hacc
      · intro h; cases h
  · have hmin : min dis1 dis2 = dis2 := min_eq_right (not_lt.mp h12)
    rw [if_neg h12, hmin]
    by_cases hacc : dis2 < 1 / 10 ∧ ltThres dis3 (1 / 10) = true
    · rw [if_pos hacc]
      refine ⟨?_, ?_⟩
      · simp only [true_iff]
        exact ⟨hacc.1, (ltThres_eq_true_iff _ _).mp hacc.2⟩
      · intro _
        refine ⟨fun h => absurd h h12, fun _ => rfl, rfl⟩
    · rw [if_neg hacc]
      refine ⟨?_, ?_⟩
      · constructor
        · intro h; cases h
        · intro h
          exact absurd ⟨h.1, (ltThres_eq_true_iff _ _).mpr h.2⟩ hacc
      · intro h; cases h

theorem l2Norm_vec_of_sq (v : Vec3) (q : ℚ) (hq : 0 ≤ q) (h : v.normSq = q * q) :
    l2Norm.vec v = q := by
  show Rat.sqrt v.normSq = q
  rw [h, Rat.sqrt_eq, abs_of_nonneg hq]

theorem l2Norm_mat_of_sq (m : Mat3) (q : ℚ) (hq : 0 ≤ q) (h : m.normSq = q * q) :
    l2Norm.mat m = q := by
  show Rat.sqrt m.normSq = q
  rw [h, Rat.sqrt_eq, abs_of_nonneg hq]

theorem l2Norm_mat_eight (m : Mat3) (h : m.normSq = 8) : l2Norm.mat m = 2 := by
  show Rat.sqrt m.normSq = 2
  rw [h]
  have h8 : Nat.sqrt 8 = 2 := (Nat.eq_sqrt.mpr ⟨by norm_num, by norm_num⟩).symm
  simp [Rat.sqrt, Int.sqrt, h8]

theorem fiftyPts_length : fiftyPts.length = 50 := by
  simp only [fiftyPts, List.length_map, List.length_range]

/-- Witness for C1: on the unit rig, candidates `(identity, half turn)` with
direction `(1, 0, 0)` (flipped to `(-1, 0, 0)`) are accepted, and the identity and
the unchanged baseline are held afterwards. -/
theorem calibrate_extrinsic_opencv_accepts_iff_witness :
    50 ≤ fiftyPts.length ∧
    (unitRig.calibrate_extrinsic_opencv l2Norm (fixedEssential Mat3.one halfTurnX ⟨1, 0, 0⟩)
        fiftyPts fiftyPts).1 = true ∧
    (unitRig.calibrate_extrinsic_opencv l2Norm (fixedEssential Mat3.one halfTurnX ⟨1, 0, 0⟩)
        fiftyPts fiftyPts).2.get_rotation = Mat3.one := by
  have hlen : 50 ≤ fiftyPts.length := fiftyPts_length.ge
  have key := calibrate_extrinsic_opencv_accepts_iff l2Norm
    (fixedEssential Mat3.one halfTurnX ⟨1, 0, 0⟩) unitRig fiftyPts fiftyPts hlen
  have d1 : l2Norm.mat (unitRig.R0.sub Mat3.one) = 0 :=
    l2Norm_mat_of_sq _ 0 le_rfl (by
      norm_num [unitRig, StereoOnlineCalib.new, update, Mat3.sub, Vec3.sub, Mat3.one, Mat3.normSq,
        Vec3.normSq, Vec3.dot])
  have d2 : l2Norm.mat (unitRig.R0.sub halfTurnX) = 2 :=
    l2Norm_mat_eight _ (by
      norm_num [unitRig, StereoOnlineCalib.new, update, Mat3.sub, Vec3.sub, Mat3.one, halfTurnX,
        Mat3.normSq, Vec3.normSq, Vec3.dot])
  have hscale : unitRig.scale = 1 :=
    l2Norm_vec_of_sq _ 1 zero_le_one (by norm_num [Vec3.normSq, Vec3.dot])
  have d3 : (unitRig.T0.divScalar unitRig.scale).map
      (fun d => l2Norm.vec ((normalise_sign ⟨1, 0, 0⟩).sub d)) = some 0 := by
    rw [hscale]
    have : l2Norm.vec ((normalise_sign ⟨1, 0, 0⟩).sub ⟨-1, 0, 0⟩) = 0 :=
      l2Norm_vec_of_sq _ 0 le_rfl (by
        norm_num [normalise_sign, Vec3.neg, Vec3.sub, Vec3.normSq, Vec3.dot])
    simp [unitRig, StereoOnlineCalib.new, update, Vec3.divScalar, this]
  have hacc : (unitRig.calibrate_extrinsic_opencv l2Norm
      (fixedEssential Mat3.one halfTurnX ⟨1, 0, 0⟩) fiftyPts fiftyPts).1 = true := by
    refine key.2.1.mpr ⟨?_, 0, d3, by norm_num⟩
    show min (l2Norm.mat (unitRig.R0.sub Mat3.one)) (l2Norm.mat (unitRig.R0.sub halfTurnX)) < 1 / 10
    rw [d1, d2]
    norm_num
  refine ⟨hlen, hacc, (key.2.2 hacc).1 ?_⟩
  show l2Norm.mat (unitRig.R0.sub Mat3.one) < l2Norm.mat (unitRig.R0.sub halfTurnX)
  rw [d1, d2]
  norm_num

theorem calibrate_extrinsic_opencv_false_state (nrm : CvNorm) (ess : CvEssential)
    (s : StereoOnlineCalib) (left_pts right_pts : List Point2f)
    (h : (s.calibrate_extrinsic_opencv nrm ess left_pts right_pts).1 = false) :
    (s.calibrate_extrinsic_opencv nrm ess left_pts right_pts).2 = s := by
  unfold calibrate_extrinsic_opencv at h ⊢
  dsimp only at h ⊢
  split_ifs at h ⊢
  all_goals rfl

theorem calibrate_extrinsic_opencv_small (nrm : CvNorm) (ess : CvEssential)
    (s : StereoOnlineCalib) (left_pts right_pts : List Point2f) (h : left_pts.length < 50) :
    s.calibrate_extrinsic_opencv nrm ess left_pts right_pts = (false, s) := by
  unfold calibrate_extrinsic_opencv
  rw [if_pos h]

theorem calibrate_extrinsic_opencv_reject (nrm : CvNorm) (ess : CvEssential)
    (s : StereoOnlineCalib) (left_pts right_pts : List Point2f)
    (h : 1 / 10 ≤ min
          (nrm.mat (s.R0.sub
            (ess.decomposeEssentialMat (ess.findEssentialMat left_pts right_pts s.cameraMatrix)).1))
          (nrm.mat (s.R0.sub
            (ess.decomposeEssentialMat (ess.findEssentialMat left_pts right_pts s.cameraMatrix)).2.1))
        ∨ ltThres ((s.T0.divScalar s.scale).map fun d => nrm.vec ((normalise_sign
            (ess.decomposeEssentialMat
              (ess.findEssentialMat left_pts right_pts s.cameraMatrix)).2.2).sub d))
            (1 / 10) = false) :
    s.calibrate_extrinsic_opencv nrm ess left_pts right_pts = (false, s) := by
  have hthr : GOOD_R_THRES = 1 / 10 ∧ GOOD_T_THRES = 1 / 10 := ⟨rfl, rfl⟩
  unfold calibrate_extrinsic_opencv
  simp only [hthr.1, hthr.2]
  split
  · rfl
  · split
    · rename_i h12
      rw [min_eq_left h12.le] at h
      rw [if_neg]
      rintro ⟨ha, hb⟩
      rcases h with h | h
      · exact absurd ha (not_lt.mpr h)
      · rw [hb] at h; cases h
    · rename_i h12
      rw [min_eq_right (not_lt.mp h12)] at h
      rw [if_neg]
      rintro ⟨ha, hb⟩
      rcases h with h | h
      · exact absurd ha (not_lt.mpr h)
      · rw [hb] at h; cases h

theorem evict_oldest_of_le (l r : List Point2f) (h : l.length ≤ MAX_FIND_ESSENTIALMAT_PTS) :
    evict_oldest l r = (l, r) := by
  cases l with
  | nil => rfl
  | cons p l =>
    unfold evict_oldest
    rw [if_neg (not_lt.mpr h)]

/-- C2. A call that returns false leaves the held estimate untouched: for
`calibrate_extrinsic_opencv` the whole object, for `calibrate_extrincic` the
rotation, translation and essential matrix (and their Eigen copies). This is the
outcome with fewer than 10 new correspondences (nothing changes, the buffer
included), with fewer than 50 accumulated correspondences, and whenever the nearer
rotation candidate or the translation misses the 0.1 threshold. -/
theorem rejected_call_keeps_estimate (nrm : CvNorm) (ess : CvEssential)
    (s : StereoOnlineCalib) (Pts1 Pts2 : List Point2f) :
    let viaPoints := s.calibrate_extrinsic_opencv nrm ess Pts1 Pts2
    let viaImages := s.calibrate_extrincic nrm ess Pts1 Pts2
    let buf := evict_oldest (s.left_pts ++ Pts1) (s.right_pts ++ Pts2)
    let s1 : StereoOnlineCalib := { s with left_pts := buf.1, right_pts := buf.2 }
    let rejects := fun (st : StereoOnlineCalib) (l r : List Point2f) =>
      1 / 10 ≤ min
          (nrm.mat (st.R0.sub
            (ess.decomposeEssentialMat (ess.findEssentialMat l r st.cameraMatrix)).1))
          (nrm.mat (st.R0.sub
            (ess.decomposeEssentialMat (ess.findEssentialMat l r st.cameraMatrix)).2.1))
        ∨ ltThres ((st.T0.divScalar st.scale).map fun d => nrm.vec ((normalise_sign
            (ess.decomposeEssentialMat (ess.findEssentialMat l r st.cameraMatrix)).2.2).sub d))
            (1 / 10) = false
    (viaPoints.1 = false → viaPoints.2 = s) ∧
    (viaImages.1 = false →
      viaImages.2.R = s.R ∧ viaImages.2.T = s.T ∧ viaImages.2.E = s.E ∧
      viaImages.2.R_eig = s.R_eig ∧ viaImages.2.T_eig = s.T_eig ∧
      viaImages.2.E_eig = s.E_eig) ∧
    (Pts1.length < 10 → viaImages = (false, s)) ∧
    (Pts1.length < 50 → viaPoints = (false, s)) ∧
    (s.left_pts.length + Pts1.length < 50 → viaImages.1 = false) ∧
    (rejects s Pts1 Pts2 → viaPoints = (false, s)) ∧
    (rejects s1 buf.1 buf.2 → viaImages.1 = false) := by
  intro viaPoints viaImages buf s1 rejects
  have himg : ¬ Pts1.length < 10 → viaImages = s1.calibrate_extrinsic_opencv nrm ess buf.1 buf.2 := by
    intro h
    show s.calibrate_extrincic nrm ess Pts1 Pts2 = _
    unfold calibrate_extrincic
    have h10 : ¬ Pts1.length < MINIUM_ESSENTIALMAT_SIZE := h
    rw [if_neg h10]
  have hlt : Pts1.length < 10 → viaImages = (false, s) := by
    intro h
    show s.calibrate_extrincic nrm ess Pts1 Pts2 = _
    unfold calibrate_extrincic
    have h10 : Pts1.length < MINIUM_ESSENTIALMAT_SIZE := h
    rw [if_pos h10]
  refine ⟨calibrate_extrinsic_opencv_false_state nrm ess s Pts1 Pts2, ?_, hlt,
    calibrate_extrinsic_opencv_small nrm ess s Pts1 Pts2, ?_,
    calibrate_extrinsic_opencv_reject nrm ess s Pts1 Pts2, ?_⟩
  · intro hfalse
    by_cases h : Pts1.length < 10
    · rw [hlt h]
      exact ⟨rfl, rfl, rfl, rfl, rfl, rfl⟩
    · rw [himg h] at hfalse ⊢
      rw [calibrate_extrinsic_opencv_false_state nrm ess s1 buf.1 buf.2 hfalse]
      exact ⟨rfl, rfl, rfl, rfl, rfl, rfl⟩
  · intro hacc
    by_cases h : Pts1.length < 10
    · rw [hlt h]
    · have hcap : (s.left_pts ++ Pts1).length ≤ MAX_FIND_ESSENTIALMAT_PTS := by
        rw [List.length_append]
        unfold MAX_FIND_ESSENTIALMAT_PTS
        omega
      have hbuf : buf = (s.left_pts ++ Pts1, s.right_pts ++ Pts2) :=
        evict_oldest_of_le _ _ hcap
      have hsmall : buf.1.length < 50 := by
        rw [hbuf, List.length_append]
        exact hacc
      rw [himg h, calibrate_extrinsic_opencv_small nrm ess s1 buf.1 buf.2 hsmall]
  · intro hrej
    by_cases h : Pts1.length < 10
    · rw [hlt h]
    · rw [himg h, calibrate_extrinsic_opencv_reject nrm ess s1 buf.1 buf.2 hrej]

/-- Witness for C2: on the unit rig a `calibrate_extrincic` call with nine new
correspondences returns false and changes nothing. -/
theorem rejected_call_keeps_estimate_witness :
    ninePts.length < 10 ∧
    unitRig.calibrate_extrincic l2Norm (fixedEssential Mat3.one halfTurnX ⟨1, 0, 0⟩)
      ninePts ninePts = (false, unitRig) :=
  ⟨by simp only [ninePts, List.length_map, List.length_range]; norm_num,
    (rejected_call_keeps_estimate l2Norm (fixedEssential Mat3.one halfTurnX ⟨1, 0, 0⟩) unitRig
      ninePts ninePts).2.2.1
      (by simp only [ninePts, List.length_map, List.length_range]; norm_num)⟩

/-! ### The reference of the scoring -/

theorem calibrate_extrinsic_opencv_eq_scored (nrm : CvNorm) (ess : CvEssential)
    (s : StereoOnlineCalib) (left_pts right_pts : List Point2f) :
    s.calibrate_extrinsic_opencv nrm ess left_pts right_pts
      = calibrate_scored_against s.R0 s.T0 nrm ess s left_pts right_pts := by
  have hthr : GOOD_R_THRES = 1 / 10 ∧ GOOD_T_THRES = 1 / 10 := ⟨rfl, rfl⟩
  unfold calibrate_extrinsic_opencv calibrate_scored_against
  simp only [hthr.1, hthr.2]
  split
  · rfl
  · split
    · rename_i h12
      rw [min_eq_left h12.le]
    · rename_i h12
      rw [min_eq_right (not_lt.mp h12)]

theorem scored_accept_first (Rref : Mat3) (Tref dir : Vec3) (nrm : CvNorm) (ess : CvEssential)
    (s : StereoOnlineCalib) (left_pts right_pts : List Point2f) (R1 R2 : Mat3) (t : Vec3)
    (hsize : 50 ≤ left_pts.length)
    (hdec : ess.decomposeEssentialMat (ess.findEssentialMat left_pts right_pts s.cameraMatrix)
      = (R1, R2, t))
    (hdir : Tref.divScalar s.scale = some dir)
    (h12 : nrm.mat (Rref.sub R1) < nrm.mat (Rref.sub R2))
    (h1 : nrm.mat (Rref.sub R1) < 1 / 10)
    (h3 : nrm.vec ((normalise_sign t).sub dir) < 1 / 10) :
    calibrate_scored_against Rref Tref nrm ess s left_pts right_pts
      = (true, s.update R1 ((normalise_sign t).mulScalar s.scale)) := by
  unfold calibrate_scored_against
  rw [if_neg (by omega), hdec]
  simp only [hdir, Option.map_some', ltThres]
  rw [min_eq_left h12.le, if_pos h12, if_pos ⟨h1, by simpa using h3⟩]

theorem scored_reject_far_direction (Rref : Mat3) (Tref dir : Vec3) (nrm : CvNorm)
    (ess : CvEssential) (s : StereoOnlineCalib) (left_pts right_pts : List Point2f)
    (R1 R2 : Mat3) (t : Vec3)
    (hdec : ess.decomposeEssentialMat (ess.findEssentialMat left_pts right_pts s.cameraMatrix)
      = (R1, R2, t))
    (hdir : Tref.divScalar s.scale = some dir)
    (h3 : 1 / 10 ≤ nrm.vec ((normalise_sign t).sub dir)) :
    calibrate_scored_against Rref Tref nrm ess s left_pts right_pts = (false, s) := by
  unfold calibrate_scored_against
  split
  · rfl
  · rw [hdec]
    simp only [hdir, Option.map_some', ltThres]
    rw [if_neg]
    rintro ⟨_, hb⟩
    exact absurd (by simpa using hb) (not_lt.mpr h3)

theorem update_keeps_reference (s : StereoOnlineCalib) (R : Mat3) (T : Vec3) :
    (s.update R T).R0 = s.R0 ∧ (s.update R T).T0 = s.T0 ∧ (s.update R T).scale = s.scale ∧
    (s.update R T).cameraMatrix = s.cameraMatrix ∧
    (s.update R T).left_pts = s.left_pts ∧ (s.update R T).right_pts = s.right_pts :=
  ⟨rfl, rfl, rfl, rfl, rfl, rfl⟩

theorem calibrate_extrinsic_opencv_keeps_reference (nrm : CvNorm) (ess : CvEssential)
    (s : StereoOnlineCalib) (left_pts right_pts : List Point2f) :
    (s.calibrate_extrinsic_opencv nrm ess left_pts right_pts).2.R0 = s.R0 ∧
    (s.calibrate_extrinsic_opencv nrm ess left_pts right_pts).2.T0 = s.T0 ∧
    (s.calibrate_extrinsic_opencv nrm ess left_pts right_pts).2.scale = s.scale ∧
    (s.calibrate_extrinsic_opencv nrm ess left_pts right_pts).2.left_pts = s.left_pts ∧
    (s.calibrate_extrinsic_opencv nrm ess left_pts right_pts).2.right_pts = s.right_pts := by
  unfold calibrate_extrinsic_opencv
  dsimp only
  split_ifs
  all_goals exact ⟨rfl, rfl, rfl, rfl, rfl⟩

theorem calibrate_extrincic_keeps_reference (nrm : CvNorm) (ess : CvEssential)
    (s : StereoOnlineCalib) (Pts1 Pts2 : List Point2f) :
    (s.calibrate_extrincic nrm ess Pts1 Pts2).2.R0 = s.R0 ∧
    (s.calibrate_extrincic nrm ess Pts1 Pts2).2.T0 = s.T0 ∧
    (s.calibrate_extrincic nrm ess Pts1 Pts2).2.scale = s.scale := by
  unfold calibrate_extrincic
  split
  · exact ⟨rfl, rfl, rfl⟩
  · dsimp only
    have h := calibrate_extrinsic_opencv_keeps_reference nrm ess
      { s with left_pts := (evict_oldest (s.left_pts ++ Pts1) (s.right_pts ++ Pts2)).1,
               right_pts := (evict_oldest (s.left_pts ++ Pts1) (s.right_pts ++ Pts2)).2 }
      (evict_oldest (s.left_pts ++ Pts1) (s.right_pts ++ Pts2)).1
      (evict_oldest (s.left_pts ++ Pts1) (s.right_pts ++ Pts2)).2
    exact ⟨h.1, h.2.1, h.2.2.1⟩

theorem apply_keeps_reference (nrm : CvNorm) (s : StereoOnlineCalib) (c : Call) :
    (c.apply nrm s).2.R0 = s.R0 ∧ (c.apply nrm s).2.T0 = s.T0 ∧
    (c.apply nrm s).2.scale = s.scale := by
  cases c with
  | opencv ess l r =>
    have h := calibrate_extrinsic_opencv_keeps_reference nrm ess s l r
    exact ⟨h.1, h.2.1, h.2.2.1⟩
  | extrincic ess P1 P2 => exact calibrate_extrincic_keeps_reference nrm ess s P1 P2

theorem run_keeps_reference (nrm : CvNorm) (calls : List Call) (s : StereoOnlineCalib) :
    (run nrm s calls).R0 = s.R0 ∧ (run nrm s calls).T0 = s.T0 ∧
    (run nrm s calls).scale = s.scale := by
  induction calls generalizing s with
  | nil => exact ⟨rfl, rfl, rfl⟩
  | cons c cs ih =>
    have h := apply_keeps_reference nrm s c
    have h2 := ih (c.apply nrm s).2
    exact ⟨h2.1.trans h.1, h2.2.1.trans h.2.1, h2.2.2.trans h.2.2⟩

/-- C3 (amended). In every state reached from the constructor by any sequence of
calls, accepted updates included, `calibrate_extrinsic_opencv` scores the
candidates against the rotation `_R` and the direction `_T / norm(_T)` given at
construction: the members `R0`, `T0`, `scale` it reads are never reassigned. -/
theorem scored_against_construction_values (nrm : CvNorm) (_R : Mat3) (_T : Vec3)
    (_cameraMatrix : Mat3) (_show : Bool) (calls : List Call) (ess : CvEssential)
    (left_pts right_pts : List Point2f) :
    (run nrm (StereoOnlineCalib.new nrm _R _T _cameraMatrix _show) calls).R0 = _R ∧
    (run nrm (StereoOnlineCalib.new nrm _R _T _cameraMatrix _show) calls).T0 = _T ∧
    (run nrm (StereoOnlineCalib.new nrm _R _T _cameraMatrix _show) calls).scale = nrm.vec _T ∧
    (run nrm (StereoOnlineCalib.new nrm _R _T _cameraMatrix _show) calls).calibrate_extrinsic_opencv
        nrm ess left_pts right_pts
      = calibrate_scored_against _R _T nrm ess
          (run nrm (StereoOnlineCalib.new nrm _R _T _cameraMatrix _show) calls)
          left_pts right_pts := by
  have h := run_keeps_reference nrm calls (StereoOnlineCalib.new nrm _R _T _cameraMatrix _show)
  have hR : (run nrm (StereoOnlineCalib.new nrm _R _T _cameraMatrix _show) calls).R0 = _R := h.1
  have hT : (run nrm (StereoOnlineCalib.new nrm _R _T _cameraMatrix _show) calls).T0 = _T := h.2.1
  refine ⟨hR, hT, h.2.2, ?_⟩
  rw [calibrate_extrinsic_opencv_eq_scored, hR, hT]

/-! ### A run in which the held estimate and the construction values differ -/

theorem unitRig_scale : unitRig.scale = 1 :=
  l2Norm_vec_of_sq _ 1 zero_le_one (by norm_num [Vec3.normSq, Vec3.dot])

theorem unitRig_direction : unitRig.T0.divScalar unitRig.scale = some ⟨-1, 0, 0⟩ := by
  rw [unitRig_scale]
  simp [unitRig, StereoOnlineCalib.new, update, Vec3.divScalar]

theorem unitRig_dist_identity : l2Norm.mat (unitRig.R0.sub Mat3.one) = 0 :=
  l2Norm_mat_of_sq _ 0 le_rfl (by
    norm_num [unitRig, StereoOnlineCalib.new, update, Mat3.sub, Vec3.sub, Mat3.one, Mat3.normSq,
      Vec3.normSq, Vec3.dot])

theorem unitRig_dist_halfTurn : l2Norm.mat (unitRig.R0.sub halfTurnX) = 2 :=
  l2Norm_mat_eight _ (by
    norm_num [unitRig, StereoOnlineCalib.new, update, Mat3.sub, Vec3.sub, Mat3.one, halfTurnX,
      Mat3.normSq, Vec3.normSq, Vec3.dot])

theorem step_sign : normalise_sign (dirAt cosStep sinStep) = dirAt cosStep sinStep := by
  norm_num [normalise_sign, dirAt, cosStep]

theorem doubleStep_sign :
    normalise_sign (dirAt (cosStep * cosStep - sinStep * sinStep) (2 * sinStep * cosStep))
      = dirAt (cosStep * cosStep - sinStep * sinStep) (2 * sinStep * cosStep) := by
  norm_num [normalise_sign, dirAt, cosStep, sinStep]

theorem step_dist_axis : l2Norm.vec ((dirAt cosStep sinStep).sub ⟨-1, 0, 0⟩) = 82 / 841 :=
  l2Norm_vec_of_sq _ (82 / 841) (by norm_num) (by
    norm_num [dirAt, cosStep, sinStep, Vec3.sub, Vec3.normSq, Vec3.dot])

theorem doubleStep_dist_axis :
    l2Norm.vec ((dirAt (cosStep * cosStep - sinStep * sinStep) (2 * sinStep * cosStep)).sub
      ⟨-1, 0, 0⟩) = 137760 / 707281 :=
  l2Norm_vec_of_sq _ (137760 / 707281) (by norm_num) (by
    norm_num [dirAt, cosStep, sinStep, Vec3.sub, Vec3.normSq, Vec3.dot])

theorem doubleStep_dist_step :
    l2Norm.vec ((dirAt (cosStep * cosStep - sinStep * sinStep) (2 * sinStep * cosStep)).sub
      (dirAt cosStep sinStep)) = 82 / 841 :=
  l2Norm_vec_of_sq _ (82 / 841) (by norm_num) (by
    norm_num [dirAt, cosStep, sinStep, Vec3.sub, Vec3.normSq, Vec3.dot])

theorem first_call_accepted :
    unitRig.calibrate_extrinsic_opencv l2Norm stepEssential fiftyPts fiftyPts
      = (true, acceptedRig) := by
  unfold acceptedRig
  rw [calibrate_extrinsic_opencv_eq_scored,
    scored_accept_first unitRig.R0 unitRig.T0 ⟨-1, 0, 0⟩ l2Norm stepEssential unitRig fiftyPts
      fiftyPts Mat3.one halfTurnX (dirAt cosStep sinStep) fiftyPts_length.ge rfl unitRig_direction
      (by rw [unitRig_dist_identity, unitRig_dist_halfTurn]; norm_num)
      (by rw [unitRig_dist_identity]; norm_num)
      (by rw [step_sign, step_dist_axis]; norm_num)]
  rw [step_sign, unitRig_scale]
  simp [Vec3.mulScalar, dirAt]

theorem acceptedRig_eq : acceptedRig = unitRig.update Mat3.one (dirAt cosStep sinStep) := rfl

/-- C3 (counterexample). On the unit rig a first call is accepted and moves the
held translation to a direction turned away from the construction value. The
candidates of the next call lie within 0.1 of the held estimate, so scoring
against the held rotation and translation accepts them; the code, scoring against
the construction values, rejects them. -/
theorem scored_against_held_estimate_fails :
    unitRig.calibrate_extrinsic_opencv l2Norm stepEssential fiftyPts fiftyPts
      = (true, acceptedRig) ∧
    acceptedRig.get_rotation = Mat3.one ∧
    acceptedRig.get_translation = dirAt cosStep sinStep ∧
    acceptedRig.get_translation ≠ unitRig.get_translation ∧
    (calibrate_scored_against acceptedRig.get_rotation acceptedRig.get_translation l2Norm
        doubleStepEssential acceptedRig fiftyPts fiftyPts).1 = true ∧
    (acceptedRig.calibrate_extrinsic_opencv l2Norm doubleStepEssential fiftyPts fiftyPts).1
      = false := by
  have hscale : acceptedRig.scale = 1 := by rw [acceptedRig_eq]; exact unitRig_scale
  have hR : acceptedRig.get_rotation = Mat3.one := by rw [acceptedRig_eq]; rfl
  have hT : acceptedRig.get_translation = dirAt cosStep sinStep := by rw [acceptedRig_eq]; rfl
  have hR0 : acceptedRig.R0 = unitRig.R0 := by rw [acceptedRig_eq]; rfl
  have hT0 : acceptedRig.T0 = unitRig.T0 := by rw [acceptedRig_eq]; rfl
  refine ⟨first_call_accepted, hR, hT, ?_, ?_, ?_⟩
  · rw [hT]
    norm_num [unitRig, StereoOnlineCalib.new, update, get_translation, dirAt, cosStep]
  · have hdir : (dirAt cosStep sinStep).divScalar acceptedRig.scale
        = some (dirAt cosStep sinStep) := by
      rw [hscale]
      simp [Vec3.divScalar, dirAt]
    rw [hR, hT,
      scored_accept_first Mat3.one (dirAt cosStep sinStep) (dirAt cosStep sinStep) l2Norm
        doubleStepEssential acceptedRig fiftyPts fiftyPts Mat3.one halfTurnX
        (dirAt (cosStep * cosStep - sinStep * sinStep) (2 * sinStep * cosStep))
        fiftyPts_length.ge rfl hdir
        (by
          have h1 := unitRig_dist_identity
          have h2 := unitRig_dist_halfTurn
          rw [show unitRig.R0 = Mat3.one from rfl] at h1 h2
          rw [h1, h2]; norm_num)
        (by
          have h1 := unitRig_dist_identity
          rw [show unitRig.R0 = Mat3.one from rfl] at h1
          rw [h1]; norm_num)
        (by rw [doubleStep_sign, doubleStep_dist_step]; norm_num)]
  · have hdir : acceptedRig.T0.divScalar acceptedRig.scale = some ⟨-1, 0, 0⟩ := by
      have h := unitRig_direction
      rw [unitRig_scale] at h
      rw [hT0, hscale]
      exact h
    rw [calibrate_extrinsic_opencv_eq_scored,
      scored_reject_far_direction acceptedRig.R0 acceptedRig.T0 ⟨-1, 0, 0⟩ l2Norm
        doubleStepEssential acceptedRig fiftyPts fiftyPts Mat3.one halfTurnX
        (dirAt (cosStep * cosStep - sinStep * sinStep) (2 * sinStep * cosStep))
        rfl hdir
        (by rw [doubleStep_sign, doubleStep_dist_axis]; norm_num)]

/-! ### Floating-point rounding -/

theorem round_half_even_nonneg (q : ℚ) (h : 0 ≤ q) : 0 ≤ round_half_even q := by
  have hf : 0 ≤ ⌊q⌋ := Int.floor_nonneg.mpr h
  unfold round_half_even
  split_ifs <;> omega

theorem round_binary_nonneg (prec : ℕ) (emin : ℤ) (x : ℚ) (h : 0 ≤ x) :
    0 ≤ round_binary prec emin x := by
  unfold round_binary
  split
  · exact le_rfl
  · dsimp only
    apply mul_nonneg
    · exact_mod_cast round_half_even_nonneg _ (div_nonneg h (by positivity))
    · positivity

theorem round_double_nonneg (x : ℚ) (h : 0 ≤ x) : 0 ≤ round_double x :=
  round_binary_nonneg 53 (-1022) x h

theorem round_double_zero : round_double 0 = 0 := by
  simp [round_double, round_binary]

theorem round_float_zero : round_float 0 = 0 := by
  simp [round_float, round_binary]

theorem log2_eq (x : ℚ) (e : ℤ) (h1 : (2 : ℚ) ^ e ≤ x) (h2 : x < (2 : ℚ) ^ (e + 1)) :
    Int.log 2 x = e := by
  have hx : 0 < x := lt_of_lt_of_le (by positivity) h1
  have a := (Int.zpow_le_iff_le_log (by norm_num : 1 < 2) hx).mp (by exact_mod_cast h1)
  have b := (Int.lt_zpow_iff_log_lt (by norm_num : 1 < 2) hx).mp (by exact_mod_cast h2)
  omega

theorem round_binary_eq (prec : ℕ) (emin : ℤ) (x : ℚ) (e : ℤ) (h1 : (2 : ℚ) ^ e ≤ |x|)
    (h2 : |x| < (2 : ℚ) ^ (e + 1)) (hemin : emin ≤ e) :
    round_binary prec emin x
      = round_half_even (x / 2 ^ (e - ((prec : ℤ) - 1))) * 2 ^ (e - ((prec : ℤ) - 1)) := by
  have hx : x ≠ 0 := by
    intro h0
    rw [h0, abs_zero] at h1
    exact absurd h1 (not_le.mpr (by positivity))
  unfold round_binary
  rw [if_neg hx, log2_eq _ e h1 h2, max_eq_left hemin]

theorem round_half_even_of_near (q : ℚ) (m : ℤ) (h1 : (m : ℚ) - 1 / 2 < q)
    (h2 : q < m + 1 / 2) : round_half_even q = m := by
  unfold round_half_even
  by_cases hq : (m : ℚ) ≤ q
  · have hf : ⌊q⌋ = m := Int.floor_eq_iff.mpr ⟨hq, by linarith⟩
    rw [hf, if_pos (by linarith)]
  · have hf : ⌊q⌋ = m - 1 := Int.floor_eq_iff.mpr ⟨by push_cast; linarith, by push_cast; linarith⟩
    rw [hf]
    push_cast
    rw [if_neg (by linarith), if_pos (by linarith)]
    ring

theorem round_half_even_tie (m : ℤ) :
    round_half_even (m + 1 / 2) = if m % 2 = 0 then m else m + 1 := by
  have hf : ⌊(m : ℚ) + 1 / 2⌋ = m := Int.floor_eq_iff.mpr ⟨by linarith, by linarith⟩
  unfold round_half_even
  rw [hf, if_neg (by norm_num), if_neg (by norm_num)]

theorem round_half_even_intCast (n : ℤ) : round_half_even (n : ℚ) = n := by
  apply round_half_even_of_near <;> linarith

/-- A value `m * 2^k` whose significand `m` fits the precision is representable:
rounding leaves it as it is. -/
theorem round_binary_of_repr (prec : ℕ) (emin : ℤ) (m k : ℤ) (hm : |m| < 2 ^ prec)
    (hk : emin - ((prec : ℤ) - 1) ≤ k) :
    round_binary prec emin ((m : ℚ) * 2 ^ k) = (m : ℚ) * 2 ^ k := by
  by_cases hm0 : m = 0
  · subst hm0
    simp [round_binary]
  · have h2 : (0 : ℚ) < 2 ^ k := by positivity
    have hx : (m : ℚ) * 2 ^ k ≠ 0 := mul_ne_zero (by exact_mod_cast hm0) (ne_of_gt h2)
    have habs : (0 : ℚ) < |(m : ℚ) * 2 ^ k| := abs_pos.mpr hx
    have hlt : |(m : ℚ) * 2 ^ k| < (2 : ℚ) ^ (k + (prec : ℤ)) := by
      rw [abs_mul, abs_of_pos h2, zpow_add₀ (by norm_num : (2 : ℚ) ≠ 0), mul_comm]
      apply mul_lt_mul_of_pos_left _ h2
      have : ((|m| : ℤ) : ℚ) < ((2 ^ prec : ℤ) : ℚ) := by exact_mod_cast hm
      rw [zpow_natCast]
      rw [Int.cast_abs] at this
      exact_mod_cast this
    have hlog : Int.log 2 |(m : ℚ) * 2 ^ k| < k + (prec : ℤ) :=
      (Int.lt_zpow_iff_log_lt (by norm_num : 1 < 2) habs).mp (by exact_mod_cast hlt)
    have hj : 0 ≤ k - (max (Int.log 2 |(m : ℚ) * 2 ^ k|) emin - ((prec : ℤ) - 1)) := by
      rcases max_cases (Int.log 2 |(m : ℚ) * 2 ^ k|) emin with ⟨h, _⟩ | ⟨h, _⟩ <;> rw [h] <;> omega
    obtain ⟨j, hj2⟩ := Int.eq_ofNat_of_zero_le hj
    have hk2 : k = (j : ℤ) + (max (Int.log 2 |(m : ℚ) * 2 ^ k|) emin - ((prec : ℤ) - 1)) := by
      omega
    unfold round_binary
    rw [if_neg hx]
    dsimp only
    have hdiv : (m : ℚ) * 2 ^ k / 2 ^ (max (Int.log 2 |(m : ℚ) * 2 ^ k|) emin - ((prec : ℤ) - 1))
        = ((m * 2 ^ j : ℤ) : ℚ) := by
      have hne : (2 : ℚ) ^ (max (Int.log 2 |(m : ℚ) * 2 ^ k|) emin - ((prec : ℤ) - 1)) ≠ 0 :=
        ne_of_gt (by positivity)
      rw [div_eq_iff hne]
      nth_rewrite 1 [hk2]
      rw [zpow_add₀ (by norm_num : (2 : ℚ) ≠ 0), zpow_natCast]
      push_cast
      ring
    rw [hdiv, round_half_even_intCast]
    have hne : (2 : ℚ) ^ (max (Int.log 2 |(m : ℚ) * 2 ^ k|) emin - ((prec : ℤ) - 1)) ≠ 0 :=
      ne_of_gt (by positivity)
    rw [← hdiv, div_mul_cancel₀ _ hne]

theorem round_float_intCast (n : ℤ) (h : |n| < 2 ^ 24) : round_float (n : ℚ) = n := by
  have := round_binary_of_repr 24 (-126) n 0 h (by norm_num)
  simpa [round_float] using this

theorem round_double_eq (x : ℚ) (e : ℤ) (h1 : (2 : ℚ) ^ e ≤ |x|)
    (h2 : |x| < (2 : ℚ) ^ (e + 1)) (hemin : -1022 ≤ e) :
    round_double x = round_half_even (x / 2 ^ (e - 52)) * 2 ^ (e - 52) := by
  have h := round_binary_eq 53 (-1022) x e h1 h2 hemin
  have h52 : ((53 : ℕ) : ℤ) - 1 = 52 := by norm_num
  rw [h52] at h
  exact h

theorem round_double_near (x : ℚ) (e m : ℤ) (h1 : (2 : ℚ) ^ e ≤ |x|)
    (h2 : |x| < (2 : ℚ) ^ (e + 1)) (hemin : -1022 ≤ e)
    (hn1 : (m : ℚ) - 1 / 2 < x / 2 ^ (e - 52)) (hn2 : x / 2 ^ (e - 52) < m + 1 / 2) :
    round_double x = (m : ℚ) * 2 ^ (e - 52) := by
  rw [round_double_eq x e h1 h2 hemin, round_half_even_of_near _ m hn1 hn2]

theorem round_double_tie (x : ℚ) (e m : ℤ) (h1 : (2 : ℚ) ^ e ≤ |x|)
    (h2 : |x| < (2 : ℚ) ^ (e + 1)) (hemin : -1022 ≤ e)
    (ht : x / 2 ^ (e - 52) = m + 1 / 2) :
    round_double x = ((if m % 2 = 0 then m else m + 1 : ℤ) : ℚ) * 2 ^ (e - 52) := by
  rw [round_double_eq x e h1 h2 hemin, ht, round_half_even_tie]

theorem calibrate_extrincic_few (nrm : CvNorm) (ess : CvEssential) (s : StereoOnlineCalib)
    (Pts1 Pts2 : List Point2f) (h : Pts1.length < 10) :
    s.calibrate_extrincic nrm ess Pts1 Pts2 = (false, s) := by
  unfold calibrate_extrincic
  have h10 : Pts1.length < MINIUM_ESSENTIALMAT_SIZE := h
  rw [if_pos h10]

theorem ninePts_length : ninePts.length = 9 := by
  simp only [ninePts, List.length_map, List.length_range]

/-! ### The norm of the held translation -/

theorem evict_oldest_eq_drop (l r : List Point2f) :
    evict_oldest l r
      = (l.drop (l.length - MAX_FIND_ESSENTIALMAT_PTS),
         r.drop (l.length - MAX_FIND_ESSENTIALMAT_PTS)) := by
  induction l generalizing r with
  | nil => simp [evict_oldest]
  | cons p l ih =>
    unfold evict_oldest
    split
    · rename_i h
      have hk : (p :: l).length - MAX_FIND_ESSENTIALMAT_PTS
          = (l.length - MAX_FIND_ESSENTIALMAT_PTS) + 1 := by
        simp only [List.length_cons] at h ⊢
        omega
      rw [ih, hk, List.drop_succ_cons, List.drop_tail]
    · rename_i h
      have hk : (p :: l).length - MAX_FIND_ESSENTIALMAT_PTS = 0 := by omega
      rw [hk]
      rfl

theorem newest_def (cap : Nat) (l : List Point2f) : newest cap l = l.drop (l.length - cap) := by
  unfold newest
  rfl

theorem newest_length (cap : Nat) (l : List Point2f) :
    (newest cap l).length = min cap l.length := by
  unfold newest
  rw [List.length_drop]
  omega

theorem newest_append (cap : Nat) (a P : List Point2f) :
    newest cap (newest cap a ++ P) = newest cap (a ++ P) := by
  unfold newest
  by_cases h : a.length ≤ cap
  · have h0 : a.length - cap = 0 := by omega
    rw [h0, List.drop_zero]
  · have hcap : (List.drop (a.length - cap) a).length = cap := by
      rw [List.length_drop]
      omega
    have h1 : (List.drop (a.length - cap) a ++ P).length - cap = P.length := by
      rw [List.length_append, hcap]
      omega
    have h2 : (a ++ P).length - cap = (a.length - cap) + P.length := by
      rw [List.length_append]
      omega
    have h3 : List.drop (a.length - cap) (a ++ P) = List.drop (a.length - cap) a ++ P :=
      List.drop_append_of_le_length (by omega)
    rw [h1, h2, ← List.drop_drop, h3]

theorem calibrate_extrincic_buffer (nrm : CvNorm) (ess : CvEssential) (s : StereoOnlineCalib)
    (Pts1 Pts2 : List Point2f) (h : ¬ Pts1.length < 10) :
    (s.calibrate_extrincic nrm ess Pts1 Pts2).2.left_pts
      = newest MAX_FIND_ESSENTIALMAT_PTS (s.left_pts ++ Pts1) ∧
    (s.calibrate_extrincic nrm ess Pts1 Pts2).2.right_pts
      = (s.right_pts ++ Pts2).drop ((s.left_pts ++ Pts1).length - MAX_FIND_ESSENTIALMAT_PTS) := by
  unfold calibrate_extrincic
  have h10 : ¬ Pts1.length < MINIUM_ESSENTIALMAT_SIZE := h
  rw [if_neg h10]
  dsimp only
  have hk := calibrate_extrinsic_opencv_keeps_reference nrm ess
    { s with left_pts := (evict_oldest (s.left_pts ++ Pts1) (s.right_pts ++ Pts2)).1,
             right_pts := (evict_oldest (s.left_pts ++ Pts1) (s.right_pts ++ Pts2)).2 }
    (evict_oldest (s.left_pts ++ Pts1) (s.right_pts ++ Pts2)).1
    (evict_oldest (s.left_pts ++ Pts1) (s.right_pts ++ Pts2)).2
  rw [hk.2.2.2.1, hk.2.2.2.2, evict_oldest_eq_drop, newest_def]
  dsimp only
  exact ⟨rfl, rfl⟩

theorem apply_buffer (nrm : CvNorm) (s : StereoOnlineCalib) (c : Call) (a b : List Point2f)
    (hc : c.received.1.length = c.received.2.length)
    (hab : a.length = b.length)
    (hl : s.left_pts = newest MAX_FIND_ESSENTIALMAT_PTS a)
    (hr : s.right_pts = newest MAX_FIND_ESSENTIALMAT_PTS b) :
    (c.apply nrm s).2.left_pts = newest MAX_FIND_ESSENTIALMAT_PTS (a ++ c.admitted.1) ∧
    (c.apply nrm s).2.right_pts = newest MAX_FIND_ESSENTIALMAT_PTS (b ++ c.admitted.2) ∧
    (a ++ c.admitted.1).length = (b ++ c.admitted.2).length := by
  cases c with
  | opencv ess l r =>
    have hk := calibrate_extrinsic_opencv_keeps_reference nrm ess s l r
    refine ⟨?_, ?_, ?_⟩
    · show (s.calibrate_extrinsic_opencv nrm ess l r).2.left_pts = newest _ (a ++ [])
      rw [hk.2.2.2.1, List.append_nil, hl]
    · show (s.calibrate_extrinsic_opencv nrm ess l r).2.right_pts = newest _ (b ++ [])
      rw [hk.2.2.2.2, List.append_nil, hr]
    · show (a ++ []).length = (b ++ []).length
      rw [List.append_nil, List.append_nil, hab]
  | extrincic ess P1 P2 =>
    have hP : P1.length = P2.length := hc
    by_cases h : P1.length < 10
    · have hadm : (Call.extrincic ess P1 P2).admitted = ([], []) := by
        simp [Call.admitted, h]
      have happ : (Call.extrincic ess P1 P2).apply nrm s = (false, s) :=
        calibrate_extrincic_few nrm ess s P1 P2 h
      rw [hadm, happ]
      simp only [List.append_nil]
      exact ⟨hl, hr, hab⟩
    · have hadm : (Call.extrincic ess P1 P2).admitted = (P1, P2) := by
        simp [Call.admitted, h]
      have hbuf := calibrate_extrincic_buffer nrm ess s P1 P2 h
      have hlen : (s.left_pts ++ P1).length = (s.right_pts ++ P2).length := by
        rw [List.length_append, List.length_append, hl, hr, newest_length, newest_length, hab, hP]
      rw [hadm]
      refine ⟨?_, ?_, ?_⟩
      · show (s.calibrate_extrincic nrm ess P1 P2).2.left_pts = _
        rw [hbuf.1, hl, newest_append]
      · show (s.calibrate_extrincic nrm ess P1 P2).2.right_pts = _
        rw [hbuf.2, hlen, hr, ← newest_def, newest_append]
      · show (a ++ P1).length = (b ++ P2).length
        rw [List.length_append, List.length_append, hab, hP]

theorem run_buffer (nrm : CvNorm) (calls : List Call) (s : StereoOnlineCalib)
    (a b : List Point2f)
    (hc : ∀ c ∈ calls, c.received.1.length = c.received.2.length)
    (hab : a.length = b.length)
    (hl : s.left_pts = newest MAX_FIND_ESSENTIALMAT_PTS a)
    (hr : s.right_pts = newest MAX_FIND_ESSENTIALMAT_PTS b) :
    (run nrm s calls).left_pts = newest MAX_FIND_ESSENTIALMAT_PTS (a ++ admitted_left calls) ∧
    (run nrm s calls).right_pts = newest MAX_FIND_ESSENTIALMAT_PTS (b ++ admitted_right calls) ∧
    (a ++ admitted_left calls).length = (b ++ admitted_right calls).length := by
  induction calls generalizing s a b with
  | nil =>
    simp only [run, admitted_left, admitted_right, List.append_nil]
    exact ⟨hl, hr, hab⟩
  | cons c cs ih =>
    have h1 := apply_buffer nrm s c a b (hc c (List.mem_cons_self c cs)) hab hl hr
    have h2 := ih (c.apply nrm s).2 (a ++ c.admitted.1) (b ++ c.admitted.2)
      (fun d hd => hc d (List.mem_cons_of_mem c hd)) h1.2.2 h1.1 h1.2.1
    simp only [run, admitted_left, admitted_right, ← List.append_assoc]
    exact h2

theorem run_from_new_buffer (nrm : CvNorm) (_R : Mat3) (_T : Vec3) (_cameraMatrix : Mat3)
    (_show : Bool) (calls : List Call)
    (hc : ∀ c ∈ calls, c.received.1.length = c.received.2.length) :
    (run nrm (StereoOnlineCalib.new nrm _R _T _cameraMatrix _show) calls).left_pts
      = newest MAX_FIND_ESSENTIALMAT_PTS (admitted_left calls) ∧
    (run nrm (StereoOnlineCalib.new nrm _R _T _cameraMatrix _show) calls).right_pts
      = newest MAX_FIND_ESSENTIALMAT_PTS (admitted_right calls) ∧
    (admitted_left calls).length = (admitted_right calls).length := by
  have h := run_buffer nrm calls (StereoOnlineCalib.new nrm _R _T _cameraMatrix _show) [] []
    hc rfl rfl rfl
  simpa using h

/-- C5. Starting from the empty buffers of a freshly constructed calibrator, after
every sequence of calls in which each matching result has as many left as right
points, the buffer holds at most 100000 correspondences and `left_pts`,
`right_pts` have one length. -/
theorem buffer_capped_and_aligned (nrm : CvNorm) (_R : Mat3) (_T : Vec3)
    (_cameraMatrix : Mat3) (_show : Bool) (calls : List Call)
    (hc : ∀ c ∈ calls, c.received.1.length = c.received.2.length) :
    (run nrm (StereoOnlineCalib.new nrm _R _T _cameraMatrix _show) calls).left_pts.length
      ≤ 100000 ∧
    (run nrm (StereoOnlineCalib.new nrm _R _T _cameraMatrix _show) calls).left_pts.length
      = (run nrm (StereoOnlineCalib.new nrm _R _T _cameraMatrix _show) calls).right_pts.length := by
  have h := run_from_new_buffer nrm _R _T _cameraMatrix _show calls hc
  rw [h.1, h.2.1, newest_length, newest_length, h.2.2]
  have hcap : MAX_FIND_ESSENTIALMAT_PTS = 100000 := rfl
  rw [hcap]
  exact ⟨min_le_left _ _, rfl⟩

/-- Witness for C5: one `calibrate_extrincic` call that delivers ten
correspondences to the unit rig. -/
theorem buffer_capped_and_aligned_witness :
    (∀ c ∈ [Call.extrincic stepEssential tenPts tenPts],
      c.received.1.length = c.received.2.length) ∧
    (run l2Norm (StereoOnlineCalib.new l2Norm Mat3.one ⟨-1, 0, 0⟩ Mat3.one false)
      [Call.extrincic stepEssential tenPts tenPts]).left_pts.length ≤ 100000 :=
  ⟨by
      intro c hc
      rw [List.mem_singleton] at hc
      rw [hc]
      rfl,
    (buffer_capped_and_aligned l2Norm Mat3.one ⟨-1, 0, 0⟩ Mat3.one false
      [Call.extrincic stepEssential tenPts tenPts]
      (by
        intro c hc
        rw [List.mem_singleton] at hc
        rw [hc]
        rfl)).1⟩

/-- C6 (counterexample). A `calibrate_extrincic` call whose matching step delivers
nine correspondences appends none of them: the buffer of the fresh unit rig stays
empty, while the nine received correspondences would give size `min 100000 9 = 9`. -/
theorem short_batch_not_appended :
    (run l2Norm unitRig [Call.extrincic stepEssential ninePts ninePts]).left_pts = [] ∧
    (run l2Norm unitRig [Call.extrincic stepEssential ninePts ninePts]).right_pts = [] ∧
    (received_left [Call.extrincic stepEssential ninePts ninePts]).length = 9 ∧
    (run l2Norm unitRig [Call.extrincic stepEssential ninePts ninePts]).left_pts.length
      ≠ min 100000 (received_left [Call.extrincic stepEssential ninePts ninePts]).length := by
  have hrun : run l2Norm unitRig [Call.extrincic stepEssential ninePts ninePts] = unitRig := by
    show (unitRig.calibrate_extrincic l2Norm stepEssential ninePts ninePts).2 = unitRig
    rw [calibrate_extrincic_few l2Norm stepEssential unitRig ninePts ninePts
      (by rw [ninePts_length]; norm_num)]
  have hrec : (received_left [Call.extrincic stepEssential ninePts ninePts]).length = 9 := by
    show (ninePts ++ []).length = 9
    rw [List.append_nil, ninePts_length]
  rw [hrun, hrec]
  refine ⟨rfl, rfl, rfl, ?_⟩
  show (([] : List Point2f)).length ≠ min 100000 9
  norm_num

/-- C6 (amended). After every sequence of calls from a fresh calibrator, in which
each matching result has as many left as right points, the buffer holds exactly
the newest `min 100000 n` correspondences, in arrival order, of those delivered by
`calibrate_extrincic` calls with at least 10 new correspondences, `n` being their
total number; calls delivering fewer than 10 append nothing. -/
theorem buffer_is_newest_admitted (nrm : CvNorm) (_R : Mat3) (_T : Vec3)
    (_cameraMatrix : Mat3) (_show : Bool) (calls : List Call)
    (hc : ∀ c ∈ calls, c.received.1.length = c.received.2.length) :
    (run nrm (StereoOnlineCalib.new nrm _R _T _cameraMatrix _show) calls).left_pts
      = (admitted_left calls).drop
          ((admitted_left calls).length - min 100000 (admitted_left calls).length) ∧
    (run nrm (StereoOnlineCalib.new nrm _R _T _cameraMatrix _show) calls).right_pts
      = (admitted_right calls).drop
          ((admitted_right calls).length - min 100000 (admitted_right calls).length) ∧
    (admitted_left calls).length = (admitted_right calls).length ∧
    (run nrm (StereoOnlineCalib.new nrm _R _T _cameraMatrix _show) calls).left_pts.length
      = min 100000 (admitted_left calls).length ∧
    (run nrm (StereoOnlineCalib.new nrm _R _T _cameraMatrix _show) calls).right_pts.length
      = min 100000 (admitted_left calls).length := by
  have h := run_from_new_buffer nrm _R _T _cameraMatrix _show calls hc
  have hcap : MAX_FIND_ESSENTIALMAT_PTS = 100000 := rfl
  have hsub : ∀ n : Nat, n - min 100000 n = n - 100000 := by
    intro n
    omega
  rw [h.1, h.2.1, newest_length, newest_length, newest_def, newest_def, hcap, hsub, hsub, h.2.2]
  exact ⟨rfl, rfl, rfl, rfl, rfl⟩

/-- Witness for C6: a nine-point call (nothing appended) followed by a ten-point
call (all ten appended). -/
theorem buffer_is_newest_admitted_witness :
    (∀ c ∈ [Call.extrincic stepEssential ninePts ninePts,
            Call.extrincic stepEssential tenPts tenPts],
      c.received.1.length = c.received.2.length) ∧
    (run l2Norm (StereoOnlineCalib.new l2Norm Mat3.one ⟨-1, 0, 0⟩ Mat3.one false)
      [Call.extrincic stepEssential ninePts ninePts,
       Call.extrincic stepEssential tenPts tenPts]).left_pts.length
      = min 100000 (admitted_left [Call.extrincic stepEssential ninePts ninePts,
          Call.extrincic stepEssential tenPts tenPts]).length :=
  ⟨by
      intro c hc
      simp only [List.mem_cons, List.mem_singleton, List.not_mem_nil, or_false] at hc
      rcases hc with rfl | rfl <;> rfl,
    (buffer_is_newest_admitted l2Norm Mat3.one ⟨-1, 0, 0⟩ Mat3.one false
      [Call.extrincic stepEssential ninePts ninePts, Call.extrincic stepEssential tenPts tenPts]
      (by
        intro c hc
        simp only [List.mem_cons, List.mem_singleton, List.not_mem_nil, or_false] at hc
        rcases hc with rfl | rfl <;> rfl)).2.2.2.1⟩

/-! ### The descriptor-distance filter -/

theorem std_sort_mem (v : List ℚ) (x : ℚ) : x ∈ std_sort v ↔ x ∈ v :=
  (List.perm_insertionSort (· ≤ ·) v).mem_iff

theorem std_sort_sorted (v : List ℚ) : (std_sort v).Sorted (· ≤ ·) :=
  List.sorted_insertionSort (· ≤ ·) v

theorem std_sort_length (v : List ℚ) : (std_sort v).length = v.length :=
  (List.perm_insertionSort (· ≤ ·) v).length_eq

theorem vec_at_zero_cons {α : Type} (a : α) (l : List α) : vec_at (a :: l) 0 = .ret a := by
  simp [vec_at]

theorem std_sort_head_min (v : List ℚ) (hne : v ≠ []) :
    ∃ m rest, std_sort v = m :: rest ∧ m ∈ v ∧ ∀ x ∈ v, m ≤ x := by
  cases hs : std_sort v with
  | nil =>
    have hlen := std_sort_length v
    rw [hs] at hlen
    exact absurd (List.length_eq_zero.mp hlen.symm) hne
  | cons m rest =>
    refine ⟨m, rest, rfl, ?_, ?_⟩
    · rw [← std_sort_mem, hs]
      exact List.mem_cons_self m rest
    · intro x hx
      have hx2 : x ∈ m :: rest := by
        rw [← hs, std_sort_mem]
        exact hx
      have hsorted := std_sort_sorted v
      rw [hs, List.sorted_cons] at hsorted
      rcases List.mem_cons.mp hx2 with h | h
      · rw [h]
      · exact hsorted.1 x h

theorem hamming_threshold (m : ℚ) :
    (if 2 * m < ORB_HAMMING_DISTANCE then ORB_HAMMING_DISTANCE else 2 * m) = max (2 * m) 40 := by
  unfold ORB_HAMMING_DISTANCE
  split
  · rename_i h
    exact (max_eq_right h.le).symm
  · rename_i h
    exact (max_eq_left (not_lt.mp h)).symm

theorem filter_by_hamming_spec (ms : List DMatch) (hne : ms ≠ []) :
    ∃ m, (∃ gm ∈ ms, gm.distance = m) ∧ (∀ gm ∈ ms, m ≤ gm.distance) ∧
      filter_by_hamming ms
        = .ret (ms.filter fun gm => decide (gm.distance < max (2 * m) 40)) := by
  have hne2 : ms.map (fun gm => gm.distance) ≠ [] := by
    intro h
    exact hne (List.map_eq_nil_iff.mp h)
  obtain ⟨m, rest, hs, hmem, hmin⟩ := std_sort_head_min _ hne2
  refine ⟨m, ?_, ?_, ?_⟩
  · obtain ⟨gm, hgm, hd⟩ := List.mem_map.mp hmem
    exact ⟨gm, hgm, hd⟩
  · intro gm hgm
    exact hmin _ (List.mem_map.mpr ⟨gm, hgm, rfl⟩)
  · unfold filter_by_hamming
    simp only [hs, vec_at_zero_cons, Outcome.bind, hamming_threshold]

theorem below_hamming_threshold (m : ℚ) : m < max (2 * m) 40 := by
  rcases lt_or_le m 40 with h | h
  · exact lt_of_lt_of_le h (le_max_right _ _)
  · exact lt_of_lt_of_le (by linarith) (le_max_left _ _)

/-- C7. For a non-empty match list, with `m` the minimum descriptor distance of
the input, `filter_by_hamming` returns exactly the matches whose distance is below
`max (2 * m) 40`, in input order. -/
theorem filter_by_hamming_keeps_below_threshold (ms : List DMatch) (m : ℚ)
    (hmem : ∃ gm ∈ ms, gm.distance = m) (hmin : ∀ gm ∈ ms, m ≤ gm.distance) :
    filter_by_hamming ms = .ret (ms.filter fun gm => decide (gm.distance < max (2 * m) 40)) := by
  have hne : ms ≠ [] := by
    rintro rfl
    obtain ⟨gm, hgm, _⟩ := hmem
    cases hgm
  obtain ⟨m2, ⟨g2, hg2, hd2⟩, hmin2, heq⟩ := filter_by_hamming_spec ms hne
  obtain ⟨g1, hg1, hd1⟩ := hmem
  have hm : m2 = m := by
    apply le_antisymm
    · rw [← hd1]
      exact hmin2 g1 hg1
    · rw [← hd2]
      exact hmin g2 hg2
  rw [heq, hm]

/-- Witness for C7: distances 30, 10, 45 have minimum 10 and threshold 40, so the
first two matches are kept. -/
theorem filter_by_hamming_keeps_below_threshold_witness :
    filter_by_hamming [⟨0, 0, 0, 30⟩, ⟨1, 1, 0, 10⟩, ⟨2, 2, 0, 45⟩]
      = .ret [⟨0, 0, 0, 30⟩, ⟨1, 1, 0, 10⟩] := by
  rw [filter_by_hamming_keeps_below_threshold [⟨0, 0, 0, 30⟩, ⟨1, 1, 0, 10⟩, ⟨2, 2, 0, 45⟩] 10
    ⟨⟨1, 1, 0, 10⟩, by simp, rfl⟩ (by
      intro gm hgm
      simp only [List.mem_cons, List.mem_singleton, List.not_mem_nil, or_false] at hgm
      rcases hgm with rfl | rfl | rfl <;> norm_num)]
  norm_num [List.filter]

/-- C8. `filter_by_hamming` is idempotent: on a non-empty match list it returns a
non-empty list, and filtering that list again returns it unchanged. -/
theorem filter_by_hamming_idempotent (ms : List DMatch) (hne : ms ≠ []) :
    ∃ kept, filter_by_hamming ms = .ret kept ∧ kept ≠ [] ∧
      filter_by_hamming kept = .ret kept := by
  obtain ⟨m, ⟨g, hg, hd⟩, hmin, heq⟩ := filter_by_hamming_spec ms hne
  have hgk : g ∈ ms.filter (fun gm => decide (gm.distance < max (2 * m) 40)) := by
    rw [List.mem_filter]
    refine ⟨hg, ?_⟩
    rw [hd]
    exact decide_eq_true (below_hamming_threshold m)
  have hkne : ms.filter (fun gm => decide (gm.distance < max (2 * m) 40)) ≠ [] :=
    List.ne_nil_of_mem hgk
  refine ⟨_, heq, hkne, ?_⟩
  obtain ⟨m2, ⟨g2, hg2, hd2⟩, hmin2, heq2⟩ := filter_by_hamming_spec _ hkne
  have hm : m2 = m := by
    apply le_antisymm
    · rw [← hd]
      exact hmin2 g hgk
    · rw [← hd2]
      exact hmin g2 (List.mem_filter.mp hg2).1
  rw [heq2, hm, List.filter_filter]
  simp

/-- Witness for C8: the list with distances 30, 10, 45 is filtered to the matches
with distances 30 and 10, which a second pass keeps. -/
theorem filter_by_hamming_idempotent_witness :
    ([⟨0, 0, 0, 30⟩, ⟨1, 1, 0, 10⟩, ⟨2, 2, 0, 45⟩] : List DMatch) ≠ [] ∧
    ∃ kept, filter_by_hamming [⟨0, 0, 0, 30⟩, ⟨1, 1, 0, 10⟩, ⟨2, 2, 0, 45⟩] = .ret kept ∧
      kept ≠ [] ∧ filter_by_hamming kept = .ret kept :=
  ⟨by simp, filter_by_hamming_idempotent _ (by simp)⟩

/-! ### Axis-offset trimming -/

theorem bind_ret {α β : Type} (a : α) (f : α → Outcome β) : (Outcome.ret a).bind f = f a := rfl

theorem vec_at_of_lt {α : Type} (v : List α) (i : Int) (d : α) (h0 : 0 ≤ i)
    (h1 : i < v.length) : vec_at v i = .ret (v.getD i.toNat d) := by
  have hn : i.toNat < v.length := (Int.toNat_lt h0).mpr h1
  unfold vec_at
  rw [if_neg (not_lt.mpr h0)]
  simp [List.getD, List.get?_eq_getElem?, List.getElem?_eq_getElem hn]

theorem axis_offset_of_valid (c : Point2f → ℚ) (query_pts train_pts : List KeyPoint)
    (gm : DMatch) (h : ValidMatch query_pts train_pts gm) :
    axis_offset c query_pts train_pts gm = .ret (signed_offset c query_pts train_pts gm) := by
  unfold axis_offset signed_offset
  rw [vec_at_of_lt query_pts gm.queryIdx ⟨⟨0, 0⟩⟩ h.1 h.2.1,
    vec_at_of_lt train_pts gm.trainIdx ⟨⟨0, 0⟩⟩ h.2.2.1 h.2.2.2]
  rfl

theorem mapM_of_total {α β : Type} (f : α → Outcome β) (g : α → β) (l : List α)
    (h : ∀ a ∈ l, f a = .ret (g a)) : Outcome.mapM f l = .ret (l.map g) := by
  induction l with
  | nil => rfl
  | cons a as ih =>
    have ha := h a (List.mem_cons_self a as)
    have hrest := ih fun b hb => h b (List.mem_cons_of_mem a hb)
    simp only [Outcome.mapM, ha, hrest, bind_ret, List.map_cons]

theorem filterM_of_total {α : Type} (f : α → Outcome Bool) (g : α → Bool) (l : List α)
    (h : ∀ a ∈ l, f a = .ret (g a)) : Outcome.filterM f l = .ret (l.filter g) := by
  induction l with
  | nil => rfl
  | cons a as ih =>
    have ha := h a (List.mem_cons_self a as)
    have hrest := ih fun b hb => h b (List.mem_cons_of_mem a hb)
    simp only [Outcome.filterM, ha, hrest, bind_ret, List.filter_cons]

theorem filter_by_axis_of_valid (c : Point2f → ℚ) (ms : List DMatch)
    (query_pts train_pts : List KeyPoint) (p : ℚ)
    (hvalid : ∀ gm ∈ ms, ValidMatch query_pts train_pts gm) :
    filter_by_axis c ms query_pts train_pts p
      = if trim_r ms.length p ≤ trim_l ms.length p then .ret []
        else
          (vec_at (std_sort (ms.map (signed_offset c query_pts train_pts)))
              (trim_l ms.length p)).bind fun lv =>
            (vec_at (std_sort (ms.map (signed_offset c query_pts train_pts)))
                (trim_r ms.length p)).bind fun rv =>
              .ret (ms.filter fun gm =>
                decide (signed_offset c query_pts train_pts gm > lv ∧
                  signed_offset c query_pts train_pts gm < rv)) := by
  have hmap : Outcome.mapM (axis_offset c query_pts train_pts) ms
      = .ret (ms.map (signed_offset c query_pts train_pts)) :=
    mapM_of_total _ _ ms fun gm hgm => axis_offset_of_valid c query_pts train_pts gm (hvalid gm hgm)
  have hfilter : ∀ lv rv : ℚ,
      Outcome.filterM
        (fun gm => (axis_offset c query_pts train_pts gm).bind fun d =>
          .ret (decide (d > lv ∧ d < rv))) ms
      = .ret (ms.filter fun gm =>
          decide (signed_offset c query_pts train_pts gm > lv ∧
            signed_offset c query_pts train_pts gm < rv)) := by
    intro lv rv
    apply filterM_of_total
    intro gm hgm
    rw [axis_offset_of_valid c query_pts train_pts gm (hvalid gm hgm)]
    rfl
  unfold filter_by_axis
  rw [hmap]
  simp only [bind_ret, std_sort_length, List.length_map, hfilter]

theorem double_to_int_of_nonneg (x : ℚ) (h : 0 ≤ x) : double_to_int x = ⌊x⌋ := by
  unfold double_to_int
  rw [if_pos h]

theorem trim_l_ge_one (n : Nat) (p : ℚ) (hp0 : 0 ≤ p) : 1 ≤ trim_l n p := by
  have hx : (0 : ℚ) ≤ round_double (((n : ℤ) : ℚ) * p) :=
    round_double_nonneg _ (mul_nonneg (by positivity) hp0)
  unfold trim_l
  rw [double_to_int_of_nonneg _ hx]
  dsimp only
  split
  · exact le_rfl
  · rename_i h
    have h0 : 0 ≤ ⌊round_double (((n : ℤ) : ℚ) * p)⌋ := Int.floor_nonneg.mpr hx
    omega

theorem trim_r_le (n : Nat) (p : ℚ) : trim_r n p ≤ (n : ℤ) - 2 := by
  unfold trim_r
  dsimp only
  split
  · exact le_rfl
  · rename_i h
    omega

theorem trim_l_eq_floor (n : Nat) (p : ℚ) (hp0 : 0 ≤ p) :
    trim_l n p = if ⌊round_double (((n : ℤ) : ℚ) * p)⌋ = 0 then 1
      else ⌊round_double (((n : ℤ) : ℚ) * p)⌋ := by
  have hx : (0 : ℚ) ≤ round_double (((n : ℤ) : ℚ) * p) :=
    round_double_nonneg _ (mul_nonneg (by positivity) hp0)
  unfold trim_l
  rw [double_to_int_of_nonneg _ hx]

theorem trim_r_eq_floor (n : Nat) (p : ℚ) (hp1 : p ≤ 1) :
    trim_r n p
      = if ⌊round_double (((n : ℤ) : ℚ) * round_double (1 - p))⌋ ≥ (n : ℤ) - 1 then (n : ℤ) - 2
        else ⌊round_double (((n : ℤ) : ℚ) * round_double (1 - p))⌋ := by
  have hx : (0 : ℚ) ≤ round_double (((n : ℤ) : ℚ) * round_double (1 - p)) :=
    round_double_nonneg _ (mul_nonneg (by positivity) (round_double_nonneg _ (by linarith)))
  unfold trim_r
  rw [double_to_int_of_nonneg _ hx]

theorem trim_collapse_of_small (n : Nat) (p : ℚ) (hp0 : 0 ≤ p) (hn : n < 4) :
    trim_r n p ≤ trim_l n p := by
  have h1 := trim_l_ge_one n p hp0
  have h2 := trim_r_le n p
  omega

theorem get?_getD_of_lt (v : List ℚ) (i : Int) (h0 : 0 ≤ i) (h1 : i < v.length) :
    v.get? i.toNat = some (v.getD i.toNat 0) := by
  have hn : i.toNat < v.length := (Int.toNat_lt h0).mpr h1
  simp [List.getD, List.get?_eq_getElem?, List.getElem?_eq_getElem hn]

theorem sorted_getD_le (v : List ℚ) (hs : v.Sorted (· ≤ ·)) (i j : Nat) (hij : i ≤ j)
    (hj : j < v.length) : v.getD i 0 ≤ v.getD j 0 := by
  have hi : i < v.length := lt_of_le_of_lt hij hj
  rw [List.getD_eq_getElem v 0 hi, List.getD_eq_getElem v 0 hj]
  rcases Nat.lt_or_eq_of_le hij with h | h
  · exact List.pairwise_iff_getElem.mp hs i j hi hj h
  · subst h
    exact le_rfl

theorem filter_by_axis_open_interval (c : Point2f → ℚ) (ms : List DMatch)
    (query_pts train_pts : List KeyPoint) (p : ℚ) (hp0 : 0 ≤ p) (hp1 : p ≤ 1)
    (hvalid : ∀ gm ∈ ms, ValidMatch query_pts train_pts gm)
    (l r : ℤ)
    (hl : l = if ⌊round_double (((ms.length : ℤ) : ℚ) * p)⌋ = 0 then 1
      else ⌊round_double (((ms.length : ℤ) : ℚ) * p)⌋)
    (hr : r = if ⌊round_double (((ms.length : ℤ) : ℚ) * round_double (1 - p))⌋
        ≥ (ms.length : ℤ) - 1 then (ms.length : ℤ) - 2
      else ⌊round_double (((ms.length : ℤ) : ℚ) * round_double (1 - p))⌋)
    (hlr : l < r) :
    ∃ lv rv,
      (std_sort (ms.map (signed_offset c query_pts train_pts))).get? l.toNat = some lv ∧
      (std_sort (ms.map (signed_offset c query_pts train_pts))).get? r.toNat = some rv ∧
      lv ≤ rv ∧
      filter_by_axis c ms query_pts train_pts p
        = .ret (ms.filter fun gm =>
            decide (lv < signed_offset c query_pts train_pts gm ∧
              signed_offset c query_pts train_pts gm < rv)) := by
  have hl2 : trim_l ms.length p = l := by rw [hl, trim_l_eq_floor _ _ hp0]
  have hr2 : trim_r ms.length p = r := by rw [hr, trim_r_eq_floor _ _ hp1]
  have h1 : 1 ≤ l := hl2 ▸ trim_l_ge_one ms.length p hp0
  have h2 : r ≤ (ms.length : ℤ) - 2 := hr2 ▸ trim_r_le ms.length p
  have hlen : (std_sort (ms.map (signed_offset c query_pts train_pts))).length = ms.length := by
    rw [std_sort_length, List.length_map]
  have hl0 : (0 : ℤ) ≤ l := by omega
  have hr0 : (0 : ℤ) ≤ r := by omega
  have hlb : l < ((std_sort (ms.map (signed_offset c query_pts train_pts))).length : ℤ) := by
    rw [hlen]; omega
  have hrb : r < ((std_sort (ms.map (signed_offset c query_pts train_pts))).length : ℤ) := by
    rw [hlen]; omega
  refine ⟨_, _, get?_getD_of_lt _ l hl0 hlb, get?_getD_of_lt _ r hr0 hrb, ?_, ?_⟩
  · apply sorted_getD_le _ (std_sort_sorted _)
    · exact Int.toNat_le_toNat hlr.le
    · exact (Int.toNat_lt hr0).mpr hrb
  · rw [filter_by_axis_of_valid c ms query_pts train_pts p hvalid, hl2, hr2,
      if_neg (not_le.mpr hlr), vec_at_of_lt _ l 0 hl0 hlb, vec_at_of_lt _ r 0 hr0 hrb,
      bind_ret, bind_ret]

/-- C9 (amended). For a percentile `p` in `[0, 1]` and a match list with valid
keypoint indices whose trimmed interval does not collapse (`l < r`), `filter_by_x`
and `filter_by_y` return, in input order, exactly the matches whose signed offset
(the `float` difference query minus train) lies strictly between `lv` and `rv`,
both endpoints excluded, where `lv`, `rv` are the entries of the sorted offsets at
the indices the code computes: `l` is the integer part of the `double` product
`n*p` (1 when that is 0) and `r` is the integer part of the `double` product of `n`
and the `double` difference `1-p` (`n - 2` when that is at least `n - 1`). -/
theorem axis_trim_keeps_open_interval (ms : List DMatch) (query_pts train_pts : List KeyPoint)
    (p : ℚ) (hp0 : 0 ≤ p) (hp1 : p ≤ 1)
    (hvalid : ∀ gm ∈ ms, ValidMatch query_pts train_pts gm)
    (l r : ℤ)
    (hl : l = if ⌊round_double (((ms.length : ℤ) : ℚ) * p)⌋ = 0 then 1
      else ⌊round_double (((ms.length : ℤ) : ℚ) * p)⌋)
    (hr : r = if ⌊round_double (((ms.length : ℤ) : ℚ) * round_double (1 - p))⌋
        ≥ (ms.length : ℤ) - 1 then (ms.length : ℤ) - 2
      else ⌊round_double (((ms.length : ℤ) : ℚ) * round_double (1 - p))⌋)
    (hlr : l < r) :
    trim_l ms.length p = l ∧
    trim_r ms.length p = r ∧
    (∃ lv rv,
      (std_sort (ms.map (signed_offset Point2f.x query_pts train_pts))).get? l.toNat = some lv ∧
      (std_sort (ms.map (signed_offset Point2f.x query_pts train_pts))).get? r.toNat = some rv ∧
      lv ≤ rv ∧
      filter_by_x ms query_pts train_pts p
        = .ret (ms.filter fun gm =>
            decide (lv < signed_offset Point2f.x query_pts train_pts gm ∧
              signed_offset Point2f.x query_pts train_pts gm < rv))) ∧
    (∃ lv rv,
      (std_sort (ms.map (signed_offset Point2f.y query_pts train_pts))).get? l.toNat = some lv ∧
      (std_sort (ms.map (signed_offset Point2f.y query_pts train_pts))).get? r.toNat = some rv ∧
      lv ≤ rv ∧
      filter_by_y ms query_pts train_pts p
        = .ret (ms.filter fun gm =>
            decide (lv < signed_offset Point2f.y query_pts train_pts gm ∧
              signed_offset Point2f.y query_pts train_pts gm < rv))) :=
  ⟨by rw [hl, trim_l_eq_floor _ _ hp0], by rw [hr, trim_r_eq_floor _ _ hp1],
   filter_by_axis_open_interval Point2f.x ms query_pts train_pts p hp0 hp1 hvalid l r hl hr hlr,
   filter_by_axis_open_interval Point2f.y ms query_pts train_pts p hp0 hp1 hvalid l r hl hr hlr⟩

theorem sixMatches_valid : ∀ gm ∈ sixMatches, ValidMatch sixQuery sixTrain gm := by
  intro gm hgm
  simp only [sixMatches, List.mem_cons, List.mem_singleton, List.not_mem_nil, or_false] at hgm
  rcases hgm with rfl | rfl | rfl | rfl | rfl | rfl <;>
    norm_num [ValidMatch, sixQuery, sixTrain]

theorem round_float_small :
    round_float 0 = 0 ∧ round_float 1 = 1 ∧ round_float 2 = 2 ∧ round_float 3 = 3 ∧
    round_float 4 = 4 ∧ round_float 5 = 5 := by
  have h1 := round_float_intCast 1 (by norm_num)
  have h2 := round_float_intCast 2 (by norm_num)
  have h3 := round_float_intCast 3 (by norm_num)
  have h4 := round_float_intCast 4 (by norm_num)
  have h5 := round_float_intCast 5 (by norm_num)
  push_cast at h1 h2 h3 h4 h5
  exact ⟨round_float_zero, h1, h2, h3, h4, h5⟩

theorem sixMatches_offsets :
    sixMatches.map (signed_offset Point2f.x sixQuery sixTrain) = [0, 1, 2, 3, 4, 5] := by
  have t2 : Int.toNat 2 = 2 := rfl
  have t3 : Int.toNat 3 = 3 := rfl
  have t4 : Int.toNat 4 = 4 := rfl
  have t5 : Int.toNat 5 = 5 := rfl
  obtain ⟨r0, r1, r2, r3, r4, r5⟩ := round_float_small
  norm_num [sixMatches, signed_offset, sixQuery, sixTrain, t2, t3, t4, t5, r0, r1, r2, r3, r4, r5]

theorem sixMatches_sorted_offsets :
    std_sort (sixMatches.map (signed_offset Point2f.x sixQuery sixTrain)) = [0, 1, 2, 3, 4, 5] := by
  rw [sixMatches_offsets]
  norm_num [std_sort, List.insertionSort, List.orderedInsert]

/-- The value of `five_percent` is the `double` that the literal `0.05` denotes. -/
theorem five_percent_eq : round_double (1 / 20) = five_percent := by
  rw [round_double_near (1 / 20) (-5) 7205759403792794 (by norm_num [abs_of_pos])
    (by norm_num [abs_of_pos]) (by norm_num) (by norm_num) (by norm_num)]
  norm_num [five_percent]

/-- The `double` product `6 * 0.05` is `0.30000000000000004`. -/
theorem six_times_five_percent :
    round_double (6 * five_percent) = 1351079888211149 / 4503599627370496 := by
  rw [round_double_tie (6 * five_percent) (-2) 5404319552844595
    (by norm_num [five_percent, abs_of_pos]) (by norm_num [five_percent, abs_of_pos])
    (by norm_num) (by norm_num [five_percent])]
  norm_num

/-- The `double` difference `1 - 0.05` is `0.95` (`0.9499999999999999556`). -/
theorem one_minus_five_percent :
    round_double (1 - five_percent) = 4278419646001971 / 4503599627370496 := by
  rw [round_double_near (1 - five_percent) (-1) 8556839292003942
    (by norm_num [five_percent, abs_of_pos]) (by norm_num [five_percent, abs_of_pos])
    (by norm_num) (by norm_num [five_percent]) (by norm_num [five_percent])]
  norm_num

/-- The `double` product `6 * 0.95` is `5.699999999999999`. -/
theorem six_times_ninety_five_percent :
    round_double (6 * round_double (1 - five_percent)) = 1604407367250739 / 281474976710656 := by
  rw [one_minus_five_percent,
    round_double_tie (6 * (4278419646001971 / 4503599627370496)) 2 6417629469002956
      (by norm_num [abs_of_pos]) (by norm_num [abs_of_pos]) (by norm_num) (by norm_num)]
  norm_num

theorem sixMatches_trim_l : trim_l sixMatches.length five_percent = 1 := by
  have h6 : ((sixMatches.length : ℤ) : ℚ) = 6 := by norm_num [sixMatches]
  rw [trim_l_eq_floor _ _ (by norm_num [five_percent]), h6, six_times_five_percent]
  norm_num

theorem sixMatches_trim_r : trim_r sixMatches.length five_percent = 4 := by
  have h6 : ((sixMatches.length : ℤ) : ℚ) = 6 := by norm_num [sixMatches]
  have hn : (sixMatches.length : ℤ) = 6 := by norm_num [sixMatches]
  rw [trim_r_eq_floor _ _ (by norm_num [five_percent]), h6, six_times_ninety_five_percent, hn]
  norm_num

/-- The `double` product `40 * 0.95` is `38`, above the exact product
`37.999999999999998`. -/
theorem forty_times_ninety_five_percent :
    round_double (40 * round_double (1 - five_percent)) = 38 := by
  rw [one_minus_five_percent,
    round_double_near (40 * (4278419646001971 / 4503599627370496)) 5 5348024557502464
      (by norm_num [abs_of_pos]) (by norm_num [abs_of_pos]) (by norm_num) (by norm_num)
      (by norm_num)]
  norm_num

/-- With 40 matches at the percentile 0.05 the code reads the upper bound at
index 38, the integer part of the `double` product, where the floor of the exact
product is 37. -/
theorem trim_r_follows_double_product :
    trim_r 40 five_percent = 38 ∧ ⌊(40 : ℚ) * (1 - five_percent)⌋ = 37 := by
  constructor
  · have h := trim_r_eq_floor 40 five_percent (by norm_num [five_percent])
    have h40 : (((40 : ℕ) : ℤ) : ℚ) = 40 := by norm_num
    rw [h40, forty_times_ninety_five_percent] at h
    rw [show ((40 : ℤ)) = ((40 : ℕ) : ℤ) from rfl, h]
    norm_num
  · norm_num [five_percent]

/-- C9 (counterexample). Six matches with horizontal offsets 0, 1, 2, 3, 4, 5 and
the percentile 0.05 of the caller give `l = 1`, `r = 4` (in the code, and also by
the floors of the exact products that the claim names), so `lv = 1` and `rv = 4`.
Four matches have their offset in the closed interval `[1, 4]`, but `filter_by_x`
returns only the two with offsets 2 and 3: the matches at the endpoints are
dropped. -/
theorem axis_trim_drops_endpoints :
    (∀ gm ∈ sixMatches, ValidMatch sixQuery sixTrain gm) ∧
    round_double (1 / 20) = five_percent ∧
    ⌊((sixMatches.length : ℤ) : ℚ) * five_percent⌋ = 0 ∧
    ⌊((sixMatches.length : ℤ) : ℚ) * (1 - five_percent)⌋ = 5 ∧
    trim_l sixMatches.length five_percent = 1 ∧
    trim_r sixMatches.length five_percent = 4 ∧
    std_sort (sixMatches.map (signed_offset Point2f.x sixQuery sixTrain)) = [0, 1, 2, 3, 4, 5] ∧
    (sixMatches.filter fun gm =>
        decide (1 ≤ signed_offset Point2f.x sixQuery sixTrain gm ∧
          signed_offset Point2f.x sixQuery sixTrain gm ≤ 4))
      = [⟨1, 1, 0, 15⟩, ⟨2, 2, 0, 9⟩, ⟨3, 3, 0, 20⟩, ⟨4, 4, 0, 11⟩] ∧
    filter_by_x sixMatches sixQuery sixTrain five_percent
      = .ret [⟨2, 2, 0, 9⟩, ⟨3, 3, 0, 20⟩] := by
  have t2 : Int.toNat 2 = 2 := rfl
  have t3 : Int.toNat 3 = 3 := rfl
  have t4 : Int.toNat 4 = 4 := rfl
  have t5 : Int.toNat 5 = 5 := rfl
  obtain ⟨r0, r1, r2, r3, r4, r5⟩ := round_float_small
  refine ⟨sixMatches_valid, five_percent_eq, by norm_num [sixMatches, five_percent],
    by norm_num [sixMatches, five_percent], sixMatches_trim_l, sixMatches_trim_r,
    sixMatches_sorted_offsets, ?_, ?_⟩
  · norm_num [sixMatches, signed_offset, sixQuery, sixTrain, t2, t3, t4, t5, List.filter,
      r0, r1, r2, r3, r4, r5]
  · unfold filter_by_x
    rw [filter_by_axis_of_valid Point2f.x sixMatches sixQuery sixTrain five_percent
        sixMatches_valid,
      sixMatches_trim_l, sixMatches_trim_r, sixMatches_sorted_offsets, if_neg (by norm_num),
      vec_at_of_lt _ 1 0 (by norm_num) (by norm_num),
      vec_at_of_lt _ 4 0 (by norm_num) (by norm_num), bind_ret, bind_ret]
    norm_num [sixMatches, signed_offset, sixQuery, sixTrain, t2, t3, t4, t5, List.filter,
      r0, r1, r2, r3, r4, r5]

/-- Witness for C9 (amended): the six matches with offsets 0 to 5 at the
percentile 0.05 of the caller, where `l = 1 < r = 4`. -/
theorem axis_trim_keeps_open_interval_witness :
    trim_l sixMatches.length five_percent = 1 ∧
    trim_r sixMatches.length five_percent = 4 ∧
    ∃ lv rv,
      (std_sort (sixMatches.map (signed_offset Point2f.x sixQuery sixTrain))).get? (1 : ℤ).toNat
        = some lv ∧
      (std_sort (sixMatches.map (signed_offset Point2f.x sixQuery sixTrain))).get? (4 : ℤ).toNat
        = some rv ∧
      lv ≤ rv ∧
      filter_by_x sixMatches sixQuery sixTrain five_percent
        = .ret (sixMatches.filter fun gm =>
            decide (lv < signed_offset Point2f.x sixQuery sixTrain gm ∧
              signed_offset Point2f.x sixQuery sixTrain gm < rv)) :=
  have h6 : ((sixMatches.length : ℤ) : ℚ) = 6 := by norm_num [sixMatches]
  have hn : (sixMatches.length : ℤ) = 6 := by norm_num [sixMatches]
  have key := axis_trim_keeps_open_interval sixMatches sixQuery sixTrain five_percent
    (by norm_num [five_percent]) (by norm_num [five_percent]) sixMatches_valid 1 4
    (by rw [h6, six_times_five_percent]; norm_num)
    (by rw [h6, six_times_ninety_five_percent, hn]; norm_num)
    (by norm_num)
  ⟨key.1, key.2.1, key.2.2.1⟩

theorem filter_by_axis_collapse (c : Point2f → ℚ) (ms : List DMatch)
    (query_pts train_pts : List KeyPoint) (p : ℚ)
    (hvalid : ∀ gm ∈ ms, ValidMatch query_pts train_pts gm)
    (h : trim_r ms.length p ≤ trim_l ms.length p) :
    filter_by_axis c ms query_pts train_pts p = .ret [] := by
  rw [filter_by_axis_of_valid c ms query_pts train_pts p hvalid, if_pos h]

theorem vec_at_cases {α : Type} (v : List α) (i : Int) :
    vec_at v i = .undefined ∨ ∃ a, vec_at v i = .ret a := by
  unfold vec_at
  split
  · exact Or.inl rfl
  · split
    · exact Or.inr ⟨_, rfl⟩
    · exact Or.inl rfl

theorem axis_offset_cases (c : Point2f → ℚ) (query_pts train_pts : List KeyPoint) (gm : DMatch) :
    axis_offset c query_pts train_pts gm = .undefined ∨
      ∃ d, axis_offset c query_pts train_pts gm = .ret d := by
  unfold axis_offset
  rcases vec_at_cases query_pts gm.queryIdx with h | ⟨a, h⟩
  · rw [h]
    exact Or.inl rfl
  · rw [h, bind_ret]
    rcases vec_at_cases train_pts gm.trainIdx with h2 | ⟨b, h2⟩
    · rw [h2]
      exact Or.inl rfl
    · rw [h2, bind_ret]
      exact Or.inr ⟨_, rfl⟩

theorem mapM_axis_offset_cases (c : Point2f → ℚ) (query_pts train_pts : List KeyPoint)
    (ms : List DMatch) :
    Outcome.mapM (axis_offset c query_pts train_pts) ms = .undefined ∨
      ∃ ds, Outcome.mapM (axis_offset c query_pts train_pts) ms = .ret ds ∧
        ds.length = ms.length := by
  induction ms with
  | nil => exact Or.inr ⟨[], rfl, rfl⟩
  | cons gm rest ih =>
    unfold Outcome.mapM
    rcases axis_offset_cases c query_pts train_pts gm with h | ⟨d, h⟩
    · rw [h]
      exact Or.inl rfl
    · rw [h, bind_ret]
      rcases ih with h2 | ⟨ds, h2, hlen⟩
      · rw [h2]
        exact Or.inl rfl
      · rw [h2, bind_ret]
        exact Or.inr ⟨d :: ds, rfl, by rw [List.length_cons, List.length_cons, hlen]⟩

theorem filter_by_axis_collapse_any (c : Point2f → ℚ) (ms : List DMatch)
    (query_pts train_pts : List KeyPoint) (p : ℚ)
    (h : trim_r ms.length p ≤ trim_l ms.length p) :
    filter_by_axis c ms query_pts train_pts p = .ret [] ∨
      filter_by_axis c ms query_pts train_pts p = .undefined := by
  unfold filter_by_axis
  rcases mapM_axis_offset_cases c query_pts train_pts ms with h1 | ⟨ds, h1, hlen⟩
  · rw [h1]
    exact Or.inr rfl
  · rw [h1, bind_ret]
    simp only [std_sort_length, hlen]
    rw [if_pos h]
    exact Or.inl rfl

theorem out_of_range_query_index_undefined :
    filter_by_x [⟨7, 0, 0, 12⟩] fourQuery fourTrain 0 = .undefined ∧
    filter_by_y [⟨7, 0, 0, 12⟩] fourQuery fourTrain 0 = .undefined := by
  have t7 : Int.toNat 7 = 7 := rfl
  constructor
  · simp [filter_by_x, filter_by_axis, Outcome.mapM, axis_offset, vec_at, fourQuery, t7,
      Outcome.bind]
  · simp [filter_by_y, filter_by_axis, Outcome.mapM, axis_offset, vec_at, fourQuery, t7,
      Outcome.bind]

/-- C10. `filter_by_x` and `filter_by_y` return the empty list, not the unfiltered
input, whenever the trimmed interval collapses (`r <= l`); the test precedes every
read of the sorted offsets. The interval collapses for every percentile in `[0, 1]`
when there are fewer than 4 matches, in particular for percentile 0 and a list of
size 0 or 1. The keypoint indices are taken to be valid, as the offsets loop
dereferences them before the test; whatever the indices, a collapsed call never
returns a non-empty list. -/
theorem axis_trim_collapse_returns_empty (ms : List DMatch)
    (query_pts train_pts : List KeyPoint) (p : ℚ) :
    (0 ≤ p → p ≤ 1 → ms.length < 4 → trim_r ms.length p ≤ trim_l ms.length p) ∧
    ((∀ gm ∈ ms, ValidMatch query_pts train_pts gm) →
      trim_r ms.length p ≤ trim_l ms.length p →
      filter_by_x ms query_pts train_pts p = .ret [] ∧
      filter_by_y ms query_pts train_pts p = .ret []) ∧
    ((∀ gm ∈ ms, ValidMatch query_pts train_pts gm) → 0 ≤ p → p ≤ 1 → ms.length < 4 →
      filter_by_x ms query_pts train_pts p = .ret [] ∧
      filter_by_y ms query_pts train_pts p = .ret []) ∧
    ((∀ gm ∈ ms, ValidMatch query_pts train_pts gm) → ms.length < 2 →
      filter_by_x ms query_pts train_pts 0 = .ret [] ∧
      filter_by_y ms query_pts train_pts 0 = .ret []) ∧
    (ms = [] →
      filter_by_x ms query_pts train_pts p = .ret [] ∧
      filter_by_y ms query_pts train_pts p = .ret []) ∧
    (trim_r ms.length p ≤ trim_l ms.length p →
      (filter_by_x ms query_pts train_pts p = .ret [] ∨
        filter_by_x ms query_pts train_pts p = .undefined) ∧
      (filter_by_y ms query_pts train_pts p = .ret [] ∨
        filter_by_y ms query_pts train_pts p = .undefined)) := by
  refine ⟨?_, ?_, ?_, ?_, ?_, ?_⟩
  · intro hp0 _ hn
    exact trim_collapse_of_small ms.length p hp0 hn
  · intro hvalid h
    exact ⟨filter_by_axis_collapse Point2f.x ms query_pts train_pts p hvalid h,
      filter_by_axis_collapse Point2f.y ms query_pts train_pts p hvalid h⟩
  · intro hvalid hp0 _ hn
    have h := trim_collapse_of_small ms.length p hp0 hn
    exact ⟨filter_by_axis_collapse Point2f.x ms query_pts train_pts p hvalid h,
      filter_by_axis_collapse Point2f.y ms query_pts train_pts p hvalid h⟩
  · intro hvalid hn
    have h := trim_collapse_of_small ms.length 0 le_rfl (by omega)
    exact ⟨filter_by_axis_collapse Point2f.x ms query_pts train_pts 0 hvalid h,
      filter_by_axis_collapse Point2f.y ms query_pts train_pts 0 hvalid h⟩
  · intro hnil
    subst hnil
    constructor
    · simp [filter_by_x, filter_by_axis, Outcome.mapM, bind_ret, std_sort, trim_l, trim_r,
        double_to_int, round_double_zero]
    · simp [filter_by_y, filter_by_axis, Outcome.mapM, bind_ret, std_sort, trim_l, trim_r,
        double_to_int, round_double_zero]
  · intro h
    exact ⟨filter_by_axis_collapse_any Point2f.x ms query_pts train_pts p h,
      filter_by_axis_collapse_any Point2f.y ms query_pts train_pts p h⟩

theorem threeMatches_valid : ∀ gm ∈ threeMatches, ValidMatch fourQuery fourTrain gm := by
  intro gm hgm
  simp only [threeMatches, List.mem_cons, List.mem_singleton, List.not_mem_nil, or_false] at hgm
  rcases hgm with rfl | rfl | rfl <;> norm_num [ValidMatch, fourQuery, fourTrain]

/-- Witness for C10: three valid matches at the percentile 0.05 of the caller
are trimmed to the empty list. -/
theorem axis_trim_collapse_returns_empty_witness :
    (∀ gm ∈ threeMatches, ValidMatch fourQuery fourTrain gm) ∧
    filter_by_x threeMatches fourQuery fourTrain five_percent = .ret [] ∧
    filter_by_y threeMatches fourQuery fourTrain five_percent = .ret [] :=
  ⟨threeMatches_valid,
    (axis_trim_collapse_returns_empty threeMatches fourQuery fourTrain five_percent).2.2.1
      threeMatches_valid (by norm_num [five_percent]) (by norm_num [five_percent])
      (by norm_num [threeMatches])⟩

/-! ### Bounds of the reads of the sorted offsets -/

theorem std_sort_perm (v : List ℚ) : (std_sort v).Perm v :=
  List.perm_insertionSort (· ≤ ·) v

theorem sorted_drop (v : List ℚ) (hs : v.Sorted (· ≤ ·)) (k : Nat) :
    (v.drop k).Sorted (· ≤ ·) :=
  List.Pairwise.sublist (List.drop_sublist k v) hs

theorem sorted_le_of_mem_drop (v : List ℚ) (hs : v.Sorted (· ≤ ·)) (j : Nat)
    (hj : j < v.length) : ∀ b ∈ v.drop j, v.getD j 0 ≤ b := by
  intro b hb
  have hd := sorted_drop v hs j
  rw [List.drop_eq_getElem_cons hj] at hd hb
  rw [List.getD_eq_getElem v 0 hj]
  rcases List.mem_cons.mp hb with h | h
  · rw [h]
  · exact (List.sorted_cons.mp hd).1 b h

theorem sorted_le_of_mem_take (v : List ℚ) (hs : v.Sorted (· ≤ ·)) (i : Nat)
    (hi : i < v.length) : ∀ a ∈ v.take (i + 1), a ≤ v.getD i 0 := by
  intro a ha
  have hsplit : v.take (i + 1) = v.take i ++ [v.getD i 0] := by
    rw [List.getD_eq_getElem v 0 hi, List.take_succ, List.getElem?_eq_getElem hi]
    rfl
  rw [hsplit, List.mem_append] at ha
  rcases ha with h | h
  · have hp : (v.take i ++ v.drop i).Sorted (· ≤ ·) := by
      rw [List.take_append_drop]
      exact hs
    have hmem : v.getD i 0 ∈ v.drop i := by
      rw [List.drop_eq_getElem_cons hi, List.getD_eq_getElem v 0 hi]
      exact List.mem_cons_self _ _
    exact (List.pairwise_append.mp hp).2.2 a h _ hmem
  · rw [List.mem_singleton.mp h]

theorem sorted_count_between (v : List ℚ) (hs : v.Sorted (· ≤ ·)) (i j : Nat) (hij : i < j)
    (hj : j < v.length) :
    v.countP (fun d => decide (v.getD i 0 < d ∧ d < v.getD j 0)) ≤ j - i - 1 := by
  have hi : i < v.length := lt_trans hij hj
  have h1 : v = v.take (i + 1) ++ ((v.drop (i + 1)).take (j - i - 1) ++ v.drop j) := by
    have hd : (v.drop (i + 1)).drop (j - i - 1) = v.drop j := by
      rw [List.drop_drop]
      congr 1
      omega
    rw [← hd, List.take_append_drop, List.take_append_drop]
  have hlow : (v.take (i + 1)).countP (fun d => decide (v.getD i 0 < d ∧ d < v.getD j 0)) = 0 := by
    rw [List.countP_eq_zero]
    intro a ha
    have hle := sorted_le_of_mem_take v hs i hi a ha
    simp only [decide_eq_true_eq, not_and]
    intro hlt
    exact absurd hlt (not_lt.mpr hle)
  have hhigh : (v.drop j).countP (fun d => decide (v.getD i 0 < d ∧ d < v.getD j 0)) = 0 := by
    rw [List.countP_eq_zero]
    intro b hb
    have hle := sorted_le_of_mem_drop v hs j hj b hb
    simp only [decide_eq_true_eq, not_and]
    intro _
    exact not_lt.mpr hle
  have hmid : ((v.drop (i + 1)).take (j - i - 1)).countP
      (fun d => decide (v.getD i 0 < d ∧ d < v.getD j 0)) ≤ j - i - 1 := by
    refine le_trans (List.countP_le_length _) ?_
    rw [List.length_take]
    exact min_le_left _ _
  calc v.countP (fun d => decide (v.getD i 0 < d ∧ d < v.getD j 0))
      = (v.take (i + 1) ++ ((v.drop (i + 1)).take (j - i - 1) ++ v.drop j)).countP
          (fun d => decide (v.getD i 0 < d ∧ d < v.getD j 0)) := by rw [← h1]
    _ = ((v.drop (i + 1)).take (j - i - 1)).countP
          (fun d => decide (v.getD i 0 < d ∧ d < v.getD j 0)) := by
        rw [List.countP_append, List.countP_append, hlow, hhigh]
        omega
    _ ≤ j - i - 1 := hmid

theorem filter_by_axis_in_bounds (c : Point2f → ℚ) (ms : List DMatch)
    (query_pts train_pts : List KeyPoint) (p : ℚ) (hp0 : 0 ≤ p) (hp1 : p ≤ 1)
    (hvalid : ∀ gm ∈ ms, ValidMatch query_pts train_pts gm)
    (hlr : trim_l ms.length p < trim_r ms.length p) :
    ∃ lv rv kept,
      (std_sort (ms.map (signed_offset c query_pts train_pts))).get? (trim_l ms.length p).toNat
        = some lv ∧
      (std_sort (ms.map (signed_offset c query_pts train_pts))).get? (trim_r ms.length p).toNat
        = some rv ∧
      lv ≤ rv ∧
      filter_by_axis c ms query_pts train_pts p = .ret kept ∧
      (kept.length : ℤ) ≤ (ms.length : ℤ) - 4 := by
  have h1 : 1 ≤ trim_l ms.length p := trim_l_ge_one ms.length p hp0
  have h2 : trim_r ms.length p ≤ (ms.length : ℤ) - 2 := trim_r_le ms.length p
  have hlen : (std_sort (ms.map (signed_offset c query_pts train_pts))).length = ms.length := by
    rw [std_sort_length, List.length_map]
  have hl0 : (0 : ℤ) ≤ trim_l ms.length p := by omega
  have hr0 : (0 : ℤ) ≤ trim_r ms.length p := by omega
  have hrn : (trim_r ms.length p).toNat
      < (std_sort (ms.map (signed_offset c query_pts train_pts))).length := by
    rw [hlen]
    omega
  have hln : (trim_l ms.length p).toNat < (trim_r ms.length p).toNat := by omega
  obtain ⟨lv, rv, hlv, hrv, hle, heq⟩ :=
    filter_by_axis_open_interval c ms query_pts train_pts p hp0 hp1 hvalid
      (trim_l ms.length p) (trim_r ms.length p)
      (trim_l_eq_floor _ _ hp0) (trim_r_eq_floor _ _ hp1) hlr
  refine ⟨lv, rv, _, hlv, hrv, hle, heq, ?_⟩
  have hlv2 : lv = (std_sort (ms.map (signed_offset c query_pts train_pts))).getD
      (trim_l ms.length p).toNat 0 := by
    have h := get?_getD_of_lt (std_sort (ms.map (signed_offset c query_pts train_pts)))
      (trim_l ms.length p) hl0 (by rw [hlen]; omega)
    rw [hlv] at h
    exact Option.some.inj h
  have hrv2 : rv = (std_sort (ms.map (signed_offset c query_pts train_pts))).getD
      (trim_r ms.length p).toNat 0 := by
    have h := get?_getD_of_lt (std_sort (ms.map (signed_offset c query_pts train_pts)))
      (trim_r ms.length p) hr0 (by rw [hlen]; omega)
    rw [hrv] at h
    exact Option.some.inj h
  have hcount := sorted_count_between (std_sort (ms.map (signed_offset c query_pts train_pts)))
    (std_sort_sorted _) (trim_l ms.length p).toNat (trim_r ms.length p).toNat hln hrn
  rw [← hlv2, ← hrv2,
    List.Perm.countP_eq _ (std_sort_perm (ms.map (signed_offset c query_pts train_pts))),
    List.countP_map, List.countP_eq_length_filter] at hcount
  have hfun : ((fun d => decide (lv < d ∧ d < rv)) ∘ signed_offset c query_pts train_pts)
      = fun gm => decide (lv < signed_offset c query_pts train_pts gm ∧
          signed_offset c query_pts train_pts gm < rv) := rfl
  rw [hfun] at hcount
  omega

theorem filter_by_axis_never_undefined (c : Point2f → ℚ) (ms : List DMatch)
    (query_pts train_pts : List KeyPoint) (p : ℚ) (hp0 : 0 ≤ p) (hp1 : p ≤ 1)
    (hvalid : ∀ gm ∈ ms, ValidMatch query_pts train_pts gm) :
    ∃ kept, filter_by_axis c ms query_pts train_pts p = .ret kept ∧
      kept.length ≤ ms.length - 4 := by
  by_cases hlr : trim_l ms.length p < trim_r ms.length p
  · obtain ⟨_, _, kept, _, _, _, heq, hk⟩ :=
      filter_by_axis_in_bounds c ms query_pts train_pts p hp0 hp1 hvalid hlr
    exact ⟨kept, heq, by omega⟩
  · exact ⟨[], filter_by_axis_collapse c ms query_pts train_pts p hvalid (not_lt.mp hlr),
      Nat.zero_le _⟩

/-- C15. For a percentile `p` in `[0, 1]` and a match list of size `n` with valid
keypoint indices, `filter_by_x` and `filter_by_y` never read the sorted offsets out
of range: each call returns a list, of at most `n - 4` matches; and when the early
empty return is not taken, `1 <= l < r <= n - 2`, both reads `sorted[l]`,
`sorted[r]` are in bounds and `lv <= rv`. -/
theorem axis_trim_reads_in_bounds (ms : List DMatch) (query_pts train_pts : List KeyPoint)
    (p : ℚ) (hp0 : 0 ≤ p) (hp1 : p ≤ 1)
    (hvalid : ∀ gm ∈ ms, ValidMatch query_pts train_pts gm) :
    (∃ kept, filter_by_x ms query_pts train_pts p = .ret kept ∧
      kept.length ≤ ms.length - 4) ∧
    (∃ kept, filter_by_y ms query_pts train_pts p = .ret kept ∧
      kept.length ≤ ms.length - 4) ∧
    (¬ trim_r ms.length p ≤ trim_l ms.length p →
      1 ≤ trim_l ms.length p ∧ trim_l ms.length p < trim_r ms.length p ∧
      trim_r ms.length p ≤ (ms.length : ℤ) - 2 ∧
      (∃ lv rv kept,
        (std_sort (ms.map (signed_offset Point2f.x query_pts train_pts))).get?
          (trim_l ms.length p).toNat = some lv ∧
        (std_sort (ms.map (signed_offset Point2f.x query_pts train_pts))).get?
          (trim_r ms.length p).toNat = some rv ∧
        lv ≤ rv ∧
        filter_by_x ms query_pts train_pts p = .ret kept ∧
        (kept.length : ℤ) ≤ (ms.length : ℤ) - 4) ∧
      (∃ lv rv kept,
        (std_sort (ms.map (signed_offset Point2f.y query_pts train_pts))).get?
          (trim_l ms.length p).toNat = some lv ∧
        (std_sort (ms.map (signed_offset Point2f.y query_pts train_pts))).get?
          (trim_r ms.length p).toNat = some rv ∧
        lv ≤ rv ∧
        filter_by_y ms query_pts train_pts p = .ret kept ∧
        (kept.length : ℤ) ≤ (ms.length : ℤ) - 4)) := by
  refine ⟨filter_by_axis_never_undefined Point2f.x ms query_pts train_pts p hp0 hp1 hvalid,
    filter_by_axis_never_undefined Point2f.y ms query_pts train_pts p hp0 hp1 hvalid, ?_⟩
  intro hne
  have hlr : trim_l ms.length p < trim_r ms.length p := not_le.mp hne
  exact ⟨trim_l_ge_one ms.length p hp0, hlr, trim_r_le ms.length p,
    filter_by_axis_in_bounds Point2f.x ms query_pts train_pts p hp0 hp1 hvalid hlr,
    filter_by_axis_in_bounds Point2f.y ms query_pts train_pts p hp0 hp1 hvalid hlr⟩

/-- Witness for C15: the six matches with offsets 0 to 5 at the percentile 0.05 of
the caller give a returned list of at most two matches. -/
theorem axis_trim_reads_in_bounds_witness :
    (∀ gm ∈ sixMatches, ValidMatch sixQuery sixTrain gm) ∧
    ∃ kept, filter_by_x sixMatches sixQuery sixTrain five_percent = .ret kept ∧
      kept.length ≤ sixMatches.length - 4 :=
  ⟨sixMatches_valid,
    (axis_trim_reads_in_bounds sixMatches sixQuery sixTrain five_percent
      (by norm_num [five_percent]) (by norm_num [five_percent]) sixMatches_valid).1⟩

/-! ### A match index outside the keypoints -/

theorem vec_at_of_invalid {α : Type} (v : List α) (i : Int)
    (h : i < 0 ∨ (v.length : Int) ≤ i) : vec_at v i = .undefined := by
  unfold vec_at
  split
  · rfl
  · rename_i hneg
    have hlen : v.length ≤ i.toNat := by omega
    have hnone : v.get? i.toNat = none := List.get?_eq_none.mpr hlen
    rw [hnone]

theorem not_valid_iff (query_pts train_pts : List KeyPoint) (gm : DMatch) :
    ¬ ValidMatch query_pts train_pts gm ↔
      index_ge_size gm.queryIdx query_pts.length ∨ index_ge_size gm.trainIdx train_pts.length := by
  unfold ValidMatch index_ge_size
  omega

theorem axis_offset_of_invalid (c : Point2f → ℚ) (query_pts train_pts : List KeyPoint)
    (gm : DMatch) (h : ¬ ValidMatch query_pts train_pts gm) :
    axis_offset c query_pts train_pts gm = .undefined := by
  unfold axis_offset
  rcases vec_at_cases query_pts gm.queryIdx with hq | ⟨a, hq⟩
  · rw [hq]
    rfl
  · rw [hq, bind_ret]
    have ht : vec_at train_pts gm.trainIdx = .undefined := by
      rcases (not_valid_iff query_pts train_pts gm).mp h with h1 | h1
      · rw [vec_at_of_invalid query_pts gm.queryIdx h1] at hq
        cases hq
      · exact vec_at_of_invalid train_pts gm.trainIdx h1
    rw [ht]
    rfl

theorem duv_distance_cases (norm_pt : Point2f → ℚ) (query_pts train_pts : List KeyPoint)
    (gm : DMatch) :
    (¬ ValidMatch query_pts train_pts gm ∧
        duv_distance norm_pt query_pts train_pts gm = .abort) ∨
      (ValidMatch query_pts train_pts gm ∧
        ∃ d, duv_distance norm_pt query_pts train_pts gm = .ret d) := by
  unfold duv_distance
  split
  · rename_i h
    exact Or.inl ⟨(not_valid_iff query_pts train_pts gm).mpr h, rfl⟩
  · rename_i h
    have hv : ValidMatch query_pts train_pts gm := by
      by_contra hn
      exact h ((not_valid_iff query_pts train_pts gm).mp hn)
    refine Or.inr ⟨hv, ?_⟩
    rw [vec_at_of_lt query_pts gm.queryIdx ⟨⟨0, 0⟩⟩ hv.1 hv.2.1,
      vec_at_of_lt train_pts gm.trainIdx ⟨⟨0, 0⟩⟩ hv.2.2.1 hv.2.2.2, bind_ret, bind_ret]
    exact ⟨_, rfl⟩

theorem mapM_abort {α β : Type} (f : α → Outcome β) (l : List α)
    (hcases : ∀ a ∈ l, f a = .abort ∨ ∃ b, f a = .ret b) (hbad : ∃ a ∈ l, f a = .abort) :
    Outcome.mapM f l = .abort := by
  induction l with
  | nil =>
    obtain ⟨a, ha, _⟩ := hbad
    cases ha
  | cons a as ih =>
    unfold Outcome.mapM
    rcases hcases a (List.mem_cons_self a as) with h | ⟨b, h⟩
    · rw [h]
      rfl
    · rw [h, bind_ret]
      have hrest : ∃ x ∈ as, f x = .abort := by
        obtain ⟨x, hx, hfx⟩ := hbad
        rcases List.mem_cons.mp hx with hxa | hxa
        · rw [hxa, h] at hfx
          cases hfx
        · exact ⟨x, hxa, hfx⟩
      rw [ih (fun x hx => hcases x (List.mem_cons_of_mem a hx)) hrest]
      rfl

theorem mapM_undefined {α β : Type} (f : α → Outcome β) (l : List α)
    (hcases : ∀ a ∈ l, f a = .undefined ∨ ∃ b, f a = .ret b)
    (hbad : ∃ a ∈ l, f a = .undefined) :
    Outcome.mapM f l = .undefined := by
  induction l with
  | nil =>
    obtain ⟨a, ha, _⟩ := hbad
    cases ha
  | cons a as ih =>
    unfold Outcome.mapM
    rcases hcases a (List.mem_cons_self a as) with h | ⟨b, h⟩
    · rw [h]
      rfl
    · rw [h, bind_ret]
      have hrest : ∃ x ∈ as, f x = .undefined := by
        obtain ⟨x, hx, hfx⟩ := hbad
        rcases List.mem_cons.mp hx with hxa | hxa
        · rw [hxa, h] at hfx
          cases hfx
        · exact ⟨x, hxa, hfx⟩
      rw [ih (fun x hx => hcases x (List.mem_cons_of_mem a hx)) hrest]
      rfl

theorem filterM_undefined {α : Type} (f : α → Outcome Bool) (l : List α)
    (hcases : ∀ a ∈ l, f a = .undefined ∨ ∃ b, f a = .ret b)
    (hbad : ∃ a ∈ l, f a = .undefined) :
    Outcome.filterM f l = .undefined := by
  induction l with
  | nil =>
    obtain ⟨a, ha, _⟩ := hbad
    cases ha
  | cons a as ih =>
    unfold Outcome.filterM
    rcases hcases a (List.mem_cons_self a as) with h | ⟨b, h⟩
    · rw [h]
      rfl
    · rw [h, bind_ret]
      have hrest : ∃ x ∈ as, f x = .undefined := by
        obtain ⟨x, hx, hfx⟩ := hbad
        rcases List.mem_cons.mp hx with hxa | hxa
        · rw [hxa, h] at hfx
          cases hfx
        · exact ⟨x, hxa, hfx⟩
      rw [ih (fun x hx => hcases x (List.mem_cons_of_mem a hx)) hrest]
      rfl

theorem filter_by_duv_aborts (norm_pt : Point2f → ℚ) (ms : List DMatch)
    (query_pts train_pts : List KeyPoint)
    (hbad : ∃ gm ∈ ms, ¬ ValidMatch query_pts train_pts gm) :
    filter_by_duv norm_pt ms query_pts train_pts = .abort := by
  unfold filter_by_duv
  rw [mapM_abort (duv_distance norm_pt query_pts train_pts) ms]
  · rfl
  · intro gm _
    rcases duv_distance_cases norm_pt query_pts train_pts gm with h | h
    · exact Or.inl h.2
    · exact Or.inr h.2
  · obtain ⟨gm, hgm, hinv⟩ := hbad
    rcases duv_distance_cases norm_pt query_pts train_pts gm with h | h
    · exact ⟨gm, hgm, h.2⟩
    · exact absurd h.1 hinv

theorem filter_by_axis_undefined (c : Point2f → ℚ) (ms : List DMatch)
    (query_pts train_pts : List KeyPoint) (p : ℚ)
    (hbad : ∃ gm ∈ ms, ¬ ValidMatch query_pts train_pts gm) :
    filter_by_axis c ms query_pts train_pts p = .undefined := by
  unfold filter_by_axis
  rw [mapM_undefined (axis_offset c query_pts train_pts) ms]
  · rfl
  · intro gm _
    exact axis_offset_cases c query_pts train_pts gm
  · obtain ⟨gm, hgm, hinv⟩ := hbad
    exact ⟨gm, hgm, axis_offset_of_invalid c query_pts train_pts gm hinv⟩

theorem filter_by_E_undefined (ms : List DMatch) (query_pts train_pts : List KeyPoint)
    (cameraMatrix E : Mat3) (hbad : ∃ gm ∈ ms, ¬ ValidMatch query_pts train_pts gm) :
    filter_by_E ms query_pts train_pts cameraMatrix E = .undefined := by
  unfold filter_by_E
  apply filterM_undefined
  · intro gm _
    rcases vec_at_cases train_pts gm.trainIdx with ht | ⟨a, ht⟩
    · rw [ht]
      exact Or.inl rfl
    · rw [ht, bind_ret]
      rcases vec_at_cases query_pts gm.queryIdx with hq | ⟨b, hq⟩
      · rw [hq]
        exact Or.inl rfl
      · rw [hq, bind_ret]
        exact Or.inr ⟨_, rfl⟩
  · obtain ⟨gm, hgm, hinv⟩ := hbad
    refine ⟨gm, hgm, ?_⟩
    rcases vec_at_cases train_pts gm.trainIdx with ht | ⟨a, ht⟩
    · rw [ht]
      rfl
    · rw [ht, bind_ret]
      have hq : vec_at query_pts gm.queryIdx = .undefined := by
        rcases (not_valid_iff query_pts train_pts gm).mp hinv with h1 | h1
        · exact vec_at_of_invalid query_pts gm.queryIdx h1
        · rw [vec_at_of_invalid train_pts gm.trainIdx h1] at ht
          cases ht
      rw [hq]
      rfl

theorem bind_ne_abort {α β : Type} (o : Outcome α) (f : α → Outcome β) (ho : o ≠ .abort)
    (hf : ∀ a, f a ≠ .abort) : o.bind f ≠ .abort := by
  cases o with
  | ret a => exact hf a
  | abort => exact absurd rfl ho
  | undefined =>
    intro h
    cases h

theorem vec_at_ne_abort {α : Type} (v : List α) (i : Int) : vec_at v i ≠ .abort := by
  rcases vec_at_cases v i with h | ⟨a, h⟩ <;> rw [h] <;> intro hc <;> cases hc

theorem mapM_ne_abort {α β : Type} (f : α → Outcome β) (l : List α)
    (h : ∀ a ∈ l, f a ≠ .abort) : Outcome.mapM f l ≠ .abort := by
  induction l with
  | nil =>
    intro hc
    cases hc
  | cons a as ih =>
    unfold Outcome.mapM
    apply bind_ne_abort _ _ (h a (List.mem_cons_self a as))
    intro b
    apply bind_ne_abort _ _ (ih fun x hx => h x (List.mem_cons_of_mem a hx))
    intro bs hc
    cases hc

theorem filterM_ne_abort {α : Type} (f : α → Outcome Bool) (l : List α)
    (h : ∀ a ∈ l, f a ≠ .abort) : Outcome.filterM f l ≠ .abort := by
  induction l with
  | nil =>
    intro hc
    cases hc
  | cons a as ih =>
    unfold Outcome.filterM
    apply bind_ne_abort _ _ (h a (List.mem_cons_self a as))
    intro b
    apply bind_ne_abort _ _ (ih fun x hx => h x (List.mem_cons_of_mem a hx))
    intro bs hc
    cases hc

theorem axis_offset_ne_abort (c : Point2f → ℚ) (query_pts train_pts : List KeyPoint)
    (gm : DMatch) : axis_offset c query_pts train_pts gm ≠ .abort := by
  unfold axis_offset
  apply bind_ne_abort _ _ (vec_at_ne_abort _ _)
  intro q
  apply bind_ne_abort _ _ (vec_at_ne_abort _ _)
  intro t hc
  cases hc

/-- No path of `filter_by_x` / `filter_by_y` ends in `exit(-1)`. -/
theorem filter_by_axis_ne_abort (c : Point2f → ℚ) (ms : List DMatch)
    (query_pts train_pts : List KeyPoint) (p : ℚ) :
    filter_by_axis c ms query_pts train_pts p ≠ .abort := by
  unfold filter_by_axis
  apply bind_ne_abort _ _
    (mapM_ne_abort _ _ fun gm _ => axis_offset_ne_abort c query_pts train_pts gm)
  intro ds
  dsimp only
  split
  · intro hc
    cases hc
  · apply bind_ne_abort _ _ (vec_at_ne_abort _ _)
    intro lv
    apply bind_ne_abort _ _ (vec_at_ne_abort _ _)
    intro rv
    apply filterM_ne_abort
    intro gm _
    apply bind_ne_abort _ _ (axis_offset_ne_abort c query_pts train_pts gm)
    intro d hc
    cases hc

/-- No path of `filter_by_E` ends in `exit(-1)`. -/
theorem filter_by_E_ne_abort (ms : List DMatch) (query_pts train_pts : List KeyPoint)
    (cameraMatrix E : Mat3) : filter_by_E ms query_pts train_pts cameraMatrix E ≠ .abort := by
  unfold filter_by_E
  apply filterM_ne_abort
  intro gm _
  apply bind_ne_abort _ _ (vec_at_ne_abort _ _)
  intro kt
  apply bind_ne_abort _ _ (vec_at_ne_abort _ _)
  intro kq hc
  cases hc

/-- On matches with valid indices `filter_by_duv` does not end in `exit(-1)`. -/
theorem filter_by_duv_ne_abort (norm_pt : Point2f → ℚ) (ms : List DMatch)
    (query_pts train_pts : List KeyPoint)
    (hvalid : ∀ gm ∈ ms, ValidMatch query_pts train_pts gm) :
    filter_by_duv norm_pt ms query_pts train_pts ≠ .abort := by
  unfold filter_by_duv
  apply bind_ne_abort
  · apply mapM_ne_abort
    intro gm hgm
    rcases duv_distance_cases norm_pt query_pts train_pts gm with h | h
    · exact absurd (hvalid gm hgm) h.1
    · obtain ⟨d, hd⟩ := h.2
      rw [hd]
      intro hc
      cases hc
  · intro ds
    dsimp only
    apply bind_ne_abort _ _ (vec_at_ne_abort _ _)
    intro mid_dis hc
    cases hc

/-- C13 (amended). Of the four filters that dereference match indices only
`filter_by_duv` tests them: it ends in `exit(-1)` exactly when a match has its
`queryIdx` or `trainIdx` outside the keypoints. `filter_by_x`, `filter_by_y` and
`filter_by_E` have no such test and no path that ends in `exit(-1)`; on a list
with such a match they read a keypoint out of range. -/
theorem invalid_index_aborts_only_in_filter_by_duv (norm_pt : Point2f → ℚ) (ms : List DMatch)
    (query_pts train_pts : List KeyPoint) (p : ℚ) (cameraMatrix E : Mat3) :
    (filter_by_duv norm_pt ms query_pts train_pts = .abort ↔
      ∃ gm ∈ ms, ¬ ValidMatch query_pts train_pts gm) ∧
    filter_by_x ms query_pts train_pts p ≠ .abort ∧
    filter_by_y ms query_pts train_pts p ≠ .abort ∧
    filter_by_E ms query_pts train_pts cameraMatrix E ≠ .abort ∧
    ((∃ gm ∈ ms, ¬ ValidMatch query_pts train_pts gm) →
      filter_by_x ms query_pts train_pts p = .undefined ∧
      filter_by_y ms query_pts train_pts p = .undefined ∧
      filter_by_E ms query_pts train_pts cameraMatrix E = .undefined) := by
  refine ⟨⟨?_, filter_by_duv_aborts norm_pt ms query_pts train_pts⟩,
    filter_by_axis_ne_abort Point2f.x ms query_pts train_pts p,
    filter_by_axis_ne_abort Point2f.y ms query_pts train_pts p,
    filter_by_E_ne_abort ms query_pts train_pts cameraMatrix E, ?_⟩
  · intro habort
    by_contra hnone
    have hvalid : ∀ gm ∈ ms, ValidMatch query_pts train_pts gm := by
      intro gm hgm
      by_contra hinv
      exact hnone ⟨gm, hgm, hinv⟩
    exact filter_by_duv_ne_abort norm_pt ms query_pts train_pts hvalid habort
  · intro hbad
    exact ⟨filter_by_axis_undefined Point2f.x ms query_pts train_pts p hbad,
      filter_by_axis_undefined Point2f.y ms query_pts train_pts p hbad,
      filter_by_E_undefined ms query_pts train_pts cameraMatrix E hbad⟩

/-- C13 (counterexample). One match with query index 7 against four query
keypoints, at the percentile 0.05 of the caller: `filter_by_x`, `filter_by_y` and
`filter_by_E` do not end in the abort outcome, they read `query_pts[7]` out of
range; `filter_by_duv` does abort. -/
theorem axis_filters_do_not_abort_on_invalid_index :
    (∃ gm ∈ ([⟨7, 0, 0, 12⟩] : List DMatch), ¬ ValidMatch fourQuery fourTrain gm) ∧
    filter_by_x [⟨7, 0, 0, 12⟩] fourQuery fourTrain five_percent ≠ .abort ∧
    filter_by_y [⟨7, 0, 0, 12⟩] fourQuery fourTrain five_percent ≠ .abort ∧
    filter_by_E [⟨7, 0, 0, 12⟩] fourQuery fourTrain Mat3.one Mat3.one ≠ .abort ∧
    filter_by_x [⟨7, 0, 0, 12⟩] fourQuery fourTrain five_percent = .undefined ∧
    filter_by_y [⟨7, 0, 0, 12⟩] fourQuery fourTrain five_percent = .undefined ∧
    filter_by_E [⟨7, 0, 0, 12⟩] fourQuery fourTrain Mat3.one Mat3.one = .undefined ∧
    filter_by_duv l1Point [⟨7, 0, 0, 12⟩] fourQuery fourTrain = .abort := by
  have hbad : ∃ gm ∈ ([⟨7, 0, 0, 12⟩] : List DMatch), ¬ ValidMatch fourQuery fourTrain gm :=
    ⟨⟨7, 0, 0, 12⟩, List.mem_singleton.mpr rfl, by norm_num [ValidMatch, fourQuery]⟩
  exact ⟨hbad,
    filter_by_axis_ne_abort Point2f.x _ _ _ _,
    filter_by_axis_ne_abort Point2f.y _ _ _ _,
    filter_by_E_ne_abort _ _ _ _ _,
    filter_by_axis_undefined Point2f.x _ _ _ _ hbad,
    filter_by_axis_undefined Point2f.y _ _ _ _ hbad,
    filter_by_E_undefined _ _ _ _ _ hbad,
    filter_by_duv_aborts l1Point _ _ _ hbad⟩

/-! ### Redetection -/

open FisheyeFeatureTrackerCuda

theorem detectPoints_request (prim : TrackPrimitives) (MIN_DIST : ℚ) (img : GpuMat)
    (cur_pts : List Point2f) (require_pts : Int) :
    (detectPoints prim MIN_DIST img cur_pts require_pts).detector_request
      = if require_pts - (cur_pts.length : Int) > require_pts.tdiv 4 then
          some (require_pts - (cur_pts.length : Int))
        else none := by
  unfold detectPoints
  dsimp only
  split_ifs <;> rfl

theorem detectPoints_n_pts (prim : TrackPrimitives) (MIN_DIST : ℚ) (img : GpuMat)
    (cur_pts : List Point2f) (require_pts : Int) :
    (detectPoints prim MIN_DIST img cur_pts require_pts).n_pts
      = if require_pts - (cur_pts.length : Int) > require_pts.tdiv 4 then
          if cur_pts.length > 0 then
            (prim.detect img (require_pts - (cur_pts.length : Int)) MIN_DIST).filter fun pt =>
              !(neighbour_found (prim.radiusSearch cur_pts pt MIN_DIST 1))
          else prim.detect img (require_pts - (cur_pts.length : Int)) MIN_DIST
        else [] := by
  unfold detectPoints
  dsimp only
  split_ifs <;> rfl

/-- C11. For a target `require_pts >= 0`, `detectPoints` invokes corner detection
exactly when `4 * |cur_pts| < 3 * require_pts`; it then asks for the positive
maximum count `require_pts - |cur_pts|`, so that `|cur_pts| + |n_pts| <=
require_pts` when the detector honours its maximum count; in every other case
`n_pts` is returned empty. -/
theorem detectPoints_invokes_detector_iff (prim : TrackPrimitives) (MIN_DIST : ℚ)
    (img : GpuMat) (cur_pts : List Point2f) (require_pts : Int) (hreq : 0 ≤ require_pts) :
    ((detectPoints prim MIN_DIST img cur_pts require_pts).detector_request ≠ none ↔
      4 * (cur_pts.length : Int) < 3 * require_pts) ∧
    (∀ k, (detectPoints prim MIN_DIST img cur_pts require_pts).detector_request = some k →
      k = require_pts - (cur_pts.length : Int) ∧ 0 < k) ∧
    ((detectPoints prim MIN_DIST img cur_pts require_pts).detector_request = none →
      (detectPoints prim MIN_DIST img cur_pts require_pts).n_pts = []) ∧
    ((∀ k, 0 < k → ((prim.detect img k MIN_DIST).length : Int) ≤ k) →
      (detectPoints prim MIN_DIST img cur_pts require_pts).detector_request ≠ none →
      (cur_pts.length : Int)
          + ((detectPoints prim MIN_DIST img cur_pts require_pts).n_pts.length : Int)
        ≤ require_pts) := by
  have hdiv : require_pts.tdiv 4 = require_pts / 4 := Int.tdiv_eq_ediv hreq (by norm_num)
  rw [detectPoints_request, detectPoints_n_pts, hdiv]
  by_cases h : require_pts - (cur_pts.length : Int) > require_pts / 4
  · rw [if_pos h, if_pos h]
    have hpos : 0 < require_pts - (cur_pts.length : Int) := by omega
    refine ⟨?_, ?_, ?_, ?_⟩
    · constructor
      · intro _
        omega
      · intro _ hcontra
        cases hcontra
    · intro k hk
      have hk2 : require_pts - (cur_pts.length : Int) = k := Option.some.inj hk
      omega
    · intro hcontra
      cases hcontra
    · intro hmax _
      have hdet := hmax _ hpos
      by_cases hc : cur_pts.length > 0
      · rw [if_pos hc]
        have hsub : ((prim.detect img (require_pts - (cur_pts.length : Int)) MIN_DIST).filter
            fun pt => !(neighbour_found (prim.radiusSearch cur_pts pt MIN_DIST 1))).length
            ≤ (prim.detect img (require_pts - (cur_pts.length : Int)) MIN_DIST).length :=
          List.length_filter_le _ _
        omega
      · rw [if_neg hc]
        omega
  · rw [if_neg h, if_neg h]
    refine ⟨?_, ?_, ?_, ?_⟩
    · constructor
      · intro hcontra
        exact absurd rfl hcontra
      · intro h4
        omega
    · intro k hk
      cases hk
    · intro _
      rfl
    · intro _ hcontra
      exact absurd rfl hcontra

theorem examplePrim_detect_honours_count (img : GpuMat) (d : ℚ) :
    ∀ k : Int, 0 < k → (((examplePrim.detect img k d).length : Nat) : Int) ≤ k := by
  intro k hk
  show (((cornerCandidates.take k.toNat).length : Nat) : Int) ≤ k
  rw [List.length_take]
  omega

/-- Witness for C11: one active point and a target of four points, with the
example detector, which honours its maximum count. -/
theorem detectPoints_invokes_detector_iff_witness :
    (0 : Int) ≤ 4 ∧
    (detectPoints examplePrim 30 blankImage [⟨10, 20⟩] 4).detector_request = some 3 ∧
    (([⟨10, 20⟩] : List Point2f).length : Int)
        + ((detectPoints examplePrim 30 blankImage [⟨10, 20⟩] 4).n_pts.length : Int) ≤ 4 := by
  have key := detectPoints_invokes_detector_iff examplePrim 30 blankImage [⟨10, 20⟩] 4
    (by norm_num)
  have hreq : (detectPoints examplePrim 30 blankImage [⟨10, 20⟩] 4).detector_request
      = some 3 := by
    rw [detectPoints_request]
    norm_num [Int.tdiv]
  refine ⟨by norm_num, hreq, ?_⟩
  exact key.2.2.2 (examplePrim_detect_honours_count blankImage 30) (by rw [hreq]; simp)

theorem flann_indices_length (pts : List Point2f) (q : Point2f) (r : ℚ) :
    (flann_radius_search pts q r 1).indices.length = 1 := by
  have t1 : Int.toNat 1 = 1 := rfl
  show (((((List.range pts.length).filter fun i =>
      decide (flann_l2 (pts.getD i ⟨0, 0⟩) q ≤ r)).take (Int.toNat 1)).map
        fun (i : Nat) => (i : Int))
      ++ List.replicate (Int.toNat 1 - ((List.range pts.length).filter fun i =>
          decide (flann_l2 (pts.getD i ⟨0, 0⟩) q ≤ r)).length) (-1)).length = 1
  rw [List.length_append, List.length_map, List.length_take, List.length_replicate, t1]
  omega

/-- The test of `detectPoints` on the `cv::flann` radius search succeeds exactly
when an indexed point has squared distance at most `radius` to the query. -/
theorem flann_neighbour_found (pts : List Point2f) (q : Point2f) (r : ℚ) :
    neighbour_found (flann_radius_search pts q r 1) = true ↔
      ∃ a ∈ pts, flann_l2 a q ≤ r := by
  have hlen := flann_indices_length pts q r
  have hret : (flann_radius_search pts q r 1).ret
      = ((((List.range pts.length).filter fun i =>
          decide (flann_l2 (pts.getD i ⟨0, 0⟩) q ≤ r)).length : Nat) : Int) := rfl
  unfold neighbour_found
  rw [hlen, hret]
  simp only [gt_iff_lt, Nat.lt_one_iff, Nat.pos_of_ne_zero, zero_lt_one, decide_True,
    Bool.and_true, decide_eq_true_eq, ne_eq, Int.natCast_eq_zero, List.length_eq_zero]
  constructor
  · intro hne
    obtain ⟨i, hi⟩ := List.exists_mem_of_ne_nil _ hne
    rw [List.mem_filter, List.mem_range, decide_eq_true_eq] at hi
    refine ⟨pts.getD i ⟨0, 0⟩, ?_, hi.2⟩
    rw [List.getD_eq_getElem pts ⟨0, 0⟩ hi.1]
    exact List.getElem_mem _
  · rintro ⟨a, ha, hw⟩
    obtain ⟨i, hi, hget⟩ := List.getElem_of_mem ha
    have hmem : i ∈ (List.range pts.length).filter fun i =>
        decide (flann_l2 (pts.getD i ⟨0, 0⟩) q ≤ r) := by
      rw [List.mem_filter]
      refine ⟨List.mem_range.mpr hi, ?_⟩
      rw [List.getD_eq_getElem pts ⟨0, 0⟩ hi, hget]
      exact decide_eq_true hw
    exact List.ne_nil_of_mem hmem

/-- C12. With the radius search of `cv::flann`, whose `L2` distance is the squared
Euclidean distance, `detectPoints` returns exactly the detector outputs whose
squared distance to every point of `cur_pts` exceeds `MIN_DIST`, in the
detector's order: the excluded zone around an active point has radius
`sqrt(MIN_DIST)` pixels, not `MIN_DIST` pixels. `n_pts` is a sub-list of the
detector output and the whole of it when `cur_pts` is empty. -/
theorem detectPoints_keeps_distant_candidates (prim : TrackPrimitives) (MIN_DIST : ℚ)
    (img : GpuMat) (cur_pts : List Point2f) (require_pts : Int)
    (hflann : ∀ q, prim.radiusSearch cur_pts q MIN_DIST 1
      = flann_radius_search cur_pts q MIN_DIST 1) :
    (∀ k, (detectPoints prim MIN_DIST img cur_pts require_pts).detector_request = some k →
      (detectPoints prim MIN_DIST img cur_pts require_pts).n_pts
        = (prim.detect img k MIN_DIST).filter fun pt =>
            decide (∀ a ∈ cur_pts, MIN_DIST < flann_l2 a pt)) ∧
    (∀ pt ∈ (detectPoints prim MIN_DIST img cur_pts require_pts).n_pts, ∀ a ∈ cur_pts,
      MIN_DIST < flann_l2 a pt) ∧
    (∀ k, (detectPoints prim MIN_DIST img cur_pts require_pts).detector_request = some k →
      (detectPoints prim MIN_DIST img cur_pts require_pts).n_pts.Sublist
        (prim.detect img k MIN_DIST)) ∧
    (∀ k, (detectPoints prim MIN_DIST img cur_pts require_pts).detector_request = some k →
      cur_pts = [] →
      (detectPoints prim MIN_DIST img cur_pts require_pts).n_pts
        = prim.detect img k MIN_DIST) := by
  have hkeep : ∀ pt, (!(neighbour_found (prim.radiusSearch cur_pts pt MIN_DIST 1)))
      = decide (∀ a ∈ cur_pts, MIN_DIST < flann_l2 a pt) := by
    intro pt
    rw [hflann pt]
    by_cases hfound : neighbour_found (flann_radius_search cur_pts pt MIN_DIST 1) = true
    · obtain ⟨a, ha, hw⟩ := (flann_neighbour_found cur_pts pt MIN_DIST).mp hfound
      rw [hfound]
      symm
      rw [Bool.not_true, decide_eq_false_iff_not]
      intro hall
      exact absurd (hall a ha) (not_lt.mpr hw)
    · have hnone : ¬ ∃ a ∈ cur_pts, flann_l2 a pt ≤ MIN_DIST := fun h =>
        hfound ((flann_neighbour_found cur_pts pt MIN_DIST).mpr h)
      rw [Bool.not_eq_true] at hfound
      rw [hfound]
      symm
      rw [Bool.not_false, decide_eq_true_eq]
      intro a ha
      by_contra hle
      exact hnone ⟨a, ha, not_lt.mp hle⟩
  have hfilter : ∀ l : List Point2f,
      (l.filter fun pt => !(neighbour_found (prim.radiusSearch cur_pts pt MIN_DIST 1)))
        = l.filter fun pt => decide (∀ a ∈ cur_pts, MIN_DIST < flann_l2 a pt) := by
    intro l
    congr 1
    funext pt
    exact hkeep pt
  rw [detectPoints_request, detectPoints_n_pts]
  by_cases h : require_pts - (cur_pts.length : Int) > require_pts.tdiv 4
  · rw [if_pos h, if_pos h]
    have hn : (if cur_pts.length > 0 then
          (prim.detect img (require_pts - (cur_pts.length : Int)) MIN_DIST).filter fun pt =>
            !(neighbour_found (prim.radiusSearch cur_pts pt MIN_DIST 1))
        else prim.detect img (require_pts - (cur_pts.length : Int)) MIN_DIST)
        = (prim.detect img (require_pts - (cur_pts.length : Int)) MIN_DIST).filter fun pt =>
            decide (∀ a ∈ cur_pts, MIN_DIST < flann_l2 a pt) := by
      by_cases hc : cur_pts.length > 0
      · rw [if_pos hc, hfilter]
      · rw [if_neg hc]
        have hnil : cur_pts = [] := List.length_eq_zero.mp (by omega)
        subst hnil
        symm
        rw [List.filter_eq_self]
        intro pt _
        simp
    rw [hn]
    refine ⟨?_, ?_, ?_, ?_⟩
    · intro k hk
      rw [← Option.some.inj hk]
    · intro pt hpt a ha
      rw [List.mem_filter, decide_eq_true_eq] at hpt
      exact hpt.2 a ha
    · intro k hk
      rw [← Option.some.inj hk]
      exact List.filter_sublist _
    · intro k hk hnil
      rw [← Option.some.inj hk]
      subst hnil
      rw [List.filter_eq_self]
      intro pt _
      simp
  · rw [if_neg h, if_neg h]
    refine ⟨?_, ?_, ?_, ?_⟩
    · intro k hk
      cases hk
    · intro pt hpt
      cases hpt
    · intro k hk
      cases hk
    · intro k hk
      cases hk

/-- Failing input for C12: with the minimum distance 30 and the active point
`(10, 20)`, the corner candidate `(20, 20)` is returned although it lies 10
pixels from the active point: its squared distance 100 exceeds the radius 30
that the index compares it with. -/
theorem detectPoints_keeps_distant_candidates_witness :
    (∀ q, examplePrim.radiusSearch [⟨10, 20⟩] q 30 1 = flann_radius_search [⟨10, 20⟩] q 30 1) ∧
    examplePrim.detect blankImage 3 30 = [⟨12, 21⟩, ⟨20, 20⟩, ⟨100, 100⟩] ∧
    (detectPoints examplePrim 30 blankImage [⟨10, 20⟩] 4).n_pts = [⟨20, 20⟩, ⟨100, 100⟩] ∧
    within_radius ⟨10, 20⟩ ⟨20, 20⟩ 30 ∧
    flann_l2 ⟨10, 20⟩ ⟨20, 20⟩ = 100 := by
  have hreq : (detectPoints examplePrim 30 blankImage [⟨10, 20⟩] 4).detector_request
      = some 3 := by
    rw [detectPoints_request]
    norm_num [Int.tdiv]
  have hdet : examplePrim.detect blankImage 3 30 = [⟨12, 21⟩, ⟨20, 20⟩, ⟨100, 100⟩] := rfl
  have key := (detectPoints_keeps_distant_candidates examplePrim 30 blankImage [⟨10, 20⟩] 4
    (fun _ => rfl)).1 3 hreq
  refine ⟨fun _ => rfl, hdet, ?_, by norm_num [within_radius], by norm_num [flann_l2]⟩
  rw [key, hdet]
  norm_num [List.filter, flann_l2]

/-! ### The previous state of the four views -/

theorem store_frame_prev (prim : TrackPrimitives) (s : FisheyeFeatureTrackerCuda) :
    (store_frame prim s).prev_up_top_pts = (store_frame prim s).cur_up_top_pts ∧
    (store_frame prim s).prev_down_top_pts = (store_frame prim s).cur_down_top_pts ∧
    (store_frame prim s).prev_up_side_pts = (store_frame prim s).cur_up_side_pts ∧
    (store_frame prim s).prev_down_side_pts = (store_frame prim s).cur_down_side_pts ∧
    (store_frame prim s).prev_up_top_un_pts = (store_frame prim s).cur_up_top_un_pts ∧
    (store_frame prim s).prev_down_top_un_pts = (store_frame prim s).cur_down_top_un_pts ∧
    (store_frame prim s).prev_up_side_un_pts = (store_frame prim s).cur_up_side_un_pts ∧
    (store_frame prim s).prev_down_side_un_pts = (store_frame prim s).cur_down_side_un_pts ∧
    (store_frame prim s).prev_up_top_un_pts_map = (store_frame prim s).cur_up_top_un_pts_map ∧
    (store_frame prim s).prev_down_top_un_pts_map
      = (store_frame prim s).cur_down_top_un_pts_map ∧
    (store_frame prim s).prev_up_side_un_pts_map = (store_frame prim s).cur_up_side_un_pts_map ∧
    (store_frame prim s).prev_down_side_un_pts_map
      = (store_frame prim s).cur_up_side_un_pts_map ∧
    (store_frame prim s).prev_time = (store_frame prim s).cur_time :=
  ⟨rfl, rfl, rfl, rfl, rfl, rfl, rfl, rfl, rfl, rfl, rfl, rfl, rfl⟩

theorem trackImage_of_not_blank (cfg : TrackerConfig) (prim : TrackPrimitives)
    (s : FisheyeFeatureTrackerCuda) (_cur_time : ℚ)
    (up_top_img down_top_img up_side_img down_side_img : GpuMat)
    (hblank : (track_views cfg prim s _cur_time up_top_img down_top_img up_side_img
      down_side_img).is_blank_init = false) :
    (trackImage cfg prim s _cur_time up_top_img down_top_img up_side_img down_side_img).2
      = store_frame prim
          (track_views cfg prim s _cur_time up_top_img down_top_img up_side_img
            down_side_img) := by
  unfold trackImage
  dsimp only
  rw [hblank]
  rfl

/-- C14. After a `trackImage` call that is not a blank initialisation, the stored
previous pixel points and previous undistorted rays of each of the four views,
and the previous id-to-ray maps of the up-top, down-top and up-side views, equal
that view's current state, and `prev_time = cur_time`; but the previous id-to-ray
map of the down-side view is the current map of the up-side view
(`prev_down_side_un_pts_map = cur_up_side_un_pts_map`), not its own. -/
theorem trackImage_stores_previous_state (cfg : TrackerConfig) (prim : TrackPrimitives)
    (s : FisheyeFeatureTrackerCuda) (_cur_time : ℚ)
    (up_top_img down_top_img up_side_img down_side_img : GpuMat)
    (hblank : (track_views cfg prim s _cur_time up_top_img down_top_img up_side_img
      down_side_img).is_blank_init = false) :
    let after :=
      (trackImage cfg prim s _cur_time up_top_img down_top_img up_side_img down_side_img).2
    after.prev_up_top_pts = after.cur_up_top_pts ∧
    after.prev_down_top_pts = after.cur_down_top_pts ∧
    after.prev_up_side_pts = after.cur_up_side_pts ∧
    after.prev_down_side_pts = after.cur_down_side_pts ∧
    after.prev_up_top_un_pts = after.cur_up_top_un_pts ∧
    after.prev_down_top_un_pts = after.cur_down_top_un_pts ∧
    after.prev_up_side_un_pts = after.cur_up_side_un_pts ∧
    after.prev_down_side_un_pts = after.cur_down_side_un_pts ∧
    after.prev_up_top_un_pts_map = after.cur_up_top_un_pts_map ∧
    after.prev_down_top_un_pts_map = after.cur_down_top_un_pts_map ∧
    after.prev_up_side_un_pts_map = after.cur_up_side_un_pts_map ∧
    after.prev_down_side_un_pts_map = after.cur_up_side_un_pts_map ∧
    after.prev_time = after.cur_time := by
  intro after
  have h : after = store_frame prim
      (track_views cfg prim s _cur_time up_top_img down_top_img up_side_img down_side_img) :=
    trackImage_of_not_blank cfg prim s _cur_time up_top_img down_top_img up_side_img
      down_side_img hblank
  rw [h]
  exact store_frame_prev prim _

theorem sideTracker_not_blank :
    (track_views exampleConfig examplePrim sideTracker 1 blankImage blankImage blankImage
      blankImage).is_blank_init = false := rfl

theorem sideTracker_up_side_map :
    (store_frame examplePrim (track_views exampleConfig examplePrim sideTracker 1 blankImage
      blankImage blankImage blankImage)).cur_up_side_un_pts_map = [(1, ⟨10, 20, 1⟩)] := by
  simp [store_frame, track_views, examplePrim, exampleConfig, sideTracker, detectPoints]

theorem sideTracker_down_side_map :
    (store_frame examplePrim (track_views exampleConfig examplePrim sideTracker 1 blankImage
      blankImage blankImage blankImage)).cur_down_side_un_pts_map = [(1, ⟨10, 25, 1⟩)] := by
  simp [store_frame, track_views, examplePrim, exampleConfig, sideTracker, detectPoints]
  norm_num

/-- Witness for C14: a frame in which feature 1 is seen at `(10, 20)` in the
up-side view and at `(10, 25)` in the down-side view. After the call the previous
down-side map holds the up-side ray of the feature, which differs from the current
down-side map. -/
theorem trackImage_stores_previous_state_witness :
    (track_views exampleConfig examplePrim sideTracker 1 blankImage blankImage blankImage
      blankImage).is_blank_init = false ∧
    (trackImage exampleConfig examplePrim sideTracker 1 blankImage blankImage blankImage
      blankImage).2.prev_down_side_un_pts_map = [(1, ⟨10, 20, 1⟩)] ∧
    (trackImage exampleConfig examplePrim sideTracker 1 blankImage blankImage blankImage
      blankImage).2.cur_down_side_un_pts_map = [(1, ⟨10, 25, 1⟩)] ∧
    (trackImage exampleConfig examplePrim sideTracker 1 blankImage blankImage blankImage
      blankImage).2.prev_down_side_un_pts_map
      ≠ (trackImage exampleConfig examplePrim sideTracker 1 blankImage blankImage blankImage
          blankImage).2.cur_down_side_un_pts_map := by
  have key := trackImage_stores_previous_state exampleConfig examplePrim sideTracker 1
    blankImage blankImage blankImage blankImage sideTracker_not_blank
  have hstore := trackImage_of_not_blank exampleConfig examplePrim sideTracker 1
    blankImage blankImage blankImage blankImage sideTracker_not_blank
  have hprev : (trackImage exampleConfig examplePrim sideTracker 1 blankImage blankImage
      blankImage blankImage).2.prev_down_side_un_pts_map = [(1, ⟨10, 20, 1⟩)] := by
    rw [key.2.2.2.2.2.2.2.2.2.2.2.1, hstore]
    exact sideTracker_up_side_map
  have hcur : (trackImage exampleConfig examplePrim sideTracker 1 blankImage blankImage
      blankImage blankImage).2.cur_down_side_un_pts_map = [(1, ⟨10, 25, 1⟩)] := by
    rw [hstore]
    exact sideTracker_down_side_map
  refine ⟨sideTracker_not_blank, hprev, hcur, ?_⟩
  rw [hprev, hcur]
  intro h
  have h2 := (Prod.mk.inj (List.cons.inj h).1).2
  have h3 : (20 : ℚ) = 25 := congrArg Point3f.y h2
  norm_num at h3

end VinsFisheye
